import Mathlib

/-!
# Distributed file store: gateway S1 and storage nodes S3, S4

A shallow embedding of `src/S1.c`, `src/S3.c` and `src/S4.c`.

* Bytes are natural numbers, byte strings are lists of them; a C string is the
  content of a buffer up to its first NUL byte.
* A socket is read through a script of arrival events; `recv` takes at most the
  requested number of bytes from the event at the head of the script, and an
  exhausted script is an orderly shutdown by the peer.
* The file system is a finite map from resolved paths to nodes together with the
  POSIX calls the sources make (`stat`, `mkdir`, `remove`, `fopen`, `fwrite`,
  `fread`).  Path resolution is lexical: empty and `.` components are dropped and
  `..` steps to the parent, which is what the kernel does when no component is a
  symbolic link and the directories named before a `..` exist.
* A handler returns `none` where the C program has undefined behaviour (a write
  past the end of a fixed buffer, a read of an object that was never assigned,
  the use of a stream after `fclose`).
* `printf` logging, socket options and `usleep` have no counterpart.
-/

namespace DFS

/-! ## Bytes and C strings -/

abbrev Bytes := List Nat

/-- The bytes of a string literal, without the terminating NUL. -/
def str (s : String) : Bytes := s.toList.map Char.toNat

/-- The constant `BUFFER_SIZE` of the gateway (S1.c 19) and of the client; the storage nodes
define their own (`S3.BUFFER_SIZE`, `S4.BUFFER_SIZE`). -/
def BUFFER_SIZE : Nat := 8192

/-- The constant `PATH_MAX` of `<limits.h>` on Linux. -/
def PATH_MAX : Nat := 4096

/-- The C string held by a buffer: its bytes before the first NUL. -/
def cstr (buf : Bytes) : Bytes := buf.takeWhile (fun c => c != 0)

/-- The bytes `send(sock, lit, n, 0)` transmits when `lit` is a string literal: the first `n`
bytes of the literal followed by its terminating NUL. -/
def sendLit (lit : String) (n : Nat) : Bytes := (str lit ++ [0]).take n

/-- The string `snprintf(buf, size, ...)` leaves in `buf` when the formatted text is `s`:
at most `size - 1` bytes of it. -/
def snprintf (size : Nat) (s : Bytes) : Bytes := s.take (size - 1)

/-- The suffix of `s` that starts at the last occurrence of `c` (`strrchr`), if `c` occurs. -/
def strrchr : Bytes → Nat → Option Bytes
  | [], _ => none
  | x :: s, c =>
    match strrchr s c with
    | some r => some r
    | none => if x = c then some (x :: s) else none

/-- The `isspace` of the C locale. -/
def isspace (c : Nat) : Bool := c == 32 || (9 ≤ c && c ≤ 13)

/-- One `%s` conversion of `sscanf`: skip white space, then take the longest run of
non-white-space bytes.  The result is the token and the rest of the input; `none` when the
input ends before a token starts (the conversion fails and nothing is stored). -/
def scanToken (s : Bytes) : Option (Bytes × Bytes) :=
  let s1 := s.dropWhile isspace
  if s1 = [] then none
  else some (s1.takeWhile (fun c => !isspace c), s1.dropWhile (fun c => !isspace c))

/-- The conversions ` %[^\n]` of `sscanf`: skip white space, then take the longest run of
bytes other than a newline; `none` when that run is empty. -/
def scanLine (s : Bytes) : Option Bytes :=
  let s1 := s.dropWhile isspace
  let r := s1.takeWhile (fun c => c != 10)
  if r = [] then none else some r

/-- The call `sscanf(buffer, "%s %[^\n]", command, param1)` with `param1` zero-initialised and
`command` not initialised.  The result is `(command, param1)`: `command` is `none` when no
token was stored in it, `param1` is the empty string when nothing was stored in it. -/
def sscanf_command (buffer : Bytes) : Option Bytes × Bytes :=
  match scanToken (cstr buffer) with
  | none => (none, [])
  | some (command, rest) => (some command, (scanLine rest).getD [])

/-- The call `sscanf(buffer, "%*s %s %s", a, b)`: each result is `none` when nothing was
stored in the corresponding array. -/
def sscanf_two (buffer : Bytes) : Option Bytes × Option Bytes :=
  match scanToken (cstr buffer) with
  | none => (none, none)
  | some (_, r0) =>
    match scanToken r0 with
    | none => (none, none)
    | some (a, r1) =>
      match scanToken r1 with
      | none => (some a, none)
      | some (b, _) => (some a, some b)

/-- The call `sscanf(buffer, "%*s %s", a)`. -/
def sscanf_one (buffer : Bytes) : Option Bytes :=
  match scanToken (cstr buffer) with
  | none => none
  | some (_, r0) => (scanToken r0).map Prod.fst

/-- Removes the trailing `/` bytes of a path. -/
def stripSlashes (s : Bytes) : Bytes := (s.reverse.dropWhile (fun c => c == 47)).reverse

/-- The text after the last `/` of `s` (all of `s` when it has none). -/
def lastSegment (s : Bytes) : Bytes := (s.reverse.takeWhile (fun c => c != 47)).reverse

/-- The `basename` of `<libgen.h>` (the POSIX one, which edits its argument).  The result is
the returned string and the string left in the argument buffer: trailing slashes are cut off
the argument, and a path of slashes only yields `/`. -/
def basename (path : Bytes) : Bytes × Bytes :=
  if path = [] then (str ".", path)
  else
    let t := stripSlashes path
    if t = [] then (str "/", path) else (lastSegment t, t)

/-- The `dirname` of `<libgen.h>`: the path without its last component and without the
slashes before it; `.` when the path has no slash, `/` when nothing precedes the last
component (`//` for exactly two leading slashes). -/
def dirname (path : Bytes) : Bytes :=
  let t := if stripSlashes path = [] then path else stripSlashes path
  if 47 ∉ t then str "."
  else
    let d := t.take (t.length - (lastSegment t).length)
    let r := stripSlashes d
    if r = [] then (if d.length = 2 then str "//" else str "/") else r

/-- The function `htobe64`: the eight bytes, as they are sent, of a `uint64_t`. -/
def htobe64 (n : Nat) : Bytes :=
  [n / 2 ^ 56 % 256, n / 2 ^ 48 % 256, n / 2 ^ 40 % 256, n / 2 ^ 32 % 256,
   n / 2 ^ 24 % 256, n / 2 ^ 16 % 256, n / 2 ^ 8 % 256, n % 256]

/-- The function `be64toh` applied to the eight bytes as they were received. -/
def be64toh (b : Bytes) : Nat := b.foldl (fun acc x => acc * 256 + x % 256) 0 % 2 ^ 64

/-- The eight bytes of `uint64_t zero = 0`. -/
def zero8 : Bytes := List.replicate 8 0

/-! ## File system -/

/-- A resolved path: the names from the root down. -/
abbrev Key := List Bytes

/-- The components of a path string: the maximal runs of bytes other than `/`.  The second
argument is the component being read. -/
def components : Bytes → Bytes → List Bytes
  | [], cur => if cur = [] then [] else [cur]
  | c :: s, cur =>
    if c = 47 then (if cur = [] then components s [] else cur :: components s [])
    else components s (cur ++ [c])

/-- One step of path resolution from the directory `dir`. -/
def resolveStep (dir : Key) (name : Bytes) : Key :=
  if name = str "." then dir
  else if name = str ".." then dir.dropLast
  else dir ++ [name]

/-- Path resolution.  Relative paths are resolved from the root. -/
def normPath (path : Bytes) : Key := (components path []).foldl resolveStep []

/-- A file-system node.  A regular file has its content and whether it may be opened for
reading and for writing; a directory has whether entries may be added to and removed from
it. -/
inductive Node where
  | file (data : Bytes) (readable : Bool) (writable : Bool)
  | dir (writable : Bool)
  deriving DecidableEq

/-- The nodes other than the root, by resolved path.  The first entry for a key counts. -/
abbrev FS := List (Key × Node)

/-- The node at a resolved path.  The root is a directory. -/
def FS.get : FS → Key → Option Node
  | _, [] => some (Node.dir true)
  | [], _ :: _ => none
  | (k, n) :: fs, c :: cs => if k = c :: cs then some n else FS.get fs (c :: cs)

/-- Removes the entry of a key. -/
def FS.erase (fs : FS) (k : Key) : FS := fs.filter (fun e => e.1 ≠ k)

/-- Sets the entry of a key. -/
def FS.set (fs : FS) (k : Key) (n : Node) : FS := (k, n) :: fs.erase k

/-- Whether entries may be created in and removed from the directory holding `k`. -/
def FS.parentWritable (fs : FS) (k : Key) : Bool :=
  match fs.get k.dropLast with
  | some (Node.dir w) => w
  | _ => false

/-- Whether some entry lies below the key `k`. -/
def FS.hasEntryBelow (fs : FS) (k : Key) : Bool :=
  fs.any (fun e => decide (e.1 ≠ k) && decide (e.1.take k.length = k))

/-- The call `stat(path, &statbuf)`: the node at the path, `none` when the call fails. -/
def stat (fs : FS) (path : Bytes) : Option Node := fs.get (normPath path)

/-- The test `S_ISREG(statbuf.st_mode)`. -/
def S_ISREG : Node → Bool
  | Node.file _ _ _ => true
  | Node.dir _ => false

/-- The test `S_ISDIR(statbuf.st_mode)`. -/
def S_ISDIR : Node → Bool
  | Node.file _ _ _ => false
  | Node.dir _ => true

/-- The field `statbuf.st_size` of a regular file. -/
def st_size : Node → Nat
  | Node.file data _ _ => data.length
  | Node.dir _ => 0

/-- The call `mkdir(path, S_IRWXU)`; the sources ignore its result, a failed call changes nothing. -/
def mkdir (fs : FS) (path : Bytes) : FS :=
  let k := normPath path
  match fs.get k with
  | some _ => fs
  | none => if fs.parentWritable k then fs.set k (Node.dir true) else fs

/-- The call `remove(path)`: `none` when the call fails.  A regular file is unlinked, an empty
directory is removed. -/
def remove (fs : FS) (path : Bytes) : Option FS :=
  let k := normPath path
  if k = [] then none
  else
    match fs.get k with
    | none => none
    | some (Node.file _ _ _) => if fs.parentWritable k then some (fs.erase k) else none
    | some (Node.dir _) =>
      if fs.parentWritable k && !fs.hasEntryBelow k then some (fs.erase k) else none

/-- The file system after a call of `remove` whose result is ignored. -/
def remove_ (fs : FS) (path : Bytes) : FS := (remove fs path).getD fs

/-- The `errno` values of a failed `fopen`. -/
inductive Errno where
  | ENOENT | EACCES | EISDIR | ENOTDIR
  deriving DecidableEq

/-- The text of `strerror(errno)` in glibc. -/
def strerror : Errno → Bytes
  | Errno.ENOENT => str "No such file or directory"
  | Errno.EACCES => str "Permission denied"
  | Errno.EISDIR => str "Is a directory"
  | Errno.ENOTDIR => str "Not a directory"

/-- The call `fopen(path, "wb")`: creates the file or truncates it.  A new file may be read and
written by its creator. -/
def fopen_wb (fs : FS) (path : Bytes) : Except Errno FS :=
  let k := normPath path
  match fs.get k with
  | some (Node.dir _) => Except.error Errno.EISDIR
  | some (Node.file _ r w) =>
    if w then Except.ok (fs.set k (Node.file [] r w)) else Except.error Errno.EACCES
  | none =>
    match fs.get k.dropLast with
    | none => Except.error Errno.ENOENT
    | some (Node.file _ _ _) => Except.error Errno.ENOTDIR
    | some (Node.dir w) =>
      if w then Except.ok (fs.set k (Node.file [] true true)) else Except.error Errno.EACCES

/-- A successful `fwrite(buffer, 1, n, fp)` on a stream opened on `path`: the bytes are
appended to the file.  (Nothing happens when the path no longer names a regular file.) -/
def fwrite (fs : FS) (path : Bytes) (data : Bytes) : FS :=
  let k := normPath path
  match fs.get k with
  | some (Node.file old r w) => fs.set k (Node.file (old ++ data) r w)
  | _ => fs

/-- The call `fopen(path, "rb")`: the content that the following `fread` calls deliver, `none` when
the call fails.  Only a readable regular file can be opened. -/
def fopen_rb (fs : FS) (path : Bytes) : Option Bytes :=
  match fs.get (normPath path) with
  | some (Node.file data true _) => some data
  | _ => none

/-- The successive results of `fread(buffer, 1, n, fp)` up to end of file: the content cut
into pieces of `n` bytes, the last one possibly shorter.  The first argument bounds the
number of pieces. -/
def freadChunks : Nat → Nat → Bytes → List Bytes
  | 0, _, _ => []
  | fuel + 1, n, data =>
    if data = [] then [] else data.take n :: freadChunks fuel n (data.drop n)

/-- All `fread` results of a file content read with a buffer of `BUFFER_SIZE` bytes. -/
def fread_all (data : Bytes) : List Bytes := freadChunks data.length BUFFER_SIZE data

/-- The positions `p` of the loop `for (p = tmp + 1; *p; p++)` at which `*p == '/'`, as the
strings `tmp` holds there once the slash is overwritten with NUL.  `done` is the part of
`tmp` before `p`. -/
def slashCuts : Bytes → Bytes → List Bytes
  | _, [] => []
  | done, c :: rest =>
    if c = 47 then done :: slashCuts (done ++ [c]) rest else slashCuts (done ++ [c]) rest

/-- The function `create_directories(path)` (S1.c 798-810, S3.c 317-329, S4.c 212-224): `mkdir` on every
part of the path that ends before a slash other than the first byte, then on the path.
`none` when the path is empty, where the loop starts beyond the terminating NUL. -/
def create_directories (fs : FS) (path : Bytes) : Option FS :=
  match snprintf PATH_MAX path with
  | [] => none
  | c :: rest => some (mkdir ((slashCuts [c] rest).foldl mkdir fs) (c :: rest))

/-! ## Sockets -/

/-- What arrives on a socket: a run of bytes, or a failure of the connection. -/
inductive Event where
  | data (bytes : Bytes)
  | error
  deriving DecidableEq

/-- What is still to arrive on a socket, in order.  After the last event the peer has shut
its side down and every `recv` returns 0. -/
abbrev Script := List Event

/-- The result of one `recv` call: a positive count with the bytes stored, 0, or -1. -/
inductive Recv where
  | data (bytes : Bytes)
  | closed
  | error
  deriving DecidableEq

/-- The call `recv(sock, buf, cap, 0)` on a blocking socket: at most `cap` bytes of the run that
arrives next; what it does not take stays at the head of the script. -/
def recv (cap : Nat) : Script → Recv × Script
  | [] => (Recv.closed, [])
  | Event.error :: rest => (Recv.error, rest)
  | Event.data bytes :: rest =>
    if bytes = [] then recv cap rest
    else if bytes.length ≤ cap then (Recv.data bytes, rest)
    else (Recv.data (bytes.take cap), Event.data (bytes.drop cap) :: rest)

/-- The events and bytes of a script; every `recv` that returns bytes makes it smaller. -/
def weight : Script → Nat
  | [] => 0
  | Event.error :: rest => 1 + weight rest
  | Event.data bytes :: rest => 1 + bytes.length + weight rest

/-- The bytes that arrive on a socket, failures left out. -/
def dataOf : Script → Bytes
  | [] => []
  | Event.error :: rest => dataOf rest
  | Event.data bytes :: rest => bytes ++ dataOf rest

/-- The script a peer reads when each `send` of the other side arrives as one run. -/
def delivered (sends : List Bytes) : Script := sends.map Event.data

/-- The loop of `receive_full`; the first argument bounds the number of `recv` calls. -/
def receive_full_loop : Nat → Script → Nat → Bytes → Option Bytes × Script
  | 0, inp, remaining, buf => (if remaining = 0 then some buf else none, inp)
  | fuel + 1, inp, remaining, buf =>
    if remaining = 0 then (some buf, inp)
    else
      match recv remaining inp with
      | (Recv.data bytes, inp1) =>
        receive_full_loop fuel inp1 (remaining - bytes.length) (buf ++ bytes)
      | (_, inp1) => (none, inp1)

/-- The function `receive_full(sock, buffer, size)` (S1.c 813-821): the `size` bytes stored in `buffer` on
success (result 0), `none` on failure (result -1); and what is left to arrive. -/
def receive_full (inp : Script) (size : Nat) : Option Bytes × Script :=
  receive_full_loop size inp size []

/-! ## Environment -/

/-- What a storage node does on one accepted connection: from the file system and from what
arrives on the connection, the file system it leaves and the `send` calls it makes. -/
abbrev Peer := FS → Script → FS × List Bytes

/-- The environment of the processes. -/
structure Env where
  /-- The result of `getenv("HOME")`, the same for all nodes. -/
  HOME : Option Bytes
  /-- Command-line arguments 2 to 4 of S1. -/
  PORT_S2 : Nat
  PORT_S3 : Nat
  PORT_S4 : Nat
  /-- Whether `connect` to 127.0.0.1 at a port succeeds. -/
  listening : Nat → Bool
  /-- The node listening on `PORT_S2`; its source is not part of the sources embedded. -/
  S2 : Peer
  /-- Whether the `i`-th `send` of a gateway connection to the node at a port takes all the
  bytes (`i` counts from 0). -/
  sendOk : Nat → Nat → Bool
  /-- Whether the `i`-th `fwrite` of a request on node S`n` stores all its bytes. -/
  fwriteOk : Nat → Nat → Bool
  /-- The call `system(cmd)`: its result and the file system it leaves. -/
  system : FS → Bytes → Int × FS
  /-- The call `popen(cmd, "r")`: the output of the command, `none` when the call fails. -/
  popen : FS → Bytes → Option Bytes

/-- The checks `main` of S1 makes on its port arguments (S1.c 56-69), for the three ports of
the storage nodes. -/
def Env.portsValid (env : Env) : Prop :=
  1024 ≤ env.PORT_S2 ∧ env.PORT_S2 ≤ 65535 ∧ 1024 ≤ env.PORT_S3 ∧ env.PORT_S3 ≤ 65535 ∧
  1024 ≤ env.PORT_S4 ∧ env.PORT_S4 ≤ 65535 ∧
  env.PORT_S2 ≠ env.PORT_S3 ∧ env.PORT_S2 ≠ env.PORT_S4 ∧ env.PORT_S3 ≠ env.PORT_S4

/-- The result of `getenv("HOME")` as a C string. -/
def getenv_HOME (env : Env) : Option Bytes := env.HOME.map cstr

/-- The successive results of `fgets(line, size, fp)` on the output of a command: each takes
bytes through the next newline, `size - 1` at most.  The first argument bounds the number
of lines. -/
def fgetsLines : Nat → Nat → Bytes → List Bytes
  | 0, _, _ => []
  | fuel + 1, size, data =>
    if data = [] then []
    else
      let upto := data.takeWhile (fun c => c != 10)
      let line := if upto.length < data.length then upto ++ [10] else upto
      let got := line.take (size - 1)
      if got = [] then [] else got :: fgetsLines fuel size (data.drop got.length)

/-- The loop that builds a list of file names from the output of `find ... | sort`
(S1.c 556-560, S3.c 295-299, S4.c 190-194): `pos` is the length of the list so far and `size`
the `BUFFER_SIZE` of the program. -/
def collectNames (size : Nat) : List Bytes → Bytes → Bytes
  | [], list => list
  | line :: rest, list =>
    if list.length < size - 256 then
      let line1 := (cstr line).takeWhile (fun c => c != 10)
      collectNames size rest (list ++ (basename line1).1 ++ [10])
    else list

/-- The file list of a directory as the three programs build it, `size` being the
`BUFFER_SIZE` of the program: the command line given to `popen`, and the names collected
from its output (empty when `popen` fails). -/
def listNames (size : Nat) (env : Env) (fs : FS) (pathname filetype : Bytes) : Bytes :=
  let cmd := snprintf size
    (str "find " ++ pathname ++ str " -type f -name '*" ++ filetype ++ str "' | sort")
  match env.popen fs cmd with
  | none => []
  | some output => cstr (collectNames size (fgetsLines output.length 256 output) [])

/-- The sends of the gateway that transmit a file: every `fread` result of the opened file in
turn. -/
def sendFile (data : Bytes) : List Bytes := fread_all data

/-- The string `full_path` of `uploadf` in S3 and S4 (S3.c 97-101, S4.c 97-101). -/
def full_path (dest_path filename : Bytes) : Bytes :=
  if dest_path.getLast? = some 47 then snprintf PATH_MAX (dest_path ++ filename)
  else snprintf PATH_MAX (dest_path ++ str "/" ++ filename)

/-- Whether a byte string is a word of a command line: not empty, without white space and
without NUL. -/
def isToken (t : Bytes) : Bool := t.length != 0 && t.all (fun c => !isspace c && c != 0)

/-- Whether a byte string is the operand of a one-operand command, which extends to the end
of the line: not empty, not starting with white space, without newline and without NUL. -/
def isOperand (p : Bytes) : Bool :=
  (match p with
   | [] => false
   | c :: _ => !isspace c) && p.all (fun c => c != 10 && c != 0)

/-! ## Storage node S3 (`src/S3.c`) -/

namespace S3

/-- The constant `BUFFER_SIZE` of S3 (S3.c 13). -/
def BUFFER_SIZE : Nat := 1024

/-- The sends of S3 that transmit a file (S3.c 176-178, 261-263): every `fread` result, of at
most `BUFFER_SIZE` bytes, in turn. -/
def sendFile (data : Bytes) : List Bytes := freadChunks data.length S3.BUFFER_SIZE data

/-- The receive loop of `uploadf` (S3.c 124-134).  The arguments are the bound on the number
of `recv` calls, the file system, what is to arrive, `total_bytes` and the number of
`fwrite` calls made.  The result has the last `recv` result, which ended the loop.
A failed `fwrite` closes the stream and the socket and continues the loop (126-130): the
next `recv` fails, the loop ends, and `fclose` at 135 is applied to the closed stream. -/
def upload_loop (env : Env) (full_path : Bytes) :
    Nat → FS → Script → Nat → Nat → Option (FS × Recv × Nat)
  | 0, _, _, _, _ => none
  | fuel + 1, fs, inp, total_bytes, i =>
    match recv S3.BUFFER_SIZE inp with
    | (Recv.data bytes, inp1) =>
      if env.fwriteOk 3 i then
        upload_loop env full_path fuel (fwrite fs full_path bytes) inp1
          ((total_bytes + bytes.length) % 2 ^ 64) (i + 1)
      else none
    | (r, _) => some (fs, r, total_bytes)

/-- The `uploadf` branch (S3.c 92-152). -/
def uploadf (env : Env) (fs : FS) (buffer : Bytes) (inp : Script) : Option (FS × List Bytes) :=
  match sscanf_two buffer with
  | (some filename, some dest_path) =>
    if 256 ≤ filename.length ∨ PATH_MAX ≤ dest_path.length then none
    else
      let full_path := full_path dest_path filename
      match create_directories fs (dirname full_path) with
      | none => none
      | some fs1 =>
        let fs2 := remove_ fs1 full_path
        match fopen_wb fs2 full_path with
        | Except.error e =>
          some (fs2, [snprintf S3.BUFFER_SIZE
            (str "Upload failed: Cannot write file (" ++ strerror e ++ str ")")])
        | Except.ok fs3 =>
          match upload_loop env full_path (weight inp + 1) fs3 inp 0 0 with
          | none => none
          | some (fs4, Recv.error, _) =>
            some (remove_ fs4 full_path, [sendLit "Upload failed: Error receiving data" 36])
          | some (fs4, _, total_bytes) =>
            if 0 < total_bytes then some (fs4, [sendLit "Stored successfully" 20])
            else some (remove_ fs4 full_path, [sendLit "Upload failed: No data received" 32])
  | _ => none

/-- The `downlf` branch (S3.c 153-182). -/
def downlf (fs : FS) (param1 : Bytes) : FS × List Bytes :=
  match fopen_rb fs param1 with
  | none => (fs, [zero8, sendLit "Download failed: File not found" 32])
  | some data => (fs, htobe64 data.length :: S3.sendFile data)

/-- The `removef` branch (S3.c 183-204). -/
def removef (fs : FS) (buffer : Bytes) : Option (FS × List Bytes) :=
  match sscanf_one buffer with
  | none => none
  | some filepath =>
    if PATH_MAX ≤ filepath.length then none
    else
      match stat fs filepath with
      | some statbuf =>
        if S_ISREG statbuf then
          match remove fs filepath with
          | some fs1 => some (fs1, [sendLit "File removed successfully" 25])
          | none => some (fs, [sendLit "Remove failed: Permission denied" 32])
        else some (fs, [sendLit "Remove failed: Not a regular file" 33])
      | none => some (fs, [sendLit "Remove failed: File not found" 29])

/-- The `downltar` branch (S3.c 205-267). -/
def downltar (env : Env) (fs : FS) (buffer : Bytes) : Option (FS × List Bytes) :=
  match sscanf_one buffer with
  | none => none
  | some filetype =>
    if 16 ≤ filetype.length then none
    else if filetype ≠ str ".txt" then
      some (fs, [sendLit "Download failed: Invalid file type for this server" 50])
    else
      match getenv_HOME env with
      | none => none
      | some home =>
        let tar_path := snprintf PATH_MAX (home ++ str "/S3/temp/textfiles.tar")
        match create_directories fs (dirname tar_path) with
        | none => none
        | some fs1 =>
          let cmd := snprintf S3.BUFFER_SIZE
            (str "cd " ++ home ++ str "/S3 && find * -type f -name '*.txt' | tar -cf "
              ++ tar_path ++ str " -T -")
          let (ret, fs2) := env.system fs1 cmd
          if ret ≠ 0 then
            some (remove_ fs2 tar_path,
              [sendLit "Download failed: No files found or tar creation failed" 54])
          else
            match stat fs2 tar_path with
            | none => some (remove_ fs2 tar_path, [zero8, sendLit "Tar file not found" 18])
            | some statbuf =>
              match fopen_rb fs2 tar_path with
              | none =>
                some (remove_ fs2 tar_path,
                  [htobe64 (st_size statbuf), zero8, sendLit "Cannot open tar file" 21])
              | some data =>
                some (remove_ fs2 tar_path, htobe64 (st_size statbuf) :: S3.sendFile data)

/-- The `dispfnames` branch (S3.c 268-308). -/
def dispfnames (env : Env) (fs : FS) (buffer : Bytes) : Option (FS × List Bytes) :=
  match sscanf_two buffer with
  | (some pathname, some filetype) =>
    if PATH_MAX ≤ pathname.length ∨ 16 ≤ filetype.length then none
    else if filetype ≠ str ".txt" then some (fs, [sendLit "No files found" 14])
    else
      match stat fs pathname with
      | some (Node.dir _) =>
        let file_list := listNames S3.BUFFER_SIZE env fs pathname filetype
        if file_list = [] then some (fs, [sendLit "No files found" 14])
        else some (fs, [file_list])
      | _ => some (fs, [sendLit "No files found" 14])
  | _ => none

/-- The body of the accept loop of `main` for one accepted connection (S3.c 79-310): the file
system S3 leaves and its `send` calls on the connection.  The command is what one `recv` of
`BUFFER_SIZE - 1` = 1023 bytes returns (S3.c 80-81); what is left of a longer run stays on the
connection. -/
def main_conn (env : Env) (fs : FS) (inp : Script) : Option (FS × List Bytes) :=
  match recv (S3.BUFFER_SIZE - 1) inp with
  | (Recv.data buffer, inp1) =>
    match sscanf_command buffer with
    | (none, _) => none
    | (some command, param1) =>
      if 20 ≤ command.length ∨ PATH_MAX ≤ param1.length then none
      else if command = str "uploadf" then uploadf env fs buffer inp1
      else if command = str "downlf" then some (downlf fs param1)
      else if command = str "removef" then removef fs buffer
      else if command = str "downltar" then downltar env fs buffer
      else if command = str "dispfnames" then dispfnames env fs buffer
      else some (fs, [])
  | _ => some (fs, [])

end S3

/-! ## Storage node S4 (`src/S4.c`) -/

namespace S4

/-- The constant `BUFFER_SIZE` of S4 (S4.c 13). -/
def BUFFER_SIZE : Nat := 1024

/-- The sends of S4 that transmit a file (S4.c 156-158): every `fread` result, of at most
`BUFFER_SIZE` bytes, in turn. -/
def sendFile (data : Bytes) : List Bytes := freadChunks data.length S4.BUFFER_SIZE data

/-- The receive loop of `uploadf` (S4.c 121-124).  The result of `fwrite` is not looked at;
a failed call stores nothing.  `bytes` is a `size_t`, so a failed `recv` enters the body
with a count of `SIZE_MAX`, and `fwrite` reads beyond the buffer. -/
def upload_loop (env : Env) (full_path : Bytes) :
    Nat → FS → Script → Nat → Nat → Option (FS × Nat)
  | 0, _, _, _, _ => none
  | fuel + 1, fs, inp, total_bytes, i =>
    match recv S4.BUFFER_SIZE inp with
    | (Recv.data bytes, inp1) =>
      upload_loop env full_path fuel (if env.fwriteOk 4 i then fwrite fs full_path bytes else fs) inp1
        ((total_bytes + bytes.length) % 2 ^ 64) (i + 1)
    | (Recv.closed, _) => some (fs, total_bytes)
    | (Recv.error, _) => none

/-- The `uploadf` branch (S4.c 92-132). -/
def uploadf (env : Env) (fs : FS) (buffer : Bytes) (inp : Script) : Option (FS × List Bytes) :=
  match sscanf_two buffer with
  | (some filename, some dest_path) =>
    if 256 ≤ filename.length ∨ PATH_MAX ≤ dest_path.length then none
    else
      let full_path := full_path dest_path filename
      match create_directories fs (dirname full_path) with
      | none => none
      | some fs1 =>
        match fopen_wb fs1 full_path with
        | Except.error e =>
          some (fs1, [snprintf S4.BUFFER_SIZE
            (str "Upload failed: Cannot write file (" ++ strerror e ++ str ")")])
        | Except.ok fs2 =>
          match upload_loop env full_path (weight inp + 1) fs2 inp 0 0 with
          | none => none
          | some (fs3, total_bytes) =>
            if 0 < total_bytes then some (fs3, [sendLit "Stored successfully" 20])
            else some (fs3, [sendLit "Upload failed: No data received" 32])
  | _ => none

/-- The `downlf` branch (S4.c 133-162). -/
def downlf (fs : FS) (param1 : Bytes) : FS × List Bytes :=
  match fopen_rb fs param1 with
  | none => (fs, [zero8, sendLit "Download failed: File not found" 32])
  | some data => (fs, htobe64 data.length :: S4.sendFile data)

/-- The `dispfnames` branch (S4.c 163-203). -/
def dispfnames (env : Env) (fs : FS) (buffer : Bytes) : Option (FS × List Bytes) :=
  match sscanf_two buffer with
  | (some pathname, some filetype) =>
    if PATH_MAX ≤ pathname.length ∨ 16 ≤ filetype.length then none
    else if filetype ≠ str ".zip" then some (fs, [sendLit "No files found" 14])
    else
      match stat fs pathname with
      | some (Node.dir _) =>
        let file_list := listNames S4.BUFFER_SIZE env fs pathname filetype
        if file_list = [] then some (fs, [sendLit "No files found" 14])
        else some (fs, [file_list])
      | _ => some (fs, [sendLit "No files found" 14])
  | _ => none

/-- The body of the accept loop of `main` for one accepted connection (S4.c 79-205).  The
command is what one `recv` of `BUFFER_SIZE - 1` = 1023 bytes returns (S4.c 80-81). -/
def main_conn (env : Env) (fs : FS) (inp : Script) : Option (FS × List Bytes) :=
  match recv (S4.BUFFER_SIZE - 1) inp with
  | (Recv.data buffer, inp1) =>
    match sscanf_command buffer with
    | (none, _) => none
    | (some command, param1) =>
      if 20 ≤ command.length ∨ PATH_MAX ≤ param1.length then none
      else if command = str "uploadf" then uploadf env fs buffer inp1
      else if command = str "downlf" then some (downlf fs param1)
      else if command = str "dispfnames" then dispfnames env fs buffer
      else some (fs, [])
  | _ => some (fs, [])

end S4

/-! ## Gateway S1 (`src/S1.c`) -/

namespace S1

/-- What one worker of the gateway has done and has left to do. -/
structure State where
  /-- The file system. -/
  fs : FS
  /-- What is still to arrive on the client socket. -/
  inp : Script
  /-- The `send` calls made on the client socket, oldest first.  The client socket takes
  every send; the branches that only log a failed send to the client are not embedded. -/
  out : List Bytes
  /-- The calls of `connect_to_server`, oldest first: the port, and the sends delivered to
  the node (none for a failed call). -/
  conns : List (Nat × List Bytes)

/-- One `send` on the client socket. -/
def State.send (st : State) (bytes : Bytes) : State := { st with out := st.out ++ [bytes] }

/-- Several `send` calls on the client socket. -/
def State.sends (st : State) (l : List Bytes) : State := { st with out := st.out ++ l }

/-- All bytes sent to the client. -/
def State.response (st : State) : Bytes := st.out.flatten

/-- The function `connect_to_server(port)` (S1.c 600-608): whether a socket was returned. -/
def connect_to_server (env : Env) (port : Nat) : Bool := env.listening port

/-- The node that accepts a connection to a port: S2, S3 or S4 by the port arguments of the
gateway; nothing is served elsewhere. -/
def peerAt (env : Env) (port : Nat) (fs : FS) (inp : Script) : Option (FS × List Bytes) :=
  if port = env.PORT_S2 then some (env.S2 fs inp)
  else if port = env.PORT_S3 then S3.main_conn env fs inp
  else if port = env.PORT_S4 then S4.main_conn env fs inp
  else some (fs, [])

/-- The directory name chosen from the port (S1.c 631-633, 718-720); `none` is `NULL`. -/
def server_dir (env : Env) (server_port : Nat) : Option Bytes :=
  if server_port = env.PORT_S2 then some (str "S2")
  else if server_port = env.PORT_S3 then some (str "S3")
  else if server_port = env.PORT_S4 then some (str "S4")
  else none

/-- The send loop of `transfer_file_to_server` (S1.c 664-674): the chunks the node has
received when the loop ends, and whether every send succeeded.  `i` is the number of sends
made on the connection before the chunk at the head. -/
def send_loop (env : Env) (server_port : Nat) : List Bytes → Nat → List Bytes × Bool
  | [], _ => ([], true)
  | chunk :: rest, i =>
    if env.sendOk server_port i then
      let r := send_loop env server_port rest (i + 1)
      (chunk :: r.1, r.2)
    else ([], false)

/-- The function `transfer_file_to_server(filename, dest_path, server_port, client_sock)`
(S1.c 611-694). -/
def transfer_file_to_server (env : Env) (filename dest_path : Bytes) (server_port : Nat)
    (st : State) : Option State :=
  if !connect_to_server env server_port then
    some { (st.send (sendLit "Upload failed: Server connection error" 38)) with
      fs := remove_ st.fs filename, conns := st.conns ++ [(server_port, [])] }
  else
    match getenv_HOME env with
    | none =>
      some { (st.send (sendLit "Upload failed: HOME environment variable not set" 48)) with
        fs := remove_ st.fs filename, conns := st.conns ++ [(server_port, [])] }
    | some home =>
      match server_dir env server_port with
      | none => none
      | some sdir =>
        if dest_path.length < home.length + 3 then none
        else
          let suffix := dest_path.drop (home.length + 3)
          let adjusted_path :=
            if suffix.head? = some 47 ∨ dest_path.getLast? = some 47 then
              snprintf PATH_MAX (home ++ str "/" ++ sdir ++ suffix)
            else snprintf PATH_MAX (home ++ str "/" ++ sdir ++ str "/" ++ suffix)
          let buffer := snprintf BUFFER_SIZE
            (str "uploadf " ++ (basename filename).1 ++ str " " ++ adjusted_path)
          if !env.sendOk server_port 0 then
            some { (st.send (sendLit "Upload failed: Failed to send command to server" 47)) with
              fs := remove_ st.fs filename, conns := st.conns ++ [(server_port, [])] }
          else
            match fopen_rb st.fs filename with
            | none =>
              match peerAt env server_port st.fs (delivered [buffer]) with
              | none => none
              | some (fs1, _) =>
                some { (st.send (sendLit "Upload failed: File not accessible" 35)) with
                  fs := remove_ fs1 filename, conns := st.conns ++ [(server_port, [buffer])] }
            | some data =>
              let (chunks, ok) := send_loop env server_port (fread_all data) 1
              match peerAt env server_port st.fs (delivered (buffer :: chunks)) with
              | none => none
              | some (fs1, reply) =>
                let st1 : State := { st with
                  fs := remove_ fs1 filename,
                  conns := st.conns ++ [(server_port, buffer :: chunks)] }
                if !ok then
                  some (st1.send (sendLit "Upload failed: Error sending file to server" 43))
                else
                  match recv (BUFFER_SIZE - 1) (delivered reply) with
                  | (Recv.data bytes, _) => some (st1.send (cstr bytes))
                  | _ => some (st1.send (sendLit "Upload failed: No response from server" 38))

/-- The transfer loop of `download_file_from_server` (S1.c 762-776): the sends to the
client.  The first argument bounds the number of `recv` calls. -/
def relay_loop : Nat → Script → Nat → Nat → Option (List Bytes)
  | 0, _, _, _ => none
  | fuel + 1, inp, file_size, total_received =>
    if total_received < file_size then
      match recv (min (file_size - total_received) BUFFER_SIZE) inp with
      | (Recv.data bytes, inp1) =>
        (relay_loop fuel inp1 file_size (total_received + bytes.length)).map
          (fun l => bytes :: l)
      | _ => some []
    else some []

/-- The part of `download_file_from_server` after the command is sent (S1.c 733-793): the
sends to the client, from what arrives from the node. -/
def relay_download (reply : Script) : Option (List Bytes) :=
  match receive_full reply 8 with
  | (none, _) => some [zero8, sendLit "Error receiving file size" 25]
  | (some net_file_size, rest) =>
    let file_size := be64toh net_file_size
    if 0 < file_size then
      (relay_loop (weight rest + 1) rest file_size 0).map (fun l => net_file_size :: l)
    else
      match recv (BUFFER_SIZE - 1) rest with
      | (Recv.data bytes, _) => some [net_file_size, bytes]
      | _ => some [net_file_size, sendLit "No response from server" 23]

/-- The function `download_file_from_server(filepath, server_port, client_sock)` (S1.c 697-795). -/
def download_file_from_server (env : Env) (filepath : Bytes) (server_port : Nat)
    (st : State) : Option State :=
  if !connect_to_server env server_port then
    some { (st.sends [zero8, sendLit "Server connection error" 23]) with
      conns := st.conns ++ [(server_port, [])] }
  else
    match getenv_HOME env, server_dir env server_port with
    | some home, some sdir =>
      if filepath.length < home.length + 3 then none
      else
        let adjusted_path :=
          snprintf PATH_MAX (home ++ str "/" ++ sdir ++ filepath.drop (home.length + 3))
        let buffer := snprintf BUFFER_SIZE (str "downlf " ++ adjusted_path)
        if !env.sendOk server_port 0 then
          some { (st.sends [zero8, sendLit "Failed to send command to server" 31]) with
            conns := st.conns ++ [(server_port, [])] }
        else
          match peerAt env server_port st.fs (delivered [buffer]) with
          | none => none
          | some (fs1, reply) =>
            match relay_download (delivered reply) with
            | none => none
            | some l =>
              some { (st.sends l) with
                fs := fs1, conns := st.conns ++ [(server_port, [buffer])] }
    | _, _ => none

/-- The receive loop of `uploadf` (S1.c 183-191).  The arguments are the bound on the number
of `recv` calls, the file system, what is to arrive, `total_bytes` and the number of
`fwrite` calls made.  `bytes` is a `size_t`: a failed `recv` enters the body with a count
of `SIZE_MAX`.  A failed `fwrite` closes the stream and continues this loop (185-188), so
the stream is used again by `fwrite` at 184 or by `fclose` at 192. -/
def upload_loop (env : Env) (temp_path : Bytes) :
    Nat → FS → Script → Nat → Nat → Option (FS × Script × Nat)
  | 0, _, _, _, _ => none
  | fuel + 1, fs, inp, total_bytes, i =>
    match recv BUFFER_SIZE inp with
    | (Recv.data bytes, inp1) =>
      if env.fwriteOk 1 i then
        upload_loop env temp_path fuel (fwrite fs temp_path bytes) inp1
          ((total_bytes + bytes.length) % 2 ^ 64) (i + 1)
      else none
    | (Recv.closed, inp1) => some (fs, inp1, total_bytes)
    | (Recv.error, _) => none

/-- The port chosen for a file that is not stored locally (S1.c 208-210). -/
def upload_port (env : Env) (ext : Option Bytes) : Nat :=
  if ext = some (str ".pdf") then env.PORT_S2
  else if ext = some (str ".txt") then env.PORT_S3
  else if ext = some (str ".zip") then env.PORT_S4
  else 0

/-- The string `full_dest_path` of `uploadf` (S1.c 155-157). -/
def full_dest_path (home dest_path : Bytes) : Bytes :=
  snprintf PATH_MAX (home ++ str "/S1/" ++ dest_path.drop 4)

/-- The string `temp_path` of `uploadf` (S1.c 160-165), from `full_dest_path` and the result of
`basename(filename)`. -/
def temp_path (full_dest_path base : Bytes) : Bytes :=
  if full_dest_path.getLast? = some 47 then snprintf PATH_MAX (full_dest_path ++ base)
  else snprintf PATH_MAX (full_dest_path ++ str "/" ++ base)

/-- The path of the file that `uploadf` writes, from the operands of the command. -/
def store_path (home dest_path filename : Bytes) : Bytes :=
  temp_path (full_dest_path home dest_path) (basename filename).1

/-- The directory that the gateway names to the node with directory `sdir` when it forwards
a store or a fetch below `dest_path` (S1.c 634-638, 721). -/
def forward_dir (home sdir dest_path : Bytes) : Bytes :=
  home ++ str "/" ++ sdir ++ 47 :: dest_path.drop 4

/-- The path of the file that the node writes for a forwarded store (S3.c 97-101). -/
def forward_path (home sdir dest_path filename : Bytes) : Bytes :=
  full_path (forward_dir home sdir dest_path) (basename filename).1

/-- The `uploadf` branch of `prcclient` (S1.c 137-217). -/
def uploadf (env : Env) (buffer : Bytes) (st : State) : Option State :=
  match sscanf_two buffer with
  | (some filename, some dest_path) =>
    if 256 ≤ filename.length ∨ PATH_MAX ≤ dest_path.length then none
    else if dest_path.take 4 ≠ str "~S1/" then
      some (st.send (sendLit "Upload failed: Destination path must start with ~S1/" 51))
    else
      match getenv_HOME env with
      | none => some (st.send (sendLit "Upload failed: HOME environment variable not set" 48))
      | some home =>
        let full_dest_path := full_dest_path home dest_path
        let (base, filename1) := basename filename
        let temp_path := temp_path full_dest_path base
        match create_directories st.fs (dirname temp_path) with
        | none => none
        | some fs1 =>
          let fs2 := remove_ fs1 temp_path
          match fopen_wb fs2 temp_path with
          | Except.error e =>
            some ({ st with fs := fs2 }.send (snprintf BUFFER_SIZE
              (str "Upload failed: Cannot write file (" ++ strerror e ++ str ")")))
          | Except.ok fs3 =>
            match upload_loop env temp_path (weight st.inp + 1) fs3 st.inp 0 0 with
            | none => none
            | some (fs4, inp1, total_bytes) =>
              if total_bytes = 0 then
                some ({ st with fs := remove_ fs4 temp_path, inp := inp1 }.send
                  (sendLit "Upload failed: No data received" 32))
              else
                let st1 : State := { st with fs := fs4, inp := inp1 }
                let ext := strrchr filename1 46
                if ext = some (str ".c") then some (st1.send (sendLit "Stored successfully" 20))
                else
                  let port := upload_port env ext
                  if port ≠ 0 then transfer_file_to_server env temp_path full_dest_path port st1
                  else
                    some { (st1.send (sendLit "Upload failed: Unsupported file type" 37)) with
                      fs := remove_ fs4 temp_path }
  | _ => none

/-- The path under the directory of S1 that `downlf`, `removef` and `dispfnames` build from
their operand (S1.c 237-241, 305-309, 527-531). -/
def local_path (home param1 : Bytes) : Bytes :=
  if param1.take 4 = str "~S1/" then snprintf PATH_MAX (home ++ str "/S1/" ++ param1.drop 4)
  else snprintf PATH_MAX (home ++ str "/S1/" ++ param1)

/-- The port chosen for a download that is not served locally (S1.c 291-293). -/
def download_port (env : Env) (ext : Bytes) : Nat :=
  if ext = str ".pdf" then env.PORT_S2
  else if ext = str ".txt" then env.PORT_S3
  else if ext = str ".zip" then env.PORT_S4
  else 0

/-- The path that a fetch of `param1` reads on the node it is routed to: the path under the
directory of S1 for `.c`, the path the gateway sends to the node for the other types
(S1.c 237-241, 718-721). -/
def routed_path (env : Env) (home param1 : Bytes) : Bytes :=
  let filepath := local_path home param1
  match strrchr filepath 46 with
  | none => filepath
  | some ext =>
    if ext = str ".c" then filepath
    else
      match server_dir env (download_port env ext) with
      | some sdir =>
        snprintf PATH_MAX (home ++ str "/" ++ sdir ++ filepath.drop (home.length + 3))
      | none => filepath

/-- The local branch of `downlf` (S1.c 255-288): the file at `filepath` is sent from the
directory of S1. -/
def downlf_local (filepath : Bytes) (st : State) : State :=
  match stat st.fs filepath with
  | some (Node.file content r w) =>
    let net_size := htobe64 (st_size (Node.file content r w))
    match fopen_rb st.fs filepath with
    | some data => st.sends (net_size :: sendFile data)
    | none => st.sends [net_size, zero8, sendLit "Error opening file" 18]
  | _ => st.sends [zero8, sendLit "File not found" 14]

/-- Where a request is served. -/
inductive Route where
  | gateway
  | node (port : Nat)
  | unsupported
  deriving DecidableEq

/-- The routing table as the specification words it: `.c` is served by the gateway, `.pdf`
by S2, `.txt` by S3, `.zip` by S4; any other extension, and none, is unsupported. -/
def routing_table (env : Env) (ext : Option Bytes) : Route :=
  if ext = some (str ".c") then Route.gateway
  else if ext = some (str ".pdf") then Route.node env.PORT_S2
  else if ext = some (str ".txt") then Route.node env.PORT_S3
  else if ext = some (str ".zip") then Route.node env.PORT_S4
  else Route.unsupported

/-- The `downlf` branch of `prcclient` (S1.c 218-295). -/
def downlf (env : Env) (param1 : Bytes) (st : State) : Option State :=
  if param1.length = 0 then some (st.sends [zero8, sendLit "No file path provided" 21])
  else
    match getenv_HOME env with
    | none => some (st.sends [zero8, sendLit "HOME environment variable not set" 33])
    | some home =>
      let filepath := local_path home param1
      match strrchr filepath 46 with
      | none => some (st.sends [zero8, sendLit "Only .c, .pdf, .txt, .zip supported" 35])
      | some ext =>
        if ext ≠ str ".c" ∧ ext ≠ str ".pdf" ∧ ext ≠ str ".txt" ∧ ext ≠ str ".zip" then
          some (st.sends [zero8, sendLit "Only .c, .pdf, .txt, .zip supported" 35])
        else if ext = str ".c" then some (downlf_local filepath st)
        else download_file_from_server env filepath (download_port env ext) st

/-- The `removef` branch of `prcclient` (S1.c 296-367). -/
def removef (env : Env) (param1 : Bytes) (st : State) : Option State :=
  match getenv_HOME env with
  | none => some (st.send (sendLit "Remove failed: HOME environment variable not set" 48))
  | some home =>
    let filepath := local_path home param1
    match strrchr filepath 46 with
    | none => some (st.send (sendLit "Remove failed: No file extension" 32))
    | some dot_ext =>
      let ext := dot_ext.drop 1
      if ext = str "c" then
        match stat st.fs filepath with
        | some statbuf =>
          if S_ISREG statbuf then
            match remove st.fs filepath with
            | some fs1 =>
              some ({ st with fs := fs1 }.send (sendLit "File removed successfully" 25))
            | none => some (st.send (sendLit "Remove failed: Permission denied" 32))
          else some (st.send (sendLit "Remove failed: Not a regular file" 33))
        | none => some (st.send (sendLit "Remove failed: File not found" 29))
      else if ext = str "pdf" ∨ ext = str "txt" then
        let port := if ext = str "pdf" then env.PORT_S2 else env.PORT_S3
        if !connect_to_server env port then
          some { (st.send (sendLit "Remove failed: Cannot connect to server" 39)) with
            conns := st.conns ++ [(port, [])] }
        else
          let sdir := snprintf 4 (str "S" ++ (if port = env.PORT_S2 then str "2" else str "3"))
          let adjusted_path :=
            snprintf PATH_MAX (home ++ str "/" ++ sdir ++ str "/" ++ param1.drop 4)
          let remove_cmd := snprintf BUFFER_SIZE (str "removef " ++ adjusted_path)
          let sent := if env.sendOk port 0 then [remove_cmd] else []
          match peerAt env port st.fs (delivered sent) with
          | none => none
          | some (fs1, reply) =>
            let st1 : State := { st with fs := fs1, conns := st.conns ++ [(port, sent)] }
            match recv (BUFFER_SIZE - 1) (delivered reply) with
            | (Recv.data bytes, _) => some (st1.send (cstr bytes))
            | _ => some (st1.send (sendLit "Remove failed: No response from server" 38))
      else some (st.send (sendLit "Remove failed: Unsupported file type" 36))

/-- The end of the `downltar` branch (S1.c 484-511): the archive at `tar_path` is sent to the
client and removed. -/
def send_tar (tar_path : Bytes) (st : State) : State :=
  match stat st.fs tar_path with
  | none =>
    { (st.sends [zero8, sendLit "Download failed: Tar file not found on S1" 41]) with
      fs := remove_ st.fs tar_path }
  | some statbuf =>
    let net_size := htobe64 (st_size statbuf)
    match fopen_rb st.fs tar_path with
    | none =>
      { (st.sends [net_size, zero8, sendLit "Download failed: Cannot open tar file on S1" 43])
        with fs := remove_ st.fs tar_path }
    | some data =>
      { (st.sends (net_size :: sendFile data)) with fs := remove_ st.fs tar_path }

/-- The loop that saves the archive of a node (S1.c 465-472); the result of `fwrite` is not
looked at, a failed call stores nothing.  The result is the file system and
`total_received`. -/
def save_loop (env : Env) (tar_path : Bytes) : Nat → FS → Script → Nat → Nat → Nat →
    Option (FS × Nat)
  | 0, _, _, _, _, _ => none
  | fuel + 1, fs, inp, file_size, total_received, i =>
    if total_received < file_size then
      match recv (min (file_size - total_received) BUFFER_SIZE) inp with
      | (Recv.data bytes, inp1) =>
        save_loop env tar_path fuel (if env.fwriteOk 1 i then fwrite fs tar_path bytes else fs)
          inp1 file_size (total_received + bytes.length) (i + 1)
      | _ => some (fs, total_received)
    else some (fs, total_received)

/-- The `downltar` branch of `prcclient` (S1.c 368-511). -/
def downltar (env : Env) (param1 : Bytes) (st : State) : Option State :=
  if param1.length = 0 then
    some (st.sends [zero8, sendLit "Download failed: No file type provided" 38])
  else if param1 ≠ str ".c" ∧ param1 ≠ str ".pdf" ∧ param1 ≠ str ".txt" then
    some (st.sends [zero8, sendLit "Download failed: Invalid file type" 34])
  else
    match getenv_HOME env with
    | none =>
      some (st.sends [zero8, sendLit "Download failed: HOME environment variable not set" 50])
    | some home =>
      let tar_path := snprintf PATH_MAX (home ++ str "/S1/temp/" ++
        (if param1 = str ".c" then str "cfiles"
         else if param1 = str ".pdf" then str "pdffiles" else str "textfiles") ++ str ".tar")
      match create_directories st.fs (dirname tar_path) with
      | none => none
      | some fs1 =>
        if param1 = str ".c" then
          let cmd := snprintf BUFFER_SIZE
            (str "cd " ++ home ++ str "/S1 && find * -type f -name '*.c' | tar -cf "
              ++ tar_path ++ str " -T -")
          let (ret, fs2) := env.system fs1 cmd
          if ret ≠ 0 then
            some { (st.sends [zero8,
                sendLit "Download failed: No .c files found or tar creation failed" 56]) with
              fs := remove_ fs2 tar_path }
          else some (send_tar tar_path { st with fs := fs2 })
        else
          let port := if param1 = str ".pdf" then env.PORT_S2 else env.PORT_S3
          if !connect_to_server env port then
            some { (st.sends [zero8, sendLit "Download failed: Cannot connect to server" 41])
              with fs := fs1, conns := st.conns ++ [(port, [])] }
          else
            let downltar_cmd := snprintf BUFFER_SIZE (str "downltar " ++ param1)
            let sent := if env.sendOk port 0 then [downltar_cmd] else []
            match peerAt env port fs1 (delivered sent) with
            | none => none
            | some (fs2, reply) =>
              let st2 : State := { st with fs := fs2, conns := st.conns ++ [(port, sent)] }
              match receive_full (delivered reply) 8 with
              | (none, _) =>
                some (st2.sends [zero8, sendLit "Download failed: Error receiving file size" 42])
              | (some net_file_size, rest) =>
                let file_size := be64toh net_file_size
                if file_size = 0 then
                  match recv (BUFFER_SIZE - 1) rest with
                  | (Recv.data bytes, _) => some (st2.sends [zero8, cstr bytes])
                  | _ =>
                    some (st2.sends
                      [zero8, sendLit "Download failed: No response from server" 39])
                else
                  match fopen_wb fs2 tar_path with
                  | Except.error _ =>
                    some (st2.sends
                      [zero8, sendLit "Download failed: Cannot create temp file on S1" 46])
                  | Except.ok fs3 =>
                    match save_loop env tar_path (weight rest + 1) fs3 rest file_size 0 0 with
                    | none => none
                    | some (fs4, total_received) =>
                      if total_received ≠ file_size then
                        some { (st2.sends
                            [zero8, sendLit "Download failed: Transfer interrupted" 37]) with
                          fs := remove_ fs4 tar_path }
                      else some (send_tar tar_path { st2 with fs := fs4 })

/-- One round of the loop over the storage nodes in `dispfnames` (S1.c 563-586) for the node
S`n` with file type `filetype`: the state and `file_list` after it. -/
def dispfnames_node (env : Env) (home param1 : Bytes) (n : Nat) (port : Nat) (filetype : Bytes)
    (st : State) (file_list : Bytes) : Option (State × Bytes) :=
  if !connect_to_server env port then
    some ({ st with conns := st.conns ++ [(port, [])] }, file_list)
  else
    let adjusted_path := snprintf PATH_MAX
      (home ++ str "/S" ++ (Nat.toDigits 10 n).map Char.toNat ++ str "/" ++ param1.drop 4)
    let disp_cmd := snprintf BUFFER_SIZE
      (str "dispfnames " ++ adjusted_path ++ str " " ++ filetype)
    let sent := if env.sendOk port 0 then [disp_cmd] else []
    match peerAt env port st.fs (delivered sent) with
    | none => none
    | some (fs1, reply) =>
      let st1 : State := { st with fs := fs1, conns := st.conns ++ [(port, sent)] }
      let current_list :=
        match recv (BUFFER_SIZE - 1) (delivered reply) with
        | (Recv.data bytes, _) =>
          if cstr bytes ≠ str "No files found" then cstr bytes else []
        | _ => []
      some (st1, file_list ++ current_list.take (BUFFER_SIZE - file_list.length - 1))

/-- The `dispfnames` branch of `prcclient` (S1.c 512-595). -/
def dispfnames (env : Env) (param1 : Bytes) (st : State) : Option State :=
  if param1.length = 0 then some (st.send (sendLit "No files found" 14))
  else
    match getenv_HOME env with
    | none => some (st.send (sendLit "No files found: HOME environment variable not set" 49))
    | some home =>
      let pathname := local_path home param1
      match stat st.fs pathname with
      | some (Node.dir _) =>
        let local_list := listNames BUFFER_SIZE env st.fs pathname (str ".c")
        let list0 := local_list.take (BUFFER_SIZE - 1)
        match dispfnames_node env home param1 2 env.PORT_S2 (str ".pdf") st list0 with
        | none => none
        | some (st2, list2) =>
          match dispfnames_node env home param1 3 env.PORT_S3 (str ".txt") st2 list2 with
          | none => none
          | some (st3, list3) =>
            match dispfnames_node env home param1 4 env.PORT_S4 (str ".zip") st3 list3 with
            | none => none
            | some (st4, file_list) =>
              if file_list.length = 0 then some (st4.send (sendLit "No files found" 14))
              else some (st4.send file_list)
      | _ => some (st.send (sendLit "No files found" 14))

/-- One command of `prcclient`: the dispatch on the verb (S1.c 133-595), after the command
was received into `buffer`.  A verb that is none of the five is passed over. -/
def dispatch (env : Env) (buffer : Bytes) (st : State) : Option State :=
  match sscanf_command buffer with
  | (none, _) => none
  | (some command, param1) =>
    if 20 ≤ command.length ∨ 256 ≤ param1.length then none
    else if command = str "uploadf" then uploadf env buffer st
    else if command = str "downlf" then downlf env param1 st
    else if command = str "removef" then removef env param1 st
    else if command = str "downltar" then downltar env param1 st
    else if command = str "dispfnames" then dispfnames env param1 st
    else some st

/-- The command loop of `prcclient` (S1.c 127-596); the first argument bounds the number of
commands. -/
def prcclient_loop (env : Env) : Nat → State → Option State
  | 0, _ => none
  | fuel + 1, st =>
    match recv (BUFFER_SIZE - 1) st.inp with
    | (Recv.data buffer, inp1) =>
      match dispatch env buffer { st with inp := inp1 } with
      | none => none
      | some st1 => prcclient_loop env fuel st1
    | (_, inp1) => some { st with inp := inp1 }

/-- The function `prcclient(client_sock)` (S1.c 125-597) on a new connection: the worker state when the
function returns.  Every command takes at least one byte, so the bound is never reached. -/
def prcclient (env : Env) (fs : FS) (inp : Script) : Option State :=
  prcclient_loop env (weight inp + 1) { fs := fs, inp := inp, out := [], conns := [] }

end S1

/-! ## A concrete environment -/

/-- An environment in which every node listens and every call succeeds; the node on
`PORT_S2` sends nothing. -/
def demoEnv : Env where
  HOME := some (str "/home/u")
  PORT_S2 := 5002
  PORT_S3 := 5003
  PORT_S4 := 5004
  listening := fun _ => true
  S2 := fun fs _ => (fs, [])
  sendOk := fun _ _ => true
  fwriteOk := fun _ _ => true
  system := fun fs _ => (1, fs)
  popen := fun _ _ => none

/-- The file system after `create_directories(dirname(path))`. -/
def dirsMade (fs : FS) (path : Bytes) : FS := (create_directories fs (dirname path)).getD fs

/-- The file system after `fopen(path, "wb")`. -/
def opened (fs : FS) (path : Bytes) : FS :=
  match fopen_wb fs path with
  | Except.ok fs1 => fs1
  | Except.error _ => fs

/-- The file system after `create_directories` for a store of `a.c` under `~S1/x`, from an
empty file system. -/
def demoDirs : FS := dirsMade [] (S1.store_path (str "/home/u") (str "~S1/x") (str "a.c"))

/-- The file system after the file of that store is opened. -/
def demoOpened : FS :=
  opened (remove_ demoDirs (S1.store_path (str "/home/u") (str "~S1/x") (str "a.c")))
    (S1.store_path (str "/home/u") (str "~S1/x") (str "a.c"))

/-- The gateway's copy of `a.txt` for a store under `~S1/x`. -/
def demoCopy : Bytes := S1.store_path (str "/home/u") (str "~S1/x") (str "a.txt")

/-- The file of S3 for that store. -/
def demoTarget : Bytes := S1.forward_path (str "/home/u") (str "S3") (str "~S1/x") (str "a.txt")

/-- The file system when the gateway has opened its copy, from an empty file system. -/
def demoCopyOpened : FS := opened (remove_ (dirsMade [] demoCopy) demoCopy) demoCopy

/-- The file system when S3 has made the directories of its file, the content being
`[104, 105]`. -/
def demoTargetDirs : FS := dirsMade (fwrite demoCopyOpened demoCopy [104, 105]) demoTarget

/-- The file system when S3 has opened its file. -/
def demoTargetOpened : FS := opened (remove_ demoTargetDirs demoTarget) demoTarget

/-- A file system with the directories `/home/u/S1`, `/home/u/S3`, `/home/u/S4` and the
given nodes. -/
def demoTree (nodes : List (Bytes × Node)) : FS :=
  nodes.map (fun e => (normPath e.1, e.2)) ++
    [(normPath (str "/home/u/S1"), Node.dir true), (normPath (str "/home/u/S3"), Node.dir true),
     (normPath (str "/home/u/S4"), Node.dir true), (normPath (str "/home/u"), Node.dir true),
     (normPath (str "/home"), Node.dir true)]

/-- A worker of the gateway on an empty file system to which the content `[104, 105]` is
still to arrive. -/
def demoState : S1.State := { fs := [], inp := delivered [[104, 105]], out := [], conns := [] }

/-- The gateway's copy of `a.pdf` for a store under `~S1/x`. -/
def demoPdf : Bytes := S1.store_path (str "/home/u") (str "~S1/x") (str "a.pdf")

/-- The worker `demoState` when the content of `a.pdf` is received. -/
def demoReceived : S1.State :=
  { demoState with
    fs := fwrite (opened (remove_ (dirsMade [] demoPdf) demoPdf) demoPdf) demoPdf
      (dataOf demoState.inp),
    inp := [] }

/-- A tree in which S3 holds `docs/a.txt` and the gateway has a directory `docs`. -/
def demoDocs : FS :=
  demoTree [(str "/home/u/S3/docs", Node.dir true),
    (str "/home/u/S3/docs/a.txt", Node.file [1] true true),
    (str "/home/u/S1/docs", Node.dir true)]

/-- A tree in which the gateway holds the file `x/a.xyz`. -/
def demoXyz : FS :=
  demoTree [(str "/home/u/S1/x", Node.dir true),
    (str "/home/u/S1/x/a.xyz", Node.file [9] true true)]

/-! ## Programs run through the shell

Models of the two command lines the sources hand to the shell, for paths without
characters that the shell treats specially. -/

/-- The text of `s` before the first occurrence of `sep` and the text after it; `none` when
`sep` does not occur. -/
def cutAt (sep : Bytes) : Bytes → Option (Bytes × Bytes)
  | [] => if sep = [] then some ([], []) else none
  | c :: s =>
    if (c :: s).take sep.length = sep then some ([], (c :: s).drop sep.length)
    else (cutAt sep s).map (fun r => (c :: r.1, r.2))

/-- Names joined with `/` between them. -/
def joinPath : List Bytes → Bytes
  | [] => []
  | [a] => a
  | a :: b :: rest => a ++ 47 :: joinPath (b :: rest)

/-- Whether `a` is `b` or comes before it byte by byte: the order of `sort` in the C
locale. -/
def bytesLe : Bytes → Bytes → Bool
  | [], _ => true
  | _ :: _, [] => false
  | x :: a, y :: b => x < y || (x == y && bytesLe a b)

/-- Whether `find pathname -type f -name '*filetype'` prints the entry at the key `e`: a
regular file below the directory `k` whose name ends with `filetype`. -/
def findMatches (fs : FS) (k : Key) (filetype : Bytes) (e : Key) : Bool :=
  (match fs.get e with
   | some (Node.file _ _ _) => true
   | _ => false) &&
  decide (k.length < e.length) && decide (e.take k.length = k) &&
  (match e.getLast? with
   | some name => decide (name.drop (name.length - filetype.length) = filetype)
   | none => false)

/-- The lines `find pathname -type f -name '*filetype'` prints: for every regular file below the
directory whose name ends with `filetype`, the starting point (less the slashes at its end),
a slash, and the names from there down to the file. -/
def find_lines (fs : FS) (pathname filetype : Bytes) : List Bytes :=
  let k := normPath pathname
  (((fs.map Prod.fst).dedup).filter (findMatches fs k filetype)).map
    (fun e => stripSlashes pathname ++ 47 :: joinPath (e.drop k.length))

/-- The output of `find pathname -type f -name '*filetype' | sort`: the lines of `find` in
the order of `sort`, each ended by a newline. -/
def find_sort (fs : FS) (pathname filetype : Bytes) : Bytes :=
  ((find_lines fs pathname filetype).insertionSort (fun a b => bytesLe a b = true)).flatMap
    (fun line => line ++ [10])

/-- A model of `popen(cmd, "r")` for the command lines of `dispfnames`
(S1.c 551, S3.c 290, S4.c 185); no other command is started. -/
def posix_popen (fs : FS) (cmd : Bytes) : Option Bytes :=
  if cmd.take 5 ≠ str "find " then none
  else
    match cutAt (str " -type f -name '*") (cmd.drop 5) with
    | none => none
    | some (pathname, rest) =>
      match cutAt (str "' | sort") rest with
      | none => none
      | some (filetype, _) => some (find_sort fs pathname filetype)

/-- A model of `system(cmd)` for the command lines of `downltar` (S1.c 401, S3.c 224),
`cd D && find * ... | tar -cf T -T -`, where the directory `D` exists: `tar` opens `T` for
writing and writes the archive, whose bytes are the first argument.  The result is 0 when
`T` could be opened and the wait status of exit code 2 otherwise. -/
def tar_cf (archive : Bytes) (fs : FS) (cmd : Bytes) : Int × FS :=
  match cutAt (str " | tar -cf ") cmd with
  | none => (512, fs)
  | some (_, rest) =>
    match cutAt (str " -T -") rest with
    | none => (512, fs)
    | some (t, _) =>
      match fopen_wb fs t with
      | Except.ok fs1 => (0, fwrite fs1 t archive)
      | Except.error _ => (512, fs)

/-- The environment `demoEnv` with the two models above; an archive has the bytes `tar`. -/
def posixEnv : Env :=
  { demoEnv with popen := posix_popen, system := tar_cf (str "tar") }

/-- A tree in which the gateway and S3 each hold a directory `d` with a file next to a
directory `sub` that has a file of its own. -/
def demoNested : FS :=
  demoTree [(str "/home/u/S1/d", Node.dir true),
    (str "/home/u/S1/d/b.c", Node.file [1] true true),
    (str "/home/u/S1/d/sub", Node.dir true),
    (str "/home/u/S1/d/sub/a.c", Node.file [2] true true),
    (str "/home/u/S3/d", Node.dir true),
    (str "/home/u/S3/d/n.txt", Node.file [3] true true),
    (str "/home/u/S3/d/sub", Node.dir true),
    (str "/home/u/S3/d/sub/m.txt", Node.file [4] true true)]

/-- A tree in which the archive of the gateway for `.c` is left from before, as a file that
may be written and may not be read. -/
def demoStaleTar : FS :=
  demoTree [(str "/home/u/S1/temp", Node.dir true),
    (str "/home/u/S1/temp/cfiles.tar", Node.file [] false true)]

/-! ## Listings: the blocks of the nodes -/

/-- The command the gateway sends to the node S`n` for a listing (S1.c 567-570). -/
def S1.disp_cmd (home param1 : Bytes) (n : Nat) (filetype : Bytes) : Bytes :=
  snprintf BUFFER_SIZE (str "dispfnames " ++
    snprintf PATH_MAX
      (home ++ str "/S" ++ (Nat.toDigits 10 n).map Char.toNat ++ str "/" ++ param1.drop 4)
    ++ str " " ++ filetype)

/-- What the gateway hears from the node at `port` when it asks for a listing with `cmd`:
nothing, because the node cannot be reached (`none`), or a reply `r`, which is a text of 1
to 8191 bytes without NUL that the node sends first.  `fs` is the file system before and
`fs1` the one the node leaves. -/
def S1.heard (env : Env) (port : Nat) (cmd : Bytes) (fs fs1 : FS) : Option Bytes → Prop
  | none => env.listening port = false ∧ fs1 = fs
  | some r =>
    env.listening port = true ∧ env.sendOk port 0 = true ∧ r ≠ [] ∧
      r.length ≤ BUFFER_SIZE - 1 ∧ (∀ c ∈ r, c ≠ 0) ∧
      ∃ rest, S1.peerAt env port fs (delivered [cmd]) = some (fs1, r :: rest)

/-- The block a destination contributes to a listing, as the specification words it: a
destination that cannot be reached or that answers `No files found` contributes nothing,
any other reply is the block. -/
def S1.contribution : Option Bytes → Bytes
  | none => []
  | some r => if r = str "No files found" then [] else r

/-- The string in `file_list` after `strncat(file_list, current_list, BUFFER_SIZE -
strlen(file_list) - 1)` (S1.c 585). -/
def S1.strncat_list (file_list current_list : Bytes) : Bytes :=
  file_list ++ current_list.take (BUFFER_SIZE - file_list.length - 1)

/-- The sends that `connect_to_server` logs for a node in a listing. -/
def S1.asked (cmd : Bytes) : Option Bytes → List Bytes
  | none => []
  | some _ => [cmd]

/-- The environment `posixEnv` without a node on the port of S2. -/
def posixEnvS2Down : Env :=
  { posixEnv with listening := fun port => decide (port ≠ 5002) }

/-! ## Bundles by type: the archive of the gateway -/

/-- The string `tar_path` of `downltar` (S1.c 393-395). -/
def S1.tar_path (home param1 : Bytes) : Bytes :=
  snprintf PATH_MAX (home ++ str "/S1/temp/" ++
    (if param1 = str ".c" then str "cfiles"
     else if param1 = str ".pdf" then str "pdffiles" else str "textfiles") ++ str ".tar")

/-- The command line that builds the archive of the `.c` files (S1.c 401). -/
def S1.tar_cmd (home tar_path : Bytes) : Bytes :=
  snprintf BUFFER_SIZE
    (str "cd " ++ home ++ str "/S1 && find * -type f -name '*.c' | tar -cf "
      ++ tar_path ++ str " -T -")

/-- The port of the node that builds the archive for a type other than `.c` (S1.c 412). -/
def S1.tar_port (env : Env) (param1 : Bytes) : Nat :=
  if param1 = str ".pdf" then env.PORT_S2 else env.PORT_S3

/-- Whether a regular file is at the path and its directory lets entries be removed. -/
def removableFile (fs : FS) (path : Bytes) : Bool :=
  (match fs.get (normPath path) with
   | some (Node.file _ _ _) => true
   | _ => false) && fs.parentWritable (normPath path)

/-! ## Listings: what fits the buffers -/

/-- The bytes that arrive on a socket before the first failure of the connection. -/
def dataBefore : Script → Bytes
  | [] => []
  | Event.error :: _ => []
  | Event.data bytes :: rest => bytes ++ dataBefore rest

/-- The environment `demoEnv` with a disk on which no `fwrite` stores all its bytes. -/
def diskFullEnv : Env := { demoEnv with fwriteOk := fun _ _ => false }

/-! ## Where a request is served, from the result of `strrchr` -/

/-- Where `uploadf` stores a file, from `ext = strrchr(filename, '.')` (S1.c 201-216). -/
def S1.uploadf_route (env : Env) (ext : Option Bytes) : S1.Route :=
  if ext = some (str ".c") then S1.Route.gateway
  else
    let port := S1.upload_port env ext
    if port ≠ 0 then S1.Route.node port else S1.Route.unsupported

/-- Where `downlf` reads a file, from `ext = strrchr(filepath, '.')` (S1.c 245-254, 290-293). -/
def S1.downlf_route (env : Env) (ext : Option Bytes) : S1.Route :=
  match ext with
  | none => S1.Route.unsupported
  | some ext =>
    if ext ≠ str ".c" ∧ ext ≠ str ".pdf" ∧ ext ≠ str ".txt" ∧ ext ≠ str ".zip" then
      S1.Route.unsupported
    else if ext = str ".c" then S1.Route.gateway
    else S1.Route.node (S1.download_port env ext)

/-- Where `removef` removes a file, from `ext = strrchr(filepath, '.')` (S1.c 312-319, 336-338,
365-367). -/
def S1.removef_route (env : Env) (ext : Option Bytes) : S1.Route :=
  match ext with
  | none => S1.Route.unsupported
  | some dot_ext =>
    let ext := dot_ext.drop 1
    if ext = str "c" then S1.Route.gateway
    else if ext = str "pdf" ∨ ext = str "txt" then
      S1.Route.node (if ext = str "pdf" then env.PORT_S2 else env.PORT_S3)
    else S1.Route.unsupported

/-! ## Directories that may not be written -/

/-- A tree in which the directory `x` of the gateway may not be written and holds the file
`a.c`, which may be written. -/
def demoLockedDir : FS :=
  demoTree [(str "/home/u/S1/x", Node.dir false),
    (str "/home/u/S1/x/a.c", Node.file [7, 7] true true)]

/-- A tree in which neither the directory `x` of the gateway nor the file `a.c` in it may be
written. -/
def demoLockedFile : FS :=
  demoTree [(str "/home/u/S1/x", Node.dir false),
    (str "/home/u/S1/x/a.c", Node.file [7, 7] true false)]

/-- A tree in which the directory `x` of the gateway may not be written and holds the file
`a.txt`, which may be written. -/
def demoLockedText : FS :=
  demoTree [(str "/home/u/S1/x", Node.dir false),
    (str "/home/u/S1/x/a.txt", Node.file [7, 7] true true)]

/-! ## Lemmas: C strings and `sscanf` -/

theorem cstr_eq_self (s : Bytes) (h : ∀ c ∈ s, c ≠ 0) : cstr s = s := by
  unfold cstr
  rw [List.takeWhile_eq_self_iff]
  intro c hc
  simpa using h c hc

theorem isToken_ne_nil {t : Bytes} (h : isToken t = true) : t ≠ [] := by
  intro h0
  subst h0
  simp [isToken] at h

theorem isToken_mem {t : Bytes} (h : isToken t = true) :
    ∀ c ∈ t, isspace c = false ∧ c ≠ 0 := by
  intro c hc
  simp only [isToken, Bool.and_eq_true, List.all_eq_true] at h
  have := h.2 c hc
  simpa using this

theorem isOperand_mem {p : Bytes} (h : isOperand p = true) : ∀ c ∈ p, c ≠ 10 ∧ c ≠ 0 := by
  intro c hc
  simp only [isOperand, Bool.and_eq_true, List.all_eq_true] at h
  have := h.2 c hc
  simpa using this

theorem isspace_32 : isspace 32 = true := by decide

theorem scanToken_token (t r : Bytes) (ht : isToken t = true)
    (hr : r = [] ∨ ∃ r1, r = 32 :: r1) : scanToken (t ++ r) = some (t, r) := by
  have hne := isToken_ne_nil ht
  have hmem := isToken_mem ht
  obtain ⟨c, t1, rfl⟩ := List.exists_cons_of_ne_nil hne
  have hc : isspace c = false := (hmem c (by simp)).1
  have htw : ∀ x ∈ c :: t1, (fun c => !isspace c) x = true := by
    intro x hx
    simp [(hmem x hx).1]
  have hdrop : List.dropWhile isspace ((c :: t1) ++ r) = (c :: t1) ++ r := by
    simp [List.dropWhile_cons, hc]
  unfold scanToken
  simp only [hdrop]
  have hnil : ((c :: t1) ++ r = []) = False := by simp
  rw [if_neg (by simp)]
  congr 1
  rcases hr with rfl | ⟨r1, rfl⟩
  · simp only [List.append_nil]
    rw [List.takeWhile_eq_self_iff.2 htw, List.dropWhile_eq_nil_iff.2 htw]
  · have h1 : List.takeWhile (fun c => !isspace c) ((c :: t1) ++ 32 :: r1) = c :: t1 := by
      rw [List.takeWhile_append_of_pos htw]
      simp [List.takeWhile_cons, isspace_32]
    have h2 : List.dropWhile (fun c => !isspace c) ((c :: t1) ++ 32 :: r1) = 32 :: r1 := by
      rw [List.dropWhile_append_of_pos htw]
      simp [List.dropWhile_cons, isspace_32]
    rw [h1, h2]

theorem scanToken_space (s : Bytes) : scanToken (32 :: s) = scanToken s := by
  simp [scanToken, List.dropWhile_cons, isspace_32]

theorem scanLine_operand (p : Bytes) (hp : isOperand p = true) :
    scanLine (32 :: p) = some p := by
  have hmem := isOperand_mem hp
  obtain ⟨c, p1, rfl⟩ : ∃ c p1, p = c :: p1 := by
    cases p with
    | nil => simp [isOperand] at hp
    | cons c p1 => exact ⟨c, p1, rfl⟩
  have hc : isspace c = false := by
    simp only [isOperand, Bool.and_eq_true] at hp
    simpa using hp.1
  have htw : ∀ x ∈ c :: p1, (fun c => c != 10) x = true := by
    intro x hx
    simpa using (hmem x hx).1
  unfold scanLine
  simp only [List.dropWhile_cons, isspace_32, if_true, hc]
  simp only [Bool.false_eq_true, if_false]
  rw [List.takeWhile_eq_self_iff.2 htw]
  simp

theorem token_no_nul {t : Bytes} (ht : isToken t = true) : ∀ c ∈ t, c ≠ 0 :=
  fun c hc => (isToken_mem ht c hc).2

theorem isOperand_of_tokens {a b : Bytes} (ha : isToken a = true) (hb : isToken b = true) :
    isOperand (a ++ 32 :: b) = true := by
  obtain ⟨c, a1, rfl⟩ := List.exists_cons_of_ne_nil (isToken_ne_nil ha)
  have hA := isToken_mem ha
  have hB := isToken_mem hb
  have hc := (hA c (by simp)).1
  simp only [isOperand, List.cons_append, hc, Bool.not_false, Bool.true_and, List.all_eq_true]
  intro x hx
  have hx' : x ∈ c :: a1 ∨ x = 32 ∨ x ∈ b := by
    rcases List.mem_cons.1 hx with h | h
    · exact Or.inl (h ▸ List.mem_cons_self _ _)
    · rcases List.mem_append.1 h with h | h
      · exact Or.inl (List.mem_cons_of_mem _ h)
      · rcases List.mem_cons.1 h with h | h
        · exact Or.inr (Or.inl h)
        · exact Or.inr (Or.inr h)
  rcases hx' with h | h | h
  · have := hA x h
    have h10 : x ≠ 10 := by
      intro h10
      rw [h10] at this
      exact absurd this.1 (by decide)
    simp [h10, this.2]
  · subst h
    decide
  · have := hB x h
    have h10 : x ≠ 10 := by
      intro h10
      rw [h10] at this
      exact absurd this.1 (by decide)
    simp [h10, this.2]

theorem isOperand_of_token {a : Bytes} (ha : isToken a = true) : isOperand a = true := by
  obtain ⟨c, a1, rfl⟩ := List.exists_cons_of_ne_nil (isToken_ne_nil ha)
  have hA := isToken_mem ha
  have hc := (hA c (by simp)).1
  simp only [isOperand, hc, Bool.not_false, Bool.true_and, List.all_eq_true]
  intro x hx
  have := hA x hx
  have h10 : x ≠ 10 := by
    intro h10
    rw [h10] at this
    exact absurd this.1 (by decide)
  simp [h10, this.2]

theorem sscanf_command_operand (v p : Bytes) (hv : isToken v = true)
    (hp : isOperand p = true) : sscanf_command (v ++ 32 :: p) = (some v, p) := by
  have h0 : ∀ c ∈ v ++ 32 :: p, c ≠ 0 := by
    intro c hc
    rcases List.mem_append.1 hc with h | h
    · exact token_no_nul hv c h
    · rcases List.mem_cons.1 h with h | h
      · subst h; decide
      · exact (isOperand_mem hp c h).2
  unfold sscanf_command
  rw [cstr_eq_self _ h0, scanToken_token v (32 :: p) hv (Or.inr ⟨p, rfl⟩)]
  simp [scanLine_operand p hp]

theorem sscanf_two_tokens (v a b : Bytes) (hv : isToken v = true) (ha : isToken a = true)
    (hb : isToken b = true) : sscanf_two (v ++ 32 :: (a ++ 32 :: b)) = (some a, some b) := by
  have h0 : ∀ c ∈ v ++ 32 :: (a ++ 32 :: b), c ≠ 0 := by
    intro c hc
    simp only [List.mem_append, List.mem_cons] at hc
    rcases hc with h | h | h | h | h
    · exact token_no_nul hv c h
    · subst h; decide
    · exact token_no_nul ha c h
    · subst h; decide
    · exact token_no_nul hb c h
  unfold sscanf_two
  rw [cstr_eq_self _ h0, scanToken_token v _ hv (Or.inr ⟨_, rfl⟩)]
  simp only [scanToken_space]
  rw [scanToken_token a _ ha (Or.inr ⟨_, rfl⟩)]
  simp only [scanToken_space]
  have := scanToken_token b [] hb (Or.inl rfl)
  rw [List.append_nil] at this
  rw [this]

theorem sscanf_one_token (v a : Bytes) (hv : isToken v = true) (ha : isToken a = true) :
    sscanf_one (v ++ 32 :: a) = some a := by
  have h0 : ∀ c ∈ v ++ 32 :: a, c ≠ 0 := by
    intro c hc
    simp only [List.mem_append, List.mem_cons] at hc
    rcases hc with h | h | h
    · exact token_no_nul hv c h
    · subst h; decide
    · exact token_no_nul ha c h
  unfold sscanf_one
  rw [cstr_eq_self _ h0, scanToken_token v _ hv (Or.inr ⟨_, rfl⟩)]
  simp only [scanToken_space]
  have := scanToken_token a [] ha (Or.inl rfl)
  rw [List.append_nil] at this
  rw [this]
  rfl

/-! ## Lemmas: sockets -/

theorem dataOf_delivered (l : List Bytes) : dataOf (delivered l) = l.flatten := by
  induction l with
  | nil => rfl
  | cons a l ih => simp [delivered, dataOf, List.flatten] at *; exact ih

theorem no_error_delivered (l : List Bytes) : ∀ e ∈ delivered l, e ≠ Event.error := by
  intro e he
  simp only [delivered, List.mem_map] at he
  obtain ⟨b, _, rfl⟩ := he
  simp

/-- What `recv` does on a script without failures. -/
theorem recv_spec (cap : Nat) (hcap : 0 < cap) (inp : Script)
    (hne : ∀ e ∈ inp, e ≠ Event.error) :
    (recv cap inp = (Recv.closed, []) ∧ dataOf inp = []) ∨
    ∃ b inp1, recv cap inp = (Recv.data b, inp1) ∧ b ≠ [] ∧ b.length ≤ cap ∧
      dataOf inp = b ++ dataOf inp1 ∧ weight inp1 < weight inp ∧
      ∀ e ∈ inp1, e ≠ Event.error := by
  induction inp with
  | nil => left; exact ⟨rfl, rfl⟩
  | cons e rest ih =>
    have hrest : ∀ e ∈ rest, e ≠ Event.error := fun x hx => hne x (List.mem_cons_of_mem _ hx)
    cases e with
    | error => exact absurd rfl (hne Event.error (List.mem_cons_self _ _))
    | data bytes =>
      by_cases hb : bytes = []
      · subst hb
        rcases ih hrest with ⟨h1, h2⟩ | ⟨b, inp1, h1, h2, h3, h4, h5, h6⟩
        · left
          simp [recv, dataOf, h1, h2]
        · right
          refine ⟨b, inp1, ?_, h2, h3, ?_, ?_, h6⟩
          · simp [recv, h1]
          · simp [dataOf, h4]
          · simp only [weight]; omega
      · right
        by_cases hl : bytes.length ≤ cap
        · refine ⟨bytes, rest, ?_, hb, hl, ?_, ?_, hrest⟩
          · simp [recv, hb, hl]
          · simp [dataOf]
          · simp only [weight]; omega
        · refine ⟨bytes.take cap, Event.data (bytes.drop cap) :: rest, ?_, ?_, ?_, ?_, ?_, ?_⟩
          · simp [recv, hb, hl]
          · intro h
            have := congrArg List.length h
            simp only [List.length_take, List.length_nil] at this
            omega
          · simp
          · simp only [dataOf]
            rw [← List.append_assoc, List.take_append_drop]
          · simp only [weight, List.length_drop]; omega
          · intro e he
            rcases List.mem_cons.1 he with h | h
            · subst h; simp
            · exact hrest e h

/-! ## Lemmas: file system -/

theorem FS.get_cons (k : Key) (n : Node) (fs : FS) (k1 : Key) (h : k1 ≠ []) :
    FS.get ((k, n) :: fs) k1 = if k = k1 then some n else FS.get fs k1 := by
  cases k1 with
  | nil => exact absurd rfl h
  | cons c cs => rfl

theorem FS.get_erase_self (fs : FS) (k : Key) (hk : k ≠ []) : FS.get (FS.erase fs k) k = none := by
  induction fs with
  | nil =>
    cases k with
    | nil => exact absurd rfl hk
    | cons c cs => rfl
  | cons e fs ih =>
    obtain ⟨k0, n0⟩ := e
    by_cases h : k0 = k
    · simpa [FS.erase, List.filter_cons, h] using ih
    · have : FS.erase ((k0, n0) :: fs) k = (k0, n0) :: FS.erase fs k := by
        simp [FS.erase, List.filter_cons, h]
      rw [this, FS.get_cons _ _ _ _ hk, if_neg h]
      exact ih

theorem FS.get_erase_other (fs : FS) (k k1 : Key) (h : k1 ≠ k) :
    FS.get (FS.erase fs k) k1 = FS.get fs k1 := by
  cases k1 with
  | nil =>
    cases hfs : FS.erase fs k <;> cases fs <;> rfl
  | cons c cs =>
    induction fs with
    | nil => rfl
    | cons e fs ih =>
      obtain ⟨k0, n0⟩ := e
      by_cases h0 : k0 = k
      · have : FS.erase ((k0, n0) :: fs) k = FS.erase fs k := by
          simp [FS.erase, List.filter_cons, h0]
        rw [this, ih, FS.get_cons _ _ _ _ (by simp)]
        rw [if_neg]
        rw [h0]
        exact fun hh => h hh.symm
      · have : FS.erase ((k0, n0) :: fs) k = (k0, n0) :: FS.erase fs k := by
          simp [FS.erase, List.filter_cons, h0]
        rw [this, FS.get_cons _ _ _ _ (by simp), FS.get_cons _ _ _ _ (by simp), ih]

theorem FS.get_set_self (fs : FS) (k : Key) (n : Node) (hk : k ≠ []) :
    FS.get (FS.set fs k n) k = some n := by
  rw [FS.set, FS.get_cons _ _ _ _ hk, if_pos rfl]

theorem FS.get_set_other (fs : FS) (k k1 : Key) (n : Node) (h : k1 ≠ k) :
    FS.get (FS.set fs k n) k1 = FS.get fs k1 := by
  cases k1 with
  | nil => cases fs <;> rfl
  | cons c cs =>
    rw [FS.set, FS.get_cons _ _ _ _ (by simp), if_neg (fun hh => h hh.symm),
      FS.get_erase_other _ _ _ h]

theorem FS.erase_erase (fs : FS) (k : Key) : FS.erase (FS.erase fs k) k = FS.erase fs k := by
  simp [FS.erase, List.filter_filter]

theorem FS.erase_set (fs : FS) (k : Key) (n : Node) : FS.erase (FS.set fs k n) k = FS.erase fs k := by
  simp [FS.set, FS.erase, List.filter_cons, List.filter_filter]

theorem FS.set_set (fs : FS) (k : Key) (n m : Node) :
    FS.set (FS.set fs k n) k m = FS.set fs k m := by
  rw [FS.set, FS.erase_set]
  rfl

theorem FS.get_nil_key (fs : FS) : FS.get fs [] = some (Node.dir true) := by
  cases fs <;> rfl

/-- A key that holds a regular file is not the root. -/
theorem FS.key_ne_nil_of_file {fs : FS} {k : Key} {d : Bytes} {r w : Bool}
    (h : FS.get fs k = some (Node.file d r w)) : k ≠ [] := by
  intro hk
  subst hk
  rw [FS.get_nil_key] at h
  cases h

theorem fwrite_eq (fs : FS) (path data old : Bytes) (r w : Bool)
    (h : FS.get fs (normPath path) = some (Node.file old r w)) :
    fwrite fs path data = FS.set fs (normPath path) (Node.file (old ++ data) r w) := by
  simp [fwrite, h]

theorem fwrite_fwrite (fs : FS) (path a b old : Bytes) (r w : Bool)
    (h : FS.get fs (normPath path) = some (Node.file old r w)) :
    fwrite (fwrite fs path a) path b = fwrite fs path (a ++ b) := by
  have hk := FS.key_ne_nil_of_file h
  rw [fwrite_eq fs path a old r w h, fwrite_eq fs path (a ++ b) old r w h]
  rw [fwrite_eq _ path b (old ++ a) r w (FS.get_set_self _ _ _ hk), FS.set_set,
    List.append_assoc]

theorem get_fwrite (fs : FS) (path data old : Bytes) (r w : Bool)
    (h : FS.get fs (normPath path) = some (Node.file old r w)) :
    FS.get (fwrite fs path data) (normPath path) = some (Node.file (old ++ data) r w) := by
  rw [fwrite_eq fs path data old r w h, FS.get_set_self _ _ _ (FS.key_ne_nil_of_file h)]

/-- After a successful `fopen(path, "wb")` the path holds an empty regular file. -/
theorem get_fopen_wb {fs fs1 : FS} {path : Bytes} (h : fopen_wb fs path = Except.ok fs1) :
    ∃ r w, FS.get fs1 (normPath path) = some (Node.file [] r w) := by
  unfold fopen_wb at h
  cases hk : normPath path with
  | nil =>
    simp only [hk, FS.get_nil_key] at h
    cases h
  | cons c cs =>
    simp only [hk] at h
    split at h
    · cases h
    · split at h
      · injection h with h
        subst h
        exact ⟨_, _, FS.get_set_self _ _ _ (by simp)⟩
      · cases h
    · split at h
      · cases h
      · cases h
      · split at h
        · injection h with h
          subst h
          exact ⟨_, _, FS.get_set_self _ _ _ (by simp)⟩
        · cases h

theorem fopen_rb_of_get {fs : FS} {path data : Bytes} {w : Bool}
    (h : FS.get fs (normPath path) = some (Node.file data true w)) :
    fopen_rb fs path = some data := by
  simp [fopen_rb, h]

/-! ## Lemmas: `fread` -/

theorem freadChunks_flatten (n : Nat) (hn : 0 < n) :
    ∀ (fuel : Nat) (data : Bytes), data.length ≤ fuel →
      (freadChunks fuel n data).flatten = data := by
  intro fuel
  induction fuel with
  | zero =>
    intro data h
    have : data = [] := List.length_eq_zero.1 (Nat.le_zero.1 h)
    subst this
    rfl
  | succ fuel ih =>
    intro data h
    by_cases hd : data = []
    · subst hd
      simp [freadChunks]
    · have hpos : 0 < data.length := List.length_pos.2 hd
      simp only [freadChunks, hd, if_false, List.flatten_cons]
      rw [ih (data.drop n) (by rw [List.length_drop]; omega), List.take_append_drop]

theorem sendFile_flatten (data : Bytes) : (sendFile data).flatten = data :=
  freadChunks_flatten BUFFER_SIZE (by decide) _ _ (Nat.le_refl _)

/-! ## Lemmas: paths -/

theorem components_append_slash (a b : Bytes) :
    ∀ cur, components (a ++ 47 :: b) cur = components a cur ++ components b [] := by
  induction a with
  | nil =>
    intro cur
    by_cases h : cur = [] <;> simp [components, h]
  | cons c a ih =>
    intro cur
    by_cases hc : c = 47
    · by_cases h : cur = [] <;> simp [components, hc, h, ih]
    · simp [components, hc, ih]

theorem components_slash (b : Bytes) : components (47 :: b) [] = components b [] := by
  simp [components]

/-- A doubled slash does not change the resolved path. -/
theorem normPath_double_slash (a b : Bytes) :
    normPath (a ++ 47 :: 47 :: b) = normPath (a ++ 47 :: b) := by
  simp only [normPath, components_append_slash, components_slash]

theorem exists_of_getLast? {l : Bytes} {c : Nat} (h : l.getLast? = some c) :
    ∃ x, l = x ++ [c] := by
  rcases List.eq_nil_or_concat l with rfl | ⟨x, y, rfl⟩
  · simp at h
  · rw [List.concat_eq_append, List.getLast?_concat] at h
    injection h with h
    subst h
    exact ⟨x, by simp⟩

theorem strrchr_suffix (c : Nat) : ∀ (s r : Bytes), strrchr s c = some r → ∃ pre, s = pre ++ r := by
  intro s
  induction s with
  | nil => intro r h; simp [strrchr] at h
  | cons x s ih =>
    intro r h
    simp only [strrchr] at h
    cases hs : strrchr s c with
    | some r1 =>
      rw [hs] at h
      injection h with h
      subst h
      obtain ⟨pre, hpre⟩ := ih r1 hs
      exact ⟨x :: pre, by rw [hpre]; rfl⟩
    | none =>
      rw [hs] at h
      by_cases hx : x = c
      · simp only [hx, if_true] at h
        injection h with h
        exact ⟨[], by rw [← h, hx]; rfl⟩
      · simp [hx] at h

theorem strrchr_append (c : Nat) (a b r : Bytes) (h : strrchr b c = some r) :
    strrchr (a ++ b) c = some r := by
  induction a with
  | nil => exact h
  | cons x a ih => simp [strrchr, ih]

theorem stripSlashes_append (pre r : Bytes) (hr : r ≠ []) (h47 : 47 ∉ r) :
    stripSlashes (pre ++ r) = pre ++ r := by
  obtain ⟨x, y, rfl⟩ : ∃ x y, r = x ++ [y] := by
    rcases List.eq_nil_or_concat r with h | ⟨x, y, h⟩
    · exact absurd h hr
    · exact ⟨x, y, by rw [h]; simp⟩
  have hy : y ≠ 47 := by
    intro h
    apply h47
    simp [h]
  unfold stripSlashes
  have : (pre ++ (x ++ [y])).reverse = y :: (x.reverse ++ pre.reverse) := by simp
  rw [this, List.dropWhile_cons]
  simp only [beq_iff_eq, hy, if_false]
  rw [← this, List.reverse_reverse]

theorem lastSegment_append (pre r : Bytes) (h47 : 47 ∉ r) :
    lastSegment (pre ++ r) = lastSegment pre ++ r := by
  unfold lastSegment
  rw [List.reverse_append]
  have : ∀ x ∈ r.reverse, (fun c => c != 47) x = true := by
    intro x hx
    have hx' : x ∈ r := List.mem_reverse.1 hx
    have : x ≠ 47 := fun h => h47 (h ▸ hx')
    simpa using this
  rw [List.takeWhile_append_of_pos this, List.reverse_append, List.reverse_reverse]

theorem basename_append (pre r : Bytes) (hr : r ≠ []) (h47 : 47 ∉ r) :
    basename (pre ++ r) = (lastSegment pre ++ r, pre ++ r) := by
  have hne : pre ++ r ≠ [] := by simp [hr]
  unfold basename
  rw [if_neg hne]
  simp only [stripSlashes_append pre r hr h47, if_neg hne, lastSegment_append pre r h47]

theorem lastSegment_no_slash (s : Bytes) : 47 ∉ lastSegment s := by
  unfold lastSegment
  intro h
  have h1 := List.mem_reverse.1 h
  have h2 := List.mem_takeWhile_imp h1
  simp at h2

theorem lastSegment_sublist (s : Bytes) : ∀ c ∈ lastSegment s, c ∈ s := by
  intro c hc
  unfold lastSegment at hc
  have h1 := List.mem_reverse.1 hc
  have h2 := (List.takeWhile_sublist _).subset h1
  exact List.mem_reverse.1 h2

theorem lastSegment_length (s : Bytes) : (lastSegment s).length ≤ s.length := by
  unfold lastSegment
  rw [List.length_reverse]
  have := (List.takeWhile_sublist (fun c => c != 47) (l := s.reverse)).length_le
  simpa using this

theorem isToken_of_mem {t : Bytes} (hne : t ≠ []) (h : ∀ c ∈ t, isspace c = false ∧ c ≠ 0) :
    isToken t = true := by
  simp only [isToken, Bool.and_eq_true, List.all_eq_true]
  refine ⟨?_, ?_⟩
  · have : t.length ≠ 0 := fun h0 => hne (List.length_eq_zero.1 h0)
    simpa using this
  · intro c hc
    have := h c hc
    simp [this.1, this.2]

/-! ## Lemmas: the receive loops -/

theorem S1.upload_loop_ok (env : Env) (path : Bytes) (hw : ∀ i, env.fwriteOk 1 i = true) :
    ∀ (fuel : Nat) (inp : Script) (fs : FS) (total i : Nat) (old : Bytes) (r w : Bool),
      weight inp < fuel → (∀ e ∈ inp, e ≠ Event.error) → total < 2 ^ 64 →
      FS.get fs (normPath path) = some (Node.file old r w) →
      S1.upload_loop env path fuel fs inp total i =
        some (if dataOf inp = [] then fs else fwrite fs path (dataOf inp), [],
          (total + (dataOf inp).length) % 2 ^ 64) := by
  intro fuel
  induction fuel with
  | zero => intro inp fs total i old r w h; omega
  | succ fuel ih =>
    intro inp fs total i old r w hfuel hne htot hget
    rcases recv_spec BUFFER_SIZE (by decide) inp hne with
      ⟨h1, h2⟩ | ⟨b, inp1, h1, h2, _, h4, h5, h6⟩
    · simp only [S1.upload_loop, h1, h2, if_true, List.length_nil, Nat.add_zero]
      rw [Nat.mod_eq_of_lt htot]
    · simp only [S1.upload_loop, h1, hw, if_true]
      rw [ih inp1 (fwrite fs path b) _ (i + 1) (old ++ b) r w (by omega) h6
        (Nat.mod_lt _ (by positivity)) (get_fwrite fs path b old r w hget)]
      have hne2 : dataOf inp ≠ [] := by rw [h4]; simp [h2]
      rw [if_neg hne2, h4]
      have e1 : (if dataOf inp1 = [] then fwrite fs path b
          else fwrite (fwrite fs path b) path (dataOf inp1)) =
          fwrite fs path (b ++ dataOf inp1) := by
        by_cases hd : dataOf inp1 = []
        · simp [hd]
        · rw [if_neg hd, fwrite_fwrite fs path b _ old r w hget]
      have e2 : ((total + b.length) % 2 ^ 64 + (dataOf inp1).length) % 2 ^ 64 =
          (total + (b ++ dataOf inp1).length) % 2 ^ 64 := by
        rw [List.length_append, Nat.mod_add_mod, Nat.add_assoc]
      rw [e1, e2]

theorem snprintf_eq_self (n : Nat) (s : Bytes) (h : s.length < n) : snprintf n s = s := by
  unfold snprintf
  exact List.take_of_length_le (by omega)

theorem str_uploadf_token : isToken (str "uploadf") = true := by decide

theorem str_downlf_token : isToken (str "downlf") = true := by decide

theorem str_removef_token : isToken (str "removef") = true := by decide

/-- What `basename` does to a file name that ends in an extension `r`. -/
theorem basename_ext (f r : Bytes) (hf : isToken f = true) (hext : strrchr f 46 = some r)
    (hr : r ≠ []) (hr47 : 47 ∉ r) (hrr : strrchr r 46 = some r) :
    (basename f).2 = f ∧ isToken (basename f).1 = true ∧
      (basename f).1.length ≤ f.length ∧ strrchr (basename f).1 46 = some r ∧
      47 ∉ (basename f).1 := by
  obtain ⟨pre, rfl⟩ := strrchr_suffix 46 f r hext
  rw [basename_append pre r hr hr47]
  have hseg : lastSegment pre ++ r = lastSegment (pre ++ r) := (lastSegment_append pre r hr47).symm
  refine ⟨rfl, ?_, ?_, ?_, ?_⟩
  · apply isToken_of_mem
    · simp [hr]
    · intro c hc
      simp only [] at hc
      rw [hseg] at hc
      exact isToken_mem hf c (lastSegment_sublist _ c hc)
  · simp only []
    rw [hseg]
    exact lastSegment_length _
  · exact strrchr_append 46 _ r r hrr
  · simp only []
    rw [hseg]
    exact lastSegment_no_slash _

theorem take4_drop4 {d : Bytes} (hd4 : d.take 4 = str "~S1/") : d = str "~S1/" ++ d.drop 4 := by
  conv_lhs => rw [← List.take_append_drop 4 d]
  rw [hd4]

theorem length_ge_4 {d : Bytes} (hd4 : d.take 4 = str "~S1/") : 4 ≤ d.length := by
  have := congrArg List.length hd4
  rw [List.length_take] at this
  have h4 : (str "~S1/").length = 4 := by decide
  omega

theorem S1.full_dest_path_eq (home d : Bytes) (h : home.length + d.length < PATH_MAX)
    (hd4 : d.take 4 = str "~S1/") :
    S1.full_dest_path home d = home ++ str "/S1/" ++ d.drop 4 := by
  unfold S1.full_dest_path
  apply snprintf_eq_self
  have h4 := length_ge_4 hd4
  have hs : (str "/S1/").length = 4 := by decide
  simp only [List.length_append, List.length_drop, hs]
  omega

theorem S1.full_dest_path_length (home d : Bytes) (h : home.length + d.length < PATH_MAX)
    (hd4 : d.take 4 = str "~S1/") :
    (S1.full_dest_path home d).length = home.length + d.length := by
  rw [S1.full_dest_path_eq home d h hd4]
  have h4 := length_ge_4 hd4
  have hs : (str "/S1/").length = 4 := by decide
  simp only [List.length_append, List.length_drop, hs]
  omega

theorem S1.uploadf_routed (env : Env) (st : S1.State) (home f d : Bytes) (fs1 fs3 : FS)
    (hhome : getenv_HOME env = some home)
    (hf : isToken f = true) (hd : isToken d = true)
    (hd4 : d.take 4 = str "~S1/") (hlen : f.length + d.length < 255)
    (hne : ∀ e ∈ st.inp, e ≠ Event.error)
    (hb : dataOf st.inp ≠ []) (hb64 : (dataOf st.inp).length < 2 ^ 64)
    (hdirs : create_directories st.fs (dirname (S1.store_path home d f)) = some fs1)
    (hopen : fopen_wb (remove_ fs1 (S1.store_path home d f)) (S1.store_path home d f)
      = Except.ok fs3)
    (hwrite : ∀ i, env.fwriteOk 1 i = true) :
    S1.uploadf env (str "uploadf" ++ 32 :: (f ++ 32 :: d)) st =
      if strrchr (basename f).2 46 = some (str ".c") then
        some (S1.State.send { st with
          fs := fwrite fs3 (S1.store_path home d f) (dataOf st.inp), inp := [] }
          (sendLit "Stored successfully" 20))
      else if S1.upload_port env (strrchr (basename f).2 46) ≠ 0 then
        S1.transfer_file_to_server env (S1.store_path home d f) (S1.full_dest_path home d)
          (S1.upload_port env (strrchr (basename f).2 46))
          { st with fs := fwrite fs3 (S1.store_path home d f) (dataOf st.inp), inp := [] }
      else
        some { (S1.State.send { st with
            fs := fwrite fs3 (S1.store_path home d f) (dataOf st.inp), inp := [] }
            (sendLit "Upload failed: Unsupported file type" 37)) with
          fs := remove_ (fwrite fs3 (S1.store_path home d f) (dataOf st.inp))
            (S1.store_path home d f) } := by
  obtain ⟨r0, w0, hget⟩ := get_fopen_wb hopen
  have hloop := S1.upload_loop_ok env (S1.store_path home d f) hwrite (weight st.inp + 1)
    st.inp fs3 0 0 [] r0 w0 (by omega) hne (by positivity) hget
  have hflen : ¬ (256 ≤ f.length ∨ PATH_MAX ≤ d.length) := by
    have : PATH_MAX = 4096 := rfl
    omega
  have htot : (0 + (dataOf st.inp).length) % 2 ^ 64 ≠ 0 := by
    rw [Nat.zero_add, Nat.mod_eq_of_lt hb64]
    exact fun h => hb (List.length_eq_zero.1 h)
  unfold S1.uploadf
  rw [sscanf_two_tokens _ f d str_uploadf_token hf hd]
  simp only [hflen, if_false, hd4, ne_eq, not_true_eq_false, hhome]
  have hsp : S1.temp_path (S1.full_dest_path home d) (basename f).1 = S1.store_path home d f := rfl
  rw [hsp, hdirs]
  simp only [hopen, hloop, if_neg hb, htot, if_false]

theorem S1.uploadf_received (env : Env) (st : S1.State) (home f d r : Bytes) (fs1 fs3 : FS)
    (hhome : getenv_HOME env = some home)
    (hf : isToken f = true) (hd : isToken d = true)
    (hext : strrchr f 46 = some r) (hr : r ≠ []) (hr47 : 47 ∉ r) (hrr : strrchr r 46 = some r)
    (hd4 : d.take 4 = str "~S1/") (hlen : f.length + d.length < 255)
    (hne : ∀ e ∈ st.inp, e ≠ Event.error)
    (hb : dataOf st.inp ≠ []) (hb64 : (dataOf st.inp).length < 2 ^ 64)
    (hdirs : create_directories st.fs (dirname (S1.store_path home d f)) = some fs1)
    (hopen : fopen_wb (remove_ fs1 (S1.store_path home d f)) (S1.store_path home d f)
      = Except.ok fs3)
    (hwrite : ∀ i, env.fwriteOk 1 i = true) :
    S1.uploadf env (str "uploadf" ++ 32 :: (f ++ 32 :: d)) st =
      if r = str ".c" then
        some (S1.State.send { st with
          fs := fwrite fs3 (S1.store_path home d f) (dataOf st.inp), inp := [] }
          (sendLit "Stored successfully" 20))
      else if S1.upload_port env (some r) ≠ 0 then
        S1.transfer_file_to_server env (S1.store_path home d f) (S1.full_dest_path home d)
          (S1.upload_port env (some r))
          { st with fs := fwrite fs3 (S1.store_path home d f) (dataOf st.inp), inp := [] }
      else
        some { (S1.State.send { st with
            fs := fwrite fs3 (S1.store_path home d f) (dataOf st.inp), inp := [] }
            (sendLit "Upload failed: Unsupported file type" 37)) with
          fs := remove_ (fwrite fs3 (S1.store_path home d f) (dataOf st.inp))
            (S1.store_path home d f) } := by
  obtain ⟨hb2, _, _, _, _⟩ := basename_ext f r hf hext hr hr47 hrr
  obtain ⟨r0, w0, hget⟩ := get_fopen_wb hopen
  have hloop := S1.upload_loop_ok env (S1.store_path home d f) hwrite (weight st.inp + 1)
    st.inp fs3 0 0 [] r0 w0 (by omega) hne (by positivity) hget
  have hbase : basename f = ((basename f).1, f) := by
    conv_lhs => rw [← Prod.mk.eta (p := basename f), hb2]
  have hflen : ¬ (256 ≤ f.length ∨ PATH_MAX ≤ d.length) := by
    have : PATH_MAX = 4096 := rfl
    omega
  have htot : (0 + (dataOf st.inp).length) % 2 ^ 64 ≠ 0 := by
    rw [Nat.zero_add, Nat.mod_eq_of_lt hb64]
    exact fun h => hb (List.length_eq_zero.1 h)
  unfold S1.uploadf
  rw [sscanf_two_tokens _ f d str_uploadf_token hf hd]
  simp only [hflen, if_false, hd4, ne_eq, not_true_eq_false, hhome]
  rw [hbase]
  simp only []
  have hsp : S1.temp_path (S1.full_dest_path home d) (basename f).1 = S1.store_path home d f := rfl
  rw [hsp, hdirs]
  simp only [hopen, hloop, if_neg hb, htot, if_false, hext, Option.some.injEq]

theorem recv_head (cap : Nat) (cmd : Bytes) (rest : Script) (h0 : cmd ≠ [])
    (hl : cmd.length ≤ cap) : recv cap (Event.data cmd :: rest) = (Recv.data cmd, rest) := by
  simp [recv, h0, hl]

/-- A connection on which one command arrives first and whose handling uses up the input. -/
theorem S1.prcclient_one (env : Env) (fs : FS) (cmd : Bytes) (rest : Script) (st1 : S1.State)
    (h0 : cmd ≠ []) (hl : cmd.length ≤ BUFFER_SIZE - 1)
    (hd : S1.dispatch env cmd { fs := fs, inp := rest, out := [], conns := [] } = some st1)
    (hinp : st1.inp = []) :
    S1.prcclient env fs (Event.data cmd :: rest) = some st1 := by
  unfold S1.prcclient
  have hw : weight (Event.data cmd :: rest) + 1 = (cmd.length + weight rest) + 1 + 1 := by
    simp only [weight]; omega
  rw [hw, S1.prcclient_loop, recv_head _ cmd rest h0 hl]
  simp only [hd]
  rw [S1.prcclient_loop, hinp]
  cases st1
  simp only at hinp
  subst hinp
  rfl

theorem S1.dispatch_uploadf (env : Env) (st : S1.State) (f d : Bytes)
    (hf : isToken f = true) (hd : isToken d = true) (hlen : f.length + d.length < 255) :
    S1.dispatch env (str "uploadf" ++ 32 :: (f ++ 32 :: d)) st =
      S1.uploadf env (str "uploadf" ++ 32 :: (f ++ 32 :: d)) st := by
  unfold S1.dispatch
  rw [sscanf_command_operand _ _ str_uploadf_token (isOperand_of_tokens hf hd)]
  have h1 : ¬ (20 ≤ (str "uploadf").length ∨ 256 ≤ (f ++ 32 :: d).length) := by
    have : (str "uploadf").length = 7 := by decide
    simp only [List.length_append, List.length_cons]
    omega
  simp only [h1, if_false, if_true]

theorem S1.dispatch_downlf (env : Env) (st : S1.State) (p : Bytes)
    (hp : isOperand p = true) (hlen : p.length < 256) :
    S1.dispatch env (str "downlf" ++ 32 :: p) st = S1.downlf env p st := by
  unfold S1.dispatch
  rw [sscanf_command_operand _ _ str_downlf_token hp]
  have h1 : ¬ (20 ≤ (str "downlf").length ∨ 256 ≤ p.length) := by
    have : (str "downlf").length = 6 := by decide
    omega
  have h2 : str "downlf" ≠ str "uploadf" := by decide
  simp only [h1, if_false, h2, if_true]

theorem S1.dispatch_removef (env : Env) (st : S1.State) (p : Bytes)
    (hp : isOperand p = true) (hlen : p.length < 256) :
    S1.dispatch env (str "removef" ++ 32 :: p) st = S1.removef env p st := by
  unfold S1.dispatch
  rw [sscanf_command_operand _ _ str_removef_token hp]
  have h1 : ¬ (20 ≤ (str "removef").length ∨ 256 ≤ p.length) := by
    have : (str "removef").length = 7 := by decide
    omega
  have h2 : str "removef" ≠ str "uploadf" := by decide
  have h3 : str "removef" ≠ str "downlf" := by decide
  simp only [h1, if_false, h2, h3, if_true]

theorem S1.local_path_join (home d base : Bytes) (hd4 : d.take 4 = str "~S1/")
    (hlen : home.length + d.length + base.length + 1 < PATH_MAX) :
    S1.local_path home (d ++ 47 :: base) = home ++ str "/S1/" ++ d.drop 4 ++ 47 :: base := by
  have h4 := length_ge_4 hd4
  have ht : (d ++ 47 :: base).take 4 = str "~S1/" := by
    rw [List.take_append_of_le_length h4, hd4]
  have hdr : (d ++ 47 :: base).drop 4 = d.drop 4 ++ 47 :: base :=
    List.drop_append_of_le_length h4
  unfold S1.local_path
  rw [if_pos ht, hdr, snprintf_eq_self]
  · simp
  · have hs : (str "/S1/").length = 4 := by decide
    simp only [List.length_append, List.length_drop, List.length_cons, hs]
    omega

theorem S1.store_path_norm (home d f : Bytes) (hd4 : d.take 4 = str "~S1/")
    (hlen : home.length + d.length + (basename f).1.length + 1 < PATH_MAX) :
    normPath (S1.store_path home d f) =
      normPath (home ++ str "/S1/" ++ d.drop 4 ++ 47 :: (basename f).1) := by
  have hfull := S1.full_dest_path_eq home d (by omega) hd4
  have hfl := S1.full_dest_path_length home d (by omega) hd4
  unfold S1.store_path S1.temp_path
  by_cases h : (S1.full_dest_path home d).getLast? = some 47
  · rw [if_pos h, snprintf_eq_self _ _ (by simp only [List.length_append]; omega)]
    obtain ⟨x, hx⟩ := exists_of_getLast? h
    rw [← hfull, hx]
    have := normPath_double_slash x (basename f).1
    simpa using this.symm
  · rw [if_neg h, snprintf_eq_self _ _ (by
      have : (str "/").length = 1 := by decide
      simp only [List.length_append, this]; omega)]
    rw [← hfull]
    have : str "/" = [47] := by decide
    rw [this]
    simp

theorem str_uploadf_cmd (f d : Bytes) :
    str "uploadf " ++ f ++ str " " ++ d = str "uploadf" ++ 32 :: (f ++ 32 :: d) := by
  have h1 : str "uploadf " = str "uploadf" ++ [32] := by decide
  have h2 : str " " = [32] := by decide
  rw [h1, h2]
  simp

theorem str_downlf_cmd (p : Bytes) : str "downlf " ++ p = str "downlf" ++ 32 :: p := by
  have h1 : str "downlf " = str "downlf" ++ [32] := by decide
  rw [h1]
  simp

theorem str_removef_cmd (p : Bytes) : str "removef " ++ p = str "removef" ++ 32 :: p := by
  have h1 : str "removef " = str "removef" ++ [32] := by decide
  rw [h1]
  simp

theorem isOperand_join {d base : Bytes} (hd : isToken d = true) (hb : isToken base = true) :
    isOperand (d ++ 47 :: base) = true := by
  obtain ⟨c, d1, rfl⟩ := List.exists_cons_of_ne_nil (isToken_ne_nil hd)
  have hA := isToken_mem hd
  have hB := isToken_mem hb
  have hc := (hA c (by simp)).1
  simp only [isOperand, List.cons_append, hc, Bool.not_false, Bool.true_and, List.all_eq_true]
  intro x hx
  have hx' : x ∈ c :: d1 ∨ x = 47 ∨ x ∈ base := by
    rcases List.mem_cons.1 hx with h | h
    · exact Or.inl (h ▸ List.mem_cons_self _ _)
    · rcases List.mem_append.1 h with h | h
      · exact Or.inl (List.mem_cons_of_mem _ h)
      · rcases List.mem_cons.1 h with h | h
        · exact Or.inr (Or.inl h)
        · exact Or.inr (Or.inr h)
  rcases hx' with h | h | h
  · have := hA x h
    have h10 : x ≠ 10 := by
      intro h10
      rw [h10] at this
      exact absurd this.1 (by decide)
    simp [h10, this.2]
  · subst h
    decide
  · have := hB x h
    have h10 : x ≠ 10 := by
      intro h10
      rw [h10] at this
      exact absurd this.1 (by decide)
    simp [h10, this.2]

theorem S3.s3_upload_loop_ok (env : Env) (path : Bytes) (hw : ∀ i, env.fwriteOk 3 i = true) :
    ∀ (fuel : Nat) (inp : Script) (fs : FS) (total i : Nat) (old : Bytes) (r w : Bool),
      weight inp < fuel → (∀ e ∈ inp, e ≠ Event.error) → total < 2 ^ 64 →
      FS.get fs (normPath path) = some (Node.file old r w) →
      S3.upload_loop env path fuel fs inp total i =
        some (if dataOf inp = [] then fs else fwrite fs path (dataOf inp), Recv.closed,
          (total + (dataOf inp).length) % 2 ^ 64) := by
  intro fuel
  induction fuel with
  | zero => intro inp fs total i old r w h; omega
  | succ fuel ih =>
    intro inp fs total i old r w hfuel hne htot hget
    rcases recv_spec S3.BUFFER_SIZE (by decide) inp hne with
      ⟨h1, h2⟩ | ⟨b, inp1, h1, h2, _, h4, h5, h6⟩
    · simp only [S3.upload_loop, h1, h2, if_true, List.length_nil, Nat.add_zero]
      rw [Nat.mod_eq_of_lt htot]
    · simp only [S3.upload_loop, h1, hw, if_true]
      rw [ih inp1 (fwrite fs path b) _ (i + 1) (old ++ b) r w (by omega) h6
        (Nat.mod_lt _ (by positivity)) (get_fwrite fs path b old r w hget)]
      have hne2 : dataOf inp ≠ [] := by rw [h4]; simp [h2]
      rw [if_neg hne2, h4]
      have e1 : (if dataOf inp1 = [] then fwrite fs path b
          else fwrite (fwrite fs path b) path (dataOf inp1)) =
          fwrite fs path (b ++ dataOf inp1) := by
        by_cases hd : dataOf inp1 = []
        · simp [hd]
        · rw [if_neg hd, fwrite_fwrite fs path b _ old r w hget]
      have e2 : ((total + b.length) % 2 ^ 64 + (dataOf inp1).length) % 2 ^ 64 =
          (total + (b ++ dataOf inp1).length) % 2 ^ 64 := by
        rw [List.length_append, Nat.mod_add_mod, Nat.add_assoc]
      rw [e1, e2]

theorem S4.s4_upload_loop_ok (env : Env) (path : Bytes) (hw : ∀ i, env.fwriteOk 4 i = true) :
    ∀ (fuel : Nat) (inp : Script) (fs : FS) (total i : Nat) (old : Bytes) (r w : Bool),
      weight inp < fuel → (∀ e ∈ inp, e ≠ Event.error) → total < 2 ^ 64 →
      FS.get fs (normPath path) = some (Node.file old r w) →
      S4.upload_loop env path fuel fs inp total i =
        some (if dataOf inp = [] then fs else fwrite fs path (dataOf inp),
          (total + (dataOf inp).length) % 2 ^ 64) := by
  intro fuel
  induction fuel with
  | zero => intro inp fs total i old r w h; omega
  | succ fuel ih =>
    intro inp fs total i old r w hfuel hne htot hget
    rcases recv_spec S4.BUFFER_SIZE (by decide) inp hne with
      ⟨h1, h2⟩ | ⟨b, inp1, h1, h2, _, h4, h5, h6⟩
    · simp only [S4.upload_loop, h1, h2, if_true, List.length_nil, Nat.add_zero]
      rw [Nat.mod_eq_of_lt htot]
    · simp only [S4.upload_loop, h1, hw, if_true]
      rw [ih inp1 (fwrite fs path b) _ (i + 1) (old ++ b) r w (by omega) h6
        (Nat.mod_lt _ (by positivity)) (get_fwrite fs path b old r w hget)]
      have hne2 : dataOf inp ≠ [] := by rw [h4]; simp [h2]
      rw [if_neg hne2, h4]
      have e1 : (if dataOf inp1 = [] then fwrite fs path b
          else fwrite (fwrite fs path b) path (dataOf inp1)) =
          fwrite fs path (b ++ dataOf inp1) := by
        by_cases hd : dataOf inp1 = []
        · simp [hd]
        · rw [if_neg hd, fwrite_fwrite fs path b _ old r w hget]
      have e2 : ((total + b.length) % 2 ^ 64 + (dataOf inp1).length) % 2 ^ 64 =
          (total + (b ++ dataOf inp1).length) % 2 ^ 64 := by
        rw [List.length_append, Nat.mod_add_mod, Nat.add_assoc]
      rw [e1, e2]

/-- A store command that fits the command buffer of S3, followed by content. -/
theorem S3.s3_store_ok (env : Env) (fs fsB fsC : FS) (a p : Bytes) (chunks : List Bytes)
    (ha : isToken a = true) (hp : isToken p = true)
    (hlen : a.length < 256 ∧ a.length + p.length + 9 < 1024)
    (hb : chunks.flatten ≠ []) (hb64 : chunks.flatten.length < 2 ^ 64)
    (hdirs : create_directories fs (dirname (full_path p a)) = some fsB)
    (hopen : fopen_wb (remove_ fsB (full_path p a)) (full_path p a) = Except.ok fsC)
    (hwrite : ∀ i, env.fwriteOk 3 i = true) :
    S3.main_conn env fs (delivered ((str "uploadf" ++ 32 :: (a ++ 32 :: p)) :: chunks)) =
      some (fwrite fsC (full_path p a) chunks.flatten, [sendLit "Stored successfully" 20]) := by
  obtain ⟨r0, w0, hget⟩ := get_fopen_wb hopen
  have hloop := S3.s3_upload_loop_ok env (full_path p a) hwrite (weight (delivered chunks) + 1)
    (delivered chunks) fsC 0 0 [] r0 w0 (by omega) (no_error_delivered chunks) (by positivity) hget
  rw [dataOf_delivered] at hloop
  have hP : PATH_MAX = 4096 := rfl
  have hcl : (str "uploadf" ++ 32 :: (a ++ 32 :: p)).length ≤ 1024 - 1 := by
    have : (str "uploadf").length = 7 := by decide
    simp only [List.length_append, List.length_cons, this]
    omega
  have h1 : ¬ (20 ≤ (str "uploadf").length ∨ PATH_MAX ≤ (a ++ 32 :: p).length) := by
    have : (str "uploadf").length = 7 := by decide
    simp only [List.length_append, List.length_cons]
    omega
  have h2 : ¬ (256 ≤ a.length ∨ PATH_MAX ≤ p.length) := by omega
  have htot : 0 < (0 + chunks.flatten.length) % 2 ^ 64 := by
    rw [Nat.zero_add, Nat.mod_eq_of_lt hb64]
    exact List.length_pos.2 hb
  unfold S3.main_conn
  simp only [delivered, List.map_cons, S3.BUFFER_SIZE]
  rw [recv_head _ _ _ (by simp [str]) hcl]
  simp only [sscanf_command_operand _ _ str_uploadf_token (isOperand_of_tokens ha hp), h1,
    if_false, if_true, S3.uploadf, sscanf_two_tokens _ a p str_uploadf_token ha hp, h2, hdirs,
    hopen]
  have hloop' : S3.upload_loop env (full_path p a) (weight (List.map Event.data chunks) + 1)
      fsC (List.map Event.data chunks) 0 0 = _ := hloop
  simp only [hloop', if_neg hb, htot, if_true]

/-- A store command that fits the command buffer of S4, followed by content. -/
theorem S4.s4_store_ok (env : Env) (fs fsB fsC : FS) (a p : Bytes) (chunks : List Bytes)
    (ha : isToken a = true) (hp : isToken p = true)
    (hlen : a.length < 256 ∧ a.length + p.length + 9 < 1024)
    (hb : chunks.flatten ≠ []) (hb64 : chunks.flatten.length < 2 ^ 64)
    (hdirs : create_directories fs (dirname (full_path p a)) = some fsB)
    (hopen : fopen_wb fsB (full_path p a) = Except.ok fsC)
    (hwrite : ∀ i, env.fwriteOk 4 i = true) :
    S4.main_conn env fs (delivered ((str "uploadf" ++ 32 :: (a ++ 32 :: p)) :: chunks)) =
      some (fwrite fsC (full_path p a) chunks.flatten, [sendLit "Stored successfully" 20]) := by
  obtain ⟨r0, w0, hget⟩ := get_fopen_wb hopen
  have hloop := S4.s4_upload_loop_ok env (full_path p a) hwrite (weight (delivered chunks) + 1)
    (delivered chunks) fsC 0 0 [] r0 w0 (by omega) (no_error_delivered chunks) (by positivity) hget
  rw [dataOf_delivered] at hloop
  have hP : PATH_MAX = 4096 := rfl
  have hcl : (str "uploadf" ++ 32 :: (a ++ 32 :: p)).length ≤ 1024 - 1 := by
    have : (str "uploadf").length = 7 := by decide
    simp only [List.length_append, List.length_cons, this]
    omega
  have h1 : ¬ (20 ≤ (str "uploadf").length ∨ PATH_MAX ≤ (a ++ 32 :: p).length) := by
    have : (str "uploadf").length = 7 := by decide
    simp only [List.length_append, List.length_cons]
    omega
  have h2 : ¬ (256 ≤ a.length ∨ PATH_MAX ≤ p.length) := by omega
  have htot : 0 < (0 + chunks.flatten.length) % 2 ^ 64 := by
    rw [Nat.zero_add, Nat.mod_eq_of_lt hb64]
    exact List.length_pos.2 hb
  unfold S4.main_conn
  simp only [delivered, List.map_cons, S4.BUFFER_SIZE]
  rw [recv_head _ _ _ (by simp [str]) hcl]
  simp only [sscanf_command_operand _ _ str_uploadf_token (isOperand_of_tokens ha hp), h1,
    if_false, if_true, S4.uploadf, sscanf_two_tokens _ a p str_uploadf_token ha hp, h2, hdirs,
    hopen]
  have hloop' : S4.upload_loop env (full_path p a) (weight (List.map Event.data chunks) + 1)
      fsC (List.map Event.data chunks) 0 0 = _ := hloop
  simp only [hloop', if_neg hb, htot, if_true]

/-- A fetch command that fits the command buffer of S3. -/
theorem S3.s3_fetch_eq (env : Env) (fs : FS) (p : Bytes) (hp : isOperand p = true)
    (hlen : p.length + 7 < 1024) :
    S3.main_conn env fs (delivered [str "downlf" ++ 32 :: p]) = some (S3.downlf fs p) := by
  have hP : PATH_MAX = 4096 := rfl
  have hcl : (str "downlf" ++ 32 :: p).length ≤ 1024 - 1 := by
    have : (str "downlf").length = 6 := by decide
    simp only [List.length_append, List.length_cons, this]
    omega
  have h1 : ¬ (20 ≤ (str "downlf").length ∨ PATH_MAX ≤ p.length) := by
    have : (str "downlf").length = 6 := by decide
    omega
  have h2 : str "downlf" ≠ str "uploadf" := by decide
  unfold S3.main_conn
  simp only [delivered, List.map_cons, List.map_nil, S3.BUFFER_SIZE]
  rw [recv_head _ _ _ (by simp [str]) hcl]
  simp only [sscanf_command_operand _ _ str_downlf_token hp, h1, if_false, h2, if_true]

/-- A fetch command that fits the command buffer of S4. -/
theorem S4.s4_fetch_eq (env : Env) (fs : FS) (p : Bytes) (hp : isOperand p = true)
    (hlen : p.length + 7 < 1024) :
    S4.main_conn env fs (delivered [str "downlf" ++ 32 :: p]) = some (S4.downlf fs p) := by
  have hP : PATH_MAX = 4096 := rfl
  have hcl : (str "downlf" ++ 32 :: p).length ≤ 1024 - 1 := by
    have : (str "downlf").length = 6 := by decide
    simp only [List.length_append, List.length_cons, this]
    omega
  have h1 : ¬ (20 ≤ (str "downlf").length ∨ PATH_MAX ≤ p.length) := by
    have : (str "downlf").length = 6 := by decide
    omega
  have h2 : str "downlf" ≠ str "uploadf" := by decide
  unfold S4.main_conn
  simp only [delivered, List.map_cons, List.map_nil, S4.BUFFER_SIZE]
  rw [recv_head _ _ _ (by simp [str]) hcl]
  simp only [sscanf_command_operand _ _ str_downlf_token hp, h1, if_false, h2, if_true]

theorem S4.downlf_eq (fs : FS) (p : Bytes) : S4.downlf fs p = S3.downlf fs p := rfl

/-- What S3 and S4 send for a file is its content, in pieces. -/
theorem S3.s3_sendFile_flatten (data : Bytes) : (S3.sendFile data).flatten = data := by
  unfold S3.sendFile
  exact freadChunks_flatten S3.BUFFER_SIZE (by decide) _ _ (Nat.le_refl _)

/-! ## Lemmas: relaying -/

theorem be64toh_htobe64 (n : Nat) (h : n < 2 ^ 64) : be64toh (htobe64 n) = n := by
  simp only [be64toh, htobe64, List.foldl]
  norm_num at h ⊢
  omega

theorem htobe64_length (n : Nat) : (htobe64 n).length = 8 := rfl

theorem receive_full_head (hdr : Bytes) (rest : Script) (n : Nat) (hn : 0 < n)
    (hl : hdr.length = n) :
    receive_full (Event.data hdr :: rest) n = (some hdr, rest) := by
  obtain ⟨m, rfl⟩ : ∃ m, n = m + 1 := ⟨n - 1, by omega⟩
  have h0 : hdr ≠ [] := by
    intro h
    rw [h] at hl
    simp at hl
  unfold receive_full
  rw [receive_full_loop, if_neg (by omega), recv_head _ hdr rest h0 (by omega)]
  simp only [hl, Nat.sub_self, List.nil_append]
  cases m with
  | zero => simp [receive_full_loop]
  | succ m => simp [receive_full_loop]

/-- The transfer loop sends on exactly the bytes that are still due, whatever the chunking
of what arrives. -/
theorem S1.relay_loop_spec :
    ∀ (fuel : Nat) (inp : Script) (n total : Nat),
      weight inp < fuel → (∀ e ∈ inp, e ≠ Event.error) → total ≤ n →
      n - total ≤ (dataOf inp).length →
      ∃ l, S1.relay_loop fuel inp n total = some l ∧
        l.flatten = (dataOf inp).take (n - total) := by
  intro fuel
  induction fuel with
  | zero => intro inp n total h; omega
  | succ fuel ih =>
    intro inp n total hfuel hne hle hlen
    by_cases hlt : total < n
    · have hcap : 0 < min (n - total) BUFFER_SIZE := by
        have : 0 < BUFFER_SIZE := by decide
        omega
      rcases recv_spec _ hcap inp hne with ⟨h1, h2⟩ | ⟨b, inp1, h1, h2, h3, h4, h5, h6⟩
      · rw [h2] at hlen
        simp at hlen
        omega
      · have hbl : b.length ≤ n - total := by omega
        have hlen1 : n - (total + b.length) ≤ (dataOf inp1).length := by
          rw [h4, List.length_append] at hlen
          omega
        obtain ⟨l, hl1, hl2⟩ := ih inp1 n (total + b.length) (by omega) h6 (by omega) hlen1
        refine ⟨b :: l, ?_, ?_⟩
        · simp only [S1.relay_loop, hlt, if_true, h1, hl1, Option.map_some']
        · rw [List.flatten_cons, hl2, h4, List.take_append_eq_append_take,
            List.take_of_length_le hbl]
          congr 2
          omega
    · refine ⟨[], ?_, ?_⟩
      · simp only [S1.relay_loop, hlt, if_false]
      · have : n - total = 0 := by omega
        simp [this]

/-- The relay of a well-formed fetch reply: the size, then the content. -/
theorem S1.relay_download_ok (data : Bytes) (chunks : List Bytes) (hc : chunks.flatten = data)
    (h0 : data ≠ []) (h64 : data.length < 2 ^ 64) :
    ∃ l, S1.relay_download (delivered (htobe64 data.length :: chunks)) = some l ∧
      l.flatten = htobe64 data.length ++ data := by
  have hpos : 0 < data.length := List.length_pos.2 h0
  obtain ⟨l, hl1, hl2⟩ := S1.relay_loop_spec (weight (delivered chunks) + 1) (delivered chunks)
    data.length 0 (by omega) (no_error_delivered chunks) (by omega)
    (by rw [dataOf_delivered, hc]; omega)
  refine ⟨htobe64 data.length :: l, ?_, ?_⟩
  · unfold S1.relay_download
    simp only [delivered, List.map_cons]
    rw [receive_full_head _ _ 8 (by decide) (htobe64_length _)]
    simp only [be64toh_htobe64 _ h64, hpos, if_true]
    have : S1.relay_loop (weight (List.map Event.data chunks) + 1)
        (List.map Event.data chunks) data.length 0 = some l := hl1
    rw [this]
    rfl
  · rw [List.flatten_cons, hl2, dataOf_delivered, hc]
    simp

theorem S1.send_loop_all (env : Env) (port : Nat) (h : ∀ i, env.sendOk port i = true) :
    ∀ (l : List Bytes) (i : Nat), S1.send_loop env port l i = (l, true) := by
  intro l
  induction l with
  | nil => intro i; rfl
  | cons c l ih =>
    intro i
    simp only [S1.send_loop, h, if_true, ih]

theorem get_remove_other (fs : FS) (path : Bytes) (k : Key) (h : k ≠ normPath path) :
    FS.get (remove_ fs path) k = FS.get fs k := by
  unfold remove_ remove
  by_cases hk : normPath path = []
  · simp [hk]
  · simp only [hk, if_false]
    split
    · rfl
    · split
      · simp only [Option.getD_some]
        exact FS.get_erase_other _ _ _ h
      · rfl
    · split
      · simp only [Option.getD_some]
        exact FS.get_erase_other _ _ _ h
      · rfl

/-! ## Lemmas: forwarding -/

theorem lastSegment_slash (x : Bytes) : lastSegment (x ++ [47]) = [] := by
  simp [lastSegment]

theorem S1.basename_store_path (home d f : Bytes) (hd4 : d.take 4 = str "~S1/")
    (hlen : home.length + d.length + (basename f).1.length + 1 < PATH_MAX)
    (hne : (basename f).1 ≠ []) (h47 : 47 ∉ (basename f).1) :
    (basename (S1.store_path home d f)).1 = (basename f).1 := by
  have hfl := S1.full_dest_path_length home d (by omega) hd4
  unfold S1.store_path S1.temp_path
  by_cases h : (S1.full_dest_path home d).getLast? = some 47
  · rw [if_pos h, snprintf_eq_self _ _ (by simp only [List.length_append]; omega)]
    obtain ⟨x, hx⟩ := exists_of_getLast? h
    rw [hx, basename_append _ _ hne h47, lastSegment_slash]
    rfl
  · rw [if_neg h, snprintf_eq_self _ _ (by
      have : (str "/").length = 1 := by decide
      simp only [List.length_append, this]; omega)]
    have : str "/" = [47] := by decide
    rw [this, basename_append _ _ hne h47, lastSegment_slash]
    rfl

theorem S1.full_dest_path_drop (home d : Bytes) (h : home.length + d.length < PATH_MAX)
    (hd4 : d.take 4 = str "~S1/") :
    (S1.full_dest_path home d).drop (home.length + 3) = 47 :: d.drop 4 := by
  rw [S1.full_dest_path_eq home d h hd4]
  have : str "/S1/" = [47, 83, 49] ++ [47] := by decide
  rw [this, List.append_assoc, List.append_assoc, List.drop_append_eq_append_drop]
  simp

theorem S1.forward_dir_length (home sdir d : Bytes) (hs : sdir.length = 2)
    (hd4 : d.take 4 = str "~S1/") :
    (S1.forward_dir home sdir d).length = home.length + d.length := by
  have h4 := length_ge_4 hd4
  have h1 : (str "/").length = 1 := by decide
  simp only [S1.forward_dir, List.length_append, List.length_cons, List.length_drop, h1, hs]
  omega

theorem mem_drop {c : Nat} {l : Bytes} {n : Nat} (h : c ∈ l.drop n) : c ∈ l :=
  (List.drop_sublist n l).subset h

theorem S1.forward_dir_token (home sdir d : Bytes)
    (hh : ∀ c ∈ home, isspace c = false ∧ c ≠ 0) (hs : isToken sdir = true)
    (hd : isToken d = true) : isToken (S1.forward_dir home sdir d) = true := by
  apply isToken_of_mem
  · simp [S1.forward_dir]
  · intro c hc
    simp only [S1.forward_dir, List.mem_append, List.mem_cons] at hc
    rcases hc with ((h | h) | h) | h | h
    · exact hh c h
    · have : str "/" = [47] := by decide
      rw [this] at h
      simp at h
      subst h
      decide
    · exact isToken_mem hs c h
    · subst h
      decide
    · exact isToken_mem hd c (mem_drop h)

/-- The file a fetch names to the node is the file a store made the node write. -/
theorem S1.forward_path_norm (home sdir d f : Bytes) (hs : sdir.length = 2)
    (hd4 : d.take 4 = str "~S1/")
    (hlen : home.length + d.length + (basename f).1.length + 1 < PATH_MAX) :
    normPath (S1.forward_path home sdir d f) =
      normPath (S1.forward_dir home sdir d ++ 47 :: (basename f).1) := by
  have hfl := S1.forward_dir_length home sdir d hs hd4
  unfold S1.forward_path full_path
  by_cases h : (S1.forward_dir home sdir d).getLast? = some 47
  · rw [if_pos h, snprintf_eq_self _ _ (by simp only [List.length_append]; omega)]
    obtain ⟨x, hx⟩ := exists_of_getLast? h
    rw [hx]
    have := normPath_double_slash x (basename f).1
    simpa using this.symm
  · rw [if_neg h, snprintf_eq_self _ _ (by
      have : (str "/").length = 1 := by decide
      simp only [List.length_append, this]; omega)]
    have : str "/" = [47] := by decide
    rw [this]
    simp

theorem cstr_stored : cstr (sendLit "Stored successfully" 20) = str "Stored successfully" := by
  decide

theorem S1.transfer_ok (env : Env) (st : S1.State) (home f d sdir b : Bytes) (port : Nat)
    (fsN : FS)
    (hhome : getenv_HOME env = some home) (hhl : home.length + 256 < PATH_MAX)
    (hd4 : d.take 4 = str "~S1/") (hlen : f.length + d.length < 255)
    (hbne : (basename f).1 ≠ []) (hb47 : 47 ∉ (basename f).1)
    (hbl : (basename f).1.length ≤ f.length)
    (hsd : S1.server_dir env port = some sdir) (hs2 : sdir.length = 2)
    (hup : env.listening port = true) (hsend : ∀ i, env.sendOk port i = true)
    (hfile : fopen_rb st.fs (S1.store_path home d f) = some b)
    (hpeer : S1.peerAt env port st.fs (delivered
      ((str "uploadf" ++ 32 :: ((basename f).1 ++ 32 :: S1.forward_dir home sdir d))
        :: fread_all b)) = some (fsN, [sendLit "Stored successfully" 20])) :
    S1.transfer_file_to_server env (S1.store_path home d f) (S1.full_dest_path home d) port st
      = some (S1.State.send
          { st with
            fs := remove_ fsN (S1.store_path home d f),
            conns := st.conns ++ [(port,
              (str "uploadf" ++ 32 :: ((basename f).1 ++ 32 :: S1.forward_dir home sdir d))
                :: fread_all b)] }
          (str "Stored successfully")) := by
  have hPM : PATH_MAX = 4096 := rfl
  have hBS : BUFFER_SIZE = 8192 := rfl
  have hfl := S1.full_dest_path_length home d (by omega) hd4
  have hdrop := S1.full_dest_path_drop home d (by omega) hd4
  have hfd := S1.forward_dir_length home sdir d hs2 hd4
  have hbase := S1.basename_store_path home d f hd4 (by omega) hbne hb47
  have hadj : snprintf PATH_MAX (home ++ str "/" ++ sdir ++ 47 :: d.drop 4)
      = S1.forward_dir home sdir d := by
    apply snprintf_eq_self
    have : (home ++ str "/" ++ sdir ++ 47 :: d.drop 4).length
        = (S1.forward_dir home sdir d).length := rfl
    omega
  have hbuf : snprintf BUFFER_SIZE
      (str "uploadf " ++ (basename f).1 ++ str " " ++ S1.forward_dir home sdir d)
      = str "uploadf" ++ 32 :: ((basename f).1 ++ 32 :: S1.forward_dir home sdir d) := by
    rw [str_uploadf_cmd]
    apply snprintf_eq_self
    have : (str "uploadf").length = 7 := by decide
    simp only [List.length_append, List.length_cons, this]
    omega
  have hrecv : recv (BUFFER_SIZE - 1) (delivered [sendLit "Stored successfully" 20])
      = (Recv.data (sendLit "Stored successfully" 20), []) := by decide
  unfold S1.transfer_file_to_server
  simp only [S1.connect_to_server, hup, Bool.not_true, Bool.false_eq_true, if_false, hhome,
    hsd, hfl, hdrop, List.head?_cons, true_or, if_true, hadj, hbase, hbuf, hsend, hfile,
    S1.send_loop_all env port hsend, hpeer, hrecv, cstr_stored]
  have h4 := length_ge_4 hd4
  rw [if_neg (by omega)]

theorem S1.download_ok (env : Env) (st : S1.State) (home sdir tail : Bytes) (port : Nat)
    (fsN : FS) (reply l : List Bytes)
    (hhome : getenv_HOME env = some home)
    (hlen : home.length + tail.length + 3 < PATH_MAX)
    (hsd : S1.server_dir env port = some sdir) (hs2 : sdir.length = 2)
    (hup : env.listening port = true) (hsend : env.sendOk port 0 = true)
    (hpeer : S1.peerAt env port st.fs
      (delivered [str "downlf" ++ 32 :: (home ++ str "/" ++ sdir ++ tail)]) = some (fsN, reply))
    (hrelay : S1.relay_download (delivered reply) = some l) :
    S1.download_file_from_server env (home ++ str "/S1" ++ tail) port st
      = some { (st.sends l) with
          fs := fsN,
          conns := st.conns ++ [(port, [str "downlf" ++ 32 :: (home ++ str "/" ++ sdir ++ tail)])] }
    := by
  have hPM : PATH_MAX = 4096 := rfl
  have hBS : BUFFER_SIZE = 8192 := rfl
  have h3 : (str "/S1").length = 3 := by decide
  have h1 : (str "/").length = 1 := by decide
  have hdrop : (home ++ str "/S1" ++ tail).drop (home.length + 3) = tail := by
    have : (home ++ str "/S1").length = home.length + 3 := by
      simp only [List.length_append, h3]
    rw [← this, List.drop_left]
  have hadj : snprintf PATH_MAX (home ++ str "/" ++ sdir ++ tail)
      = home ++ str "/" ++ sdir ++ tail := by
    apply snprintf_eq_self
    simp only [List.length_append, h1, hs2]
    omega
  have hbuf : snprintf BUFFER_SIZE (str "downlf " ++ (home ++ str "/" ++ sdir ++ tail))
      = str "downlf" ++ 32 :: (home ++ str "/" ++ sdir ++ tail) := by
    rw [str_downlf_cmd]
    apply snprintf_eq_self
    have : (str "downlf").length = 6 := by decide
    simp only [List.length_append, List.length_cons, this, h1, hs2]
    omega
  have hfl : ¬ ((home ++ str "/S1" ++ tail).length < home.length + 3) := by
    simp only [List.length_append, h3]
    omega
  unfold S1.download_file_from_server
  simp only [S1.connect_to_server, hup, Bool.not_true, Bool.false_eq_true, if_false, hhome,
    hsd, hfl, hdrop, hadj, hbuf, hsend, hpeer, hrelay]

/-! ## Lemmas: destinations without `..` -/

theorem foldl_resolveStep_no_dotdot (cs : List Bytes) (h : str ".." ∉ cs) :
    ∀ K : Key, cs.foldl resolveStep K = K ++ cs.filter (fun c => c ≠ str ".") := by
  induction cs with
  | nil => intro K; simp
  | cons c cs ih =>
    intro K
    have hc : c ≠ str ".." := fun hh => h (hh ▸ List.mem_cons_self _ _)
    have hcs : str ".." ∉ cs := fun hh => h (List.mem_cons_of_mem _ hh)
    rw [List.foldl_cons, ih hcs]
    by_cases hd : c = str "."
    · simp [resolveStep, hd]
    · simp [resolveStep, hd, hc]

theorem components_cons_cur (s : Bytes) :
    ∀ cur : Bytes, cur ≠ [] → ∃ c rest, components s cur = c :: rest ∧ cur <+: c := by
  induction s with
  | nil =>
    intro cur hcur
    exact ⟨cur, [], by simp [components, hcur], List.prefix_refl _⟩
  | cons x s ih =>
    intro cur hcur
    by_cases hx : x = 47
    · exact ⟨cur, components s [], by simp [components, hx, hcur], List.prefix_refl _⟩
    · obtain ⟨c, rest, h1, h2⟩ := ih (cur ++ [x]) (by simp)
      refine ⟨c, rest, by simp [components, hx, h1], ?_⟩
      exact (List.prefix_append cur [x]).trans h2

/-- The resolved path of `home/NS/tail` when `tail` has no `..` component. -/
theorem normPath_namespace (home ns tail : Bytes) (hns : components ns [] = [ns])
    (hns1 : ns ≠ str ".") (hns2 : ns ≠ str "..")
    (h : str ".." ∉ components tail []) :
    normPath (home ++ 47 :: (ns ++ 47 :: tail)) =
      normPath home ++ [ns] ++ (components tail []).filter (fun c => c ≠ str ".") := by
  unfold normPath
  rw [components_append_slash, components_append_slash, hns, List.foldl_append,
    List.foldl_append]
  simp only [List.foldl_cons, List.foldl_nil]
  rw [foldl_resolveStep_no_dotdot _ h]
  simp [resolveStep, hns1, hns2]

/-- A destination without `..` components keeps the file of the node apart from the
gateway's copy. -/
theorem S1.paths_differ (home sdir d f : Bytes) (hs : sdir = str "S3" ∨ sdir = str "S4")
    (hd4 : d.take 4 = str "~S1/")
    (hlen : home.length + d.length + (basename f).1.length + 1 < PATH_MAX)
    (hdots : str ".." ∉ components (d.drop 4 ++ 47 :: (basename f).1) []) :
    normPath (S1.forward_path home sdir d f) ≠ normPath (S1.store_path home d f) := by
  have hs2 : sdir.length = 2 := by rcases hs with h | h <;> rw [h] <;> decide
  rw [S1.forward_path_norm home sdir d f hs2 hd4 hlen, S1.store_path_norm home d f hd4 hlen]
  have e1 : S1.forward_dir home sdir d ++ 47 :: (basename f).1
      = home ++ 47 :: (sdir ++ 47 :: (d.drop 4 ++ 47 :: (basename f).1)) := by
    have : str "/" = [47] := by decide
    simp [S1.forward_dir, this]
  have e2 : home ++ str "/S1/" ++ d.drop 4 ++ 47 :: (basename f).1
      = home ++ 47 :: (str "S1" ++ 47 :: (d.drop 4 ++ 47 :: (basename f).1)) := by
    have : str "/S1/" = 47 :: (str "S1" ++ [47]) := by decide
    simp [this]
  rw [e1, e2, normPath_namespace home (str "S1") _ (by decide) (by decide) (by decide) hdots]
  rcases hs with h | h
  · rw [h, normPath_namespace home (str "S3") _ (by decide) (by decide) (by decide) hdots]
    intro heq
    have := List.append_cancel_right heq
    have := List.append_cancel_left this
    exact absurd this (by decide)
  · rw [h, normPath_namespace home (str "S4") _ (by decide) (by decide) (by decide) hdots]
    intro heq
    have := List.append_cancel_right heq
    have := List.append_cancel_left this
    exact absurd this (by decide)

theorem getenv_HOME_no_nul {env : Env} {home : Bytes} (h : getenv_HOME env = some home) :
    ∀ c ∈ home, c ≠ 0 := by
  unfold getenv_HOME at h
  cases hH : env.HOME with
  | none => rw [hH] at h; cases h
  | some H =>
    rw [hH] at h
    simp only [Option.map_some', Option.some.injEq] at h
    subst h
    intro c hc
    have := List.mem_takeWhile_imp hc
    simpa using this

/-- C2 (amended): a file with extension `.txt` or `.zip` stored through the gateway under a
destination that begins with `~S1/`, with a reachable node, all writes on both nodes
succeeding, and the file of the node being another file than the gateway's own copy, is
returned by a later `downlf` of the destination joined with the base name: the response is
the 8-byte big-endian length of the content followed by the content. -/
theorem C2_forwarded_round_trip (env : Env) (fs fs1 fs3 fsB fsC : FS)
    (home f d r sdir : Bytes) (port : Nat) (segs : List Bytes)
    (hhome : getenv_HOME env = some home) (hhl : home.length + 264 < 1024)
    (hht : ∀ c ∈ home, isspace c = false) (hpv : env.portsValid)
    (hf : isToken f = true) (hd : isToken d = true) (hlen : f.length + d.length < 255)
    (hext : strrchr f 46 = some r) (hd4 : d.take 4 = str "~S1/")
    (hnode :
      (r = str ".txt" ∧ sdir = str "S3" ∧ port = env.PORT_S3 ∧
        fopen_wb (remove_ fsB (S1.forward_path home sdir d f)) (S1.forward_path home sdir d f)
          = Except.ok fsC ∧ ∀ i, env.fwriteOk 3 i = true) ∨
      (r = str ".zip" ∧ sdir = str "S4" ∧ port = env.PORT_S4 ∧
        fopen_wb fsB (S1.forward_path home sdir d f) = Except.ok fsC ∧
        ∀ i, env.fwriteOk 4 i = true))
    (hup : env.listening port = true) (hsend : ∀ i, env.sendOk port i = true)
    (hb : segs.flatten ≠ []) (hb64 : segs.flatten.length < 2 ^ 64)
    (hdirs : create_directories fs (dirname (S1.store_path home d f)) = some fs1)
    (hopen : fopen_wb (remove_ fs1 (S1.store_path home d f)) (S1.store_path home d f)
      = Except.ok fs3)
    (hread : fopen_rb fs3 (S1.store_path home d f) = some [])
    (hwrite : ∀ i, env.fwriteOk 1 i = true)
    (hdirsN : create_directories (fwrite fs3 (S1.store_path home d f) segs.flatten)
      (dirname (S1.forward_path home sdir d f)) = some fsB)
    (hreadN : fopen_rb fsC (S1.forward_path home sdir d f) = some [])
    (hdiff : normPath (S1.forward_path home sdir d f) ≠ normPath (S1.store_path home d f)) :
    ∃ st1 st2,
      S1.prcclient env fs (delivered ((str "uploadf " ++ f ++ str " " ++ d) :: segs))
        = some st1 ∧
      st1.response = str "Stored successfully" ∧
      S1.prcclient env st1.fs (delivered [str "downlf " ++ d ++ str "/" ++ (basename f).1])
        = some st2 ∧
      st2.response = htobe64 segs.flatten.length ++ segs.flatten := by
  have hPM : PATH_MAX = 4096 := rfl
  obtain ⟨hv1, hv2, hv3, hv4, hv5, hv6, hv7, hv8, hv9⟩ := hpv
  have hh0 := getenv_HOME_no_nul hhome
  have hhtok : ∀ c ∈ home, isspace c = false ∧ c ≠ 0 := fun c hc => ⟨hht c hc, hh0 c hc⟩
  -- what the two nodes have in common
  have hcommon : r ≠ str ".c" ∧ r ≠ [] ∧ 47 ∉ r ∧ strrchr r 46 = some r ∧
      S1.upload_port env (some r) = port ∧ S1.download_port env r = port ∧ port ≠ 0 ∧
      S1.server_dir env port = some sdir ∧ sdir.length = 2 ∧ isToken sdir = true ∧
      (∀ a p chunks, isToken a = true → isToken p = true →
        (a.length < 256 ∧ a.length + p.length + 9 < 1024) →
        chunks.flatten = segs.flatten →
        full_path p a = S1.forward_path home sdir d f →
        S1.peerAt env port (fwrite fs3 (S1.store_path home d f) segs.flatten)
          (delivered ((str "uploadf" ++ 32 :: (a ++ 32 :: p)) :: chunks)) =
          some (fwrite fsC (S1.forward_path home sdir d f) segs.flatten,
            [sendLit "Stored successfully" 20])) ∧
      (∀ fs0 p, isOperand p = true → p.length + 7 < 1024 →
        S1.peerAt env port fs0 (delivered [str "downlf" ++ 32 :: p])
          = some (S3.downlf fs0 p)) := by
    rcases hnode with ⟨h1, h2, h3, h4, h5⟩ | ⟨h1, h2, h3, h4, h5⟩
    · subst h1 h2 h3
      have e1 : (some (str ".txt") = some (str ".pdf")) = False := by decide
      have e2 : (str ".txt" = str ".pdf") = False := by decide
      refine ⟨by decide, by decide, by decide, by decide, ?_, ?_, by omega, ?_, by decide,
        by decide, ?_, ?_⟩
      · simp only [S1.upload_port, e1, if_false, if_true]
      · simp only [S1.download_port, e2, if_false, if_true]
      · simp only [S1.server_dir, if_neg (Ne.symm hv7), if_true]
      · intro a p chunks ha hp hl hc hpath
        simp only [S1.peerAt, if_neg (Ne.symm hv7), if_true]
        rw [← hpath]
        have := S3.s3_store_ok env (fwrite fs3 (S1.store_path home d f) segs.flatten) fsB fsC
          a p chunks ha hp hl (hc ▸ hb) (hc ▸ hb64) (hpath ▸ hdirsN) (hpath ▸ h4) h5
        rw [hc] at this
        exact this
      · intro fs0 p hp hl
        simp only [S1.peerAt, if_neg (Ne.symm hv7), if_true]
        exact S3.s3_fetch_eq env fs0 p hp hl
    · subst h1 h2 h3
      have e1 : (some (str ".zip") = some (str ".pdf")) = False := by decide
      have e2 : (str ".zip" = str ".pdf") = False := by decide
      have e3 : (some (str ".zip") = some (str ".txt")) = False := by decide
      have e4 : (str ".zip" = str ".txt") = False := by decide
      refine ⟨by decide, by decide, by decide, by decide, ?_, ?_, by omega, ?_, by decide,
        by decide, ?_, ?_⟩
      · simp only [S1.upload_port, e1, e3, if_false, if_true]
      · simp only [S1.download_port, e2, e4, if_false, if_true]
      · simp only [S1.server_dir, if_neg (Ne.symm hv8), if_neg (Ne.symm hv9), if_true]
      · intro a p chunks ha hp hl hc hpath
        simp only [S1.peerAt, if_neg (Ne.symm hv8), if_neg (Ne.symm hv9), if_true]
        rw [← hpath]
        have := S4.s4_store_ok env (fwrite fs3 (S1.store_path home d f) segs.flatten) fsB fsC
          a p chunks ha hp hl (hc ▸ hb) (hc ▸ hb64) (hpath ▸ hdirsN) (hpath ▸ h4) h5
        rw [hc] at this
        exact this
      · intro fs0 p hp hl
        simp only [S1.peerAt, if_neg (Ne.symm hv8), if_neg (Ne.symm hv9), if_true]
        exact S4.s4_fetch_eq env fs0 p hp hl
  obtain ⟨hrc, hr, hr47, hrr, hport, hdport, hp0, hsd, hs2, hstok, hstore, hfetch⟩ := hcommon
  obtain ⟨_, hbt, hbl, hbe, hb47⟩ := basename_ext f r hf hext hr hr47 hrr
  have hbne := isToken_ne_nil hbt
  obtain ⟨r0, w0, hget⟩ := get_fopen_wb hopen
  have hr0 : r0 = true := by
    unfold fopen_rb at hread
    rw [hget] at hread
    cases r0
    · cases hread
    · rfl
  subst hr0
  have hopenN : fopen_wb (if r = str ".txt"
      then remove_ fsB (S1.forward_path home sdir d f) else fsB)
      (S1.forward_path home sdir d f) = Except.ok fsC := by
    rcases hnode with ⟨h1, _, _, h4, _⟩ | ⟨h1, _, _, h4, _⟩
    · rw [if_pos h1]; exact h4
    · rw [if_neg (by rw [h1]; decide)]; exact h4
  obtain ⟨rN, wN, hgetN⟩ := get_fopen_wb hopenN
  have hrN : rN = true := by
    unfold fopen_rb at hreadN
    rw [hgetN] at hreadN
    cases rN
    · cases hreadN
    · rfl
  subst hrN
  -- the store at the gateway
  have hup1 := S1.uploadf_received env
    { fs := fs, inp := delivered segs, out := [], conns := [] } home f d r fs1 fs3
    hhome hf hd hext hr hr47 hrr hd4 hlen (no_error_delivered segs)
    (by rw [dataOf_delivered]; exact hb) (by rw [dataOf_delivered]; exact hb64)
    hdirs hopen hwrite
  rw [if_neg hrc, hport, if_pos hp0] at hup1
  simp only [dataOf_delivered] at hup1
  have hfile : fopen_rb (fwrite fs3 (S1.store_path home d f) segs.flatten)
      (S1.store_path home d f) = some segs.flatten := by
    have := get_fwrite fs3 (S1.store_path home d f) segs.flatten [] true w0 hget
    rw [List.nil_append] at this
    exact fopen_rb_of_get this
  have hfdl := S1.forward_dir_length home sdir d hs2 hd4
  have hpeer := hstore (basename f).1 (S1.forward_dir home sdir d) (fread_all segs.flatten)
    hbt (S1.forward_dir_token home sdir d hhtok hstok hd) (by omega)
    (sendFile_flatten segs.flatten) rfl
  have htr := S1.transfer_ok env
    { fs := fwrite fs3 (S1.store_path home d f) segs.flatten, inp := [], out := [],
      conns := [] } home f d sdir segs.flatten port _ hhome (by omega) hd4 hlen hbne hb47 hbl
    hsd hs2
    hup hsend hfile hpeer
  rw [htr] at hup1
  have hcmd1 : str "uploadf " ++ f ++ str " " ++ d ≠ [] := by
    rw [str_uploadf_cmd]
    simp [str]
  have hcmd1l : (str "uploadf " ++ f ++ str " " ++ d).length ≤ BUFFER_SIZE - 1 := by
    have : (str "uploadf").length = 7 := by decide
    have hB : BUFFER_SIZE = 8192 := rfl
    rw [str_uploadf_cmd]
    simp only [List.length_append, List.length_cons, this, hB]
    omega
  have h1 := S1.prcclient_one env fs _ (delivered segs) _ hcmd1 hcmd1l
    (by rw [str_uploadf_cmd, S1.dispatch_uploadf env _ f d hf hd hlen]; exact hup1) rfl
  -- the file of the node after the store
  have hgetF : FS.get (remove_ (fwrite fsC (S1.forward_path home sdir d f) segs.flatten)
      (S1.store_path home d f)) (normPath (S1.forward_path home sdir d f))
      = some (Node.file segs.flatten true wN) := by
    rw [get_remove_other _ _ _ hdiff]
    have := get_fwrite fsC (S1.forward_path home sdir d f) segs.flatten [] true wN hgetN
    rw [List.nil_append] at this
    exact this
  -- the fetch
  have hpl : (d ++ 47 :: (basename f).1).length < 256 := by
    simp only [List.length_append, List.length_cons]
    omega
  have hlp := S1.local_path_join home d (basename f).1 hd4 (by omega)
  have hlp2 : S1.local_path home (d ++ 47 :: (basename f).1)
      = home ++ str "/S1" ++ (47 :: d.drop 4 ++ 47 :: (basename f).1) := by
    rw [hlp]
    have : str "/S1/" = str "/S1" ++ [47] := by decide
    rw [this]
    simp
  have hext2 : strrchr (S1.local_path home (d ++ 47 :: (basename f).1)) 46 = some r := by
    rw [hlp]
    exact strrchr_append 46 _ _ _ (strrchr_append 46 [47] _ _ hbe)
  have hadj : home ++ str "/" ++ sdir ++ (47 :: d.drop 4 ++ 47 :: (basename f).1)
      = S1.forward_dir home sdir d ++ 47 :: (basename f).1 := by
    simp [S1.forward_dir]
  have hop : isOperand (S1.forward_dir home sdir d ++ 47 :: (basename f).1) = true :=
    isOperand_join (S1.forward_dir_token home sdir d hhtok hstok hd) hbt
  have hreply : S3.downlf (remove_ (fwrite fsC (S1.forward_path home sdir d f) segs.flatten)
        (S1.store_path home d f)) (S1.forward_dir home sdir d ++ 47 :: (basename f).1)
      = (remove_ (fwrite fsC (S1.forward_path home sdir d f) segs.flatten)
          (S1.store_path home d f),
        htobe64 segs.flatten.length :: S3.sendFile segs.flatten) := by
    have hn := S1.forward_path_norm home sdir d f hs2 hd4 (by omega)
    rw [hn] at hgetF
    simp only [S3.downlf, fopen_rb_of_get hgetF]
  obtain ⟨l, hl1, hl2⟩ := S1.relay_download_ok segs.flatten (S3.sendFile segs.flatten)
    (S3.s3_sendFile_flatten _) hb hb64
  have hdl := S1.download_ok env
    { fs := remove_ (fwrite fsC (S1.forward_path home sdir d f) segs.flatten)
        (S1.store_path home d f), inp := [], out := [], conns := [] }
    home sdir (47 :: d.drop 4 ++ 47 :: (basename f).1) port _ _ l hhome
    (by
      have h4 := length_ge_4 hd4
      simp only [List.length_append, List.length_cons, List.length_drop]
      omega)
    hsd hs2 hup (hsend 0)
    (by
      rw [hadj, hfetch _ _ hop (by
        simp only [List.length_append, List.length_cons, hfdl]; omega), hreply])
    hl1
  have hdown : S1.downlf env (d ++ 47 :: (basename f).1)
      { fs := remove_ (fwrite fsC (S1.forward_path home sdir d f) segs.flatten)
          (S1.store_path home d f), inp := [], out := [], conns := [] } =
      S1.download_file_from_server env
        (home ++ str "/S1" ++ (47 :: d.drop 4 ++ 47 :: (basename f).1)) port
        { fs := remove_ (fwrite fsC (S1.forward_path home sdir d f) segs.flatten)
            (S1.store_path home d f), inp := [], out := [], conns := [] } := by
    have hp0' : (d ++ 47 :: (basename f).1).length ≠ 0 := by simp
    have hsome : ¬ (r ≠ str ".c" ∧ r ≠ str ".pdf" ∧ r ≠ str ".txt" ∧ r ≠ str ".zip") := by
      rcases hnode with ⟨h1, _⟩ | ⟨h1, _⟩ <;> simp [h1]
    simp only [S1.downlf, hp0', if_false, hhome, hext2, hsome, hrc, hdport]
    rw [hlp2]
  rw [hdl] at hdown
  have hcmd2 : str "downlf " ++ d ++ str "/" ++ (basename f).1
      = str "downlf" ++ 32 :: (d ++ 47 :: (basename f).1) := by
    have h2 : str "/" = [47] := by decide
    rw [List.append_assoc, List.append_assoc, str_downlf_cmd, h2]
    simp
  have h2 := S1.prcclient_one env
    (remove_ (fwrite fsC (S1.forward_path home sdir d f) segs.flatten)
      (S1.store_path home d f))
    (str "downlf" ++ 32 :: (d ++ 47 :: (basename f).1)) [] _ (by simp [str])
    (by
      have : (str "downlf").length = 6 := by decide
      have hB : BUFFER_SIZE = 8192 := rfl
      simp only [List.length_append, List.length_cons, this, hB] at hpl ⊢
      omega)
    (by rw [S1.dispatch_downlf env _ _ (isOperand_join hd hbt) hpl]; exact hdown) rfl
  rw [← hcmd2] at h2
  exact ⟨_, _, h1, by simp [S1.State.response, S1.State.send], h2,
    by simp [S1.State.response, S1.State.sends, hl2]⟩

theorem C2_forwarded_round_trip_witness :
    ∃ st1 st2,
      S1.prcclient demoEnv []
        (delivered ((str "uploadf " ++ str "a.txt" ++ str " " ++ str "~S1/x") :: [[104, 105]]))
        = some st1 ∧
      st1.response = str "Stored successfully" ∧
      S1.prcclient demoEnv st1.fs
        (delivered [str "downlf " ++ str "~S1/x" ++ str "/" ++ (basename (str "a.txt")).1])
        = some st2 ∧
      st2.response = htobe64 [[104, 105]].flatten.length ++ [[104, 105]].flatten :=
  C2_forwarded_round_trip demoEnv [] (dirsMade [] demoCopy) demoCopyOpened demoTargetDirs
    demoTargetOpened (str "/home/u") (str "a.txt") (str "~S1/x") (str ".txt") (str "S3") 5003
    [[104, 105]] (by decide) (by decide) (by decide) (by simp [Env.portsValid, demoEnv])
    (by decide) (by decide) (by decide) (by decide) (by decide)
    (Or.inl ⟨rfl, rfl, rfl, rfl, fun _ => rfl⟩) rfl (fun _ => rfl) (by decide) (by decide)
    rfl rfl rfl (fun _ => rfl) rfl rfl (by decide)

/-- C2, as stated, fails: `a.txt` stored under `~S1/..` is acknowledged, and the fetch of
`~S1/../a.txt` is answered with the zero size and a reason instead of the content.  The node
writes the path of the gateway's own copy, which the gateway removes after the transfer. -/
theorem C2_counterexample :
    (S1.prcclient demoEnv []
        (delivered [str "uploadf a.txt ~S1/..", [104, 105]])).map S1.State.response
      = some (str "Stored successfully") ∧
    ((S1.prcclient demoEnv []
        (delivered [str "uploadf a.txt ~S1/..", [104, 105]])).bind
      (fun st1 => (S1.prcclient demoEnv st1.fs
        (delivered [str "downlf ~S1/../a.txt"])).map S1.State.response))
      = some (zero8 ++ sendLit "Download failed: File not found" 32) ∧
    zero8 ++ sendLit "Download failed: File not found" 32 ≠ htobe64 2 ++ [104, 105] := by
  refine ⟨rfl, rfl, by decide⟩

/-! ## Fetch of a path that does not exist -/

theorem S1.local_path_eq (home p : Bytes) (hlen : home.length + p.length + 4 < PATH_MAX) :
    ∃ q, (∀ c ∈ q, c ∈ p) ∧ q.length ≤ p.length ∧
      S1.local_path home p = home ++ str "/S1" ++ 47 :: q := by
  have h4 : str "/S1/" = str "/S1" ++ [47] := by decide
  have h3 : (str "/S1").length = 3 := by decide
  unfold S1.local_path
  by_cases h : p.take 4 = str "~S1/"
  · refine ⟨p.drop 4, fun c hc => mem_drop hc, by simp, ?_⟩
    rw [if_pos h, snprintf_eq_self, h4]
    · simp
    · simp only [List.length_append, List.length_drop, h4, h3, List.length_singleton]
      omega
  · refine ⟨p, fun c hc => hc, Nat.le_refl _, ?_⟩
    rw [if_neg h, snprintf_eq_self, h4]
    · simp
    · simp only [List.length_append, h4, h3, List.length_singleton]
      omega

theorem fopen_rb_none_of_stat {fs : FS} {path : Bytes} (h : stat fs path = none) :
    fopen_rb fs path = none := by
  unfold stat at h
  simp [fopen_rb, h]

theorem S1.relay_missing :
    S1.relay_download (delivered [zero8, sendLit "Download failed: File not found" 32])
      = some [zero8, sendLit "Download failed: File not found" 32] := by
  rfl

theorem be64toh_zero8 : be64toh zero8 = 0 := by decide

/-- The relay of a reply that is the zero size and a reason. -/
theorem S1.relay_zero (reason : Bytes) (h : reason ≠ []) :
    ∃ r, r ≠ [] ∧ S1.relay_download (delivered [zero8, reason]) = some [zero8, r] := by
  have h1 : receive_full (delivered [zero8, reason]) 8 = (some zero8, delivered [reason]) :=
    receive_full_head zero8 _ 8 (by decide) (by decide)
  unfold S1.relay_download
  rw [h1]
  simp only [be64toh_zero8, Nat.lt_irrefl, if_false]
  by_cases hl : reason.length ≤ BUFFER_SIZE - 1
  · refine ⟨reason, h, ?_⟩
    simp only [delivered, List.map_cons, List.map_nil, recv_head _ reason [] h hl]
  · refine ⟨reason.take (BUFFER_SIZE - 1), ?_, ?_⟩
    · intro h0
      have := congrArg List.length h0
      rw [List.length_take] at this
      have hB : BUFFER_SIZE = 8192 := rfl
      simp only [List.length_nil] at this
      omega
    · simp [delivered, recv, h, hl]

theorem isOperand_of_mem {p : Bytes} (hne : p ≠ []) (hhead : ∀ c, p.head? = some c → isspace c = false)
    (h : ∀ c ∈ p, c ≠ 10 ∧ c ≠ 0) : isOperand p = true := by
  obtain ⟨c, p1, rfl⟩ := List.exists_cons_of_ne_nil hne
  have hc := hhead c rfl
  simp only [isOperand, hc, Bool.not_false, Bool.true_and, List.all_eq_true]
  intro x hx
  have := h x hx
  simp [this.1, this.2]

theorem not_space_ne_10 {c : Nat} (h : isspace c = false) : c ≠ 10 := by
  intro h10
  rw [h10] at h
  exact absurd h (by decide)

/-- The path the gateway sends to a node is a well-formed operand. -/
theorem S1.forward_operand (home sdir q p : Bytes)
    (hh : ∀ c ∈ home, isspace c = false ∧ c ≠ 0) (hs : isToken sdir = true)
    (hq : ∀ c ∈ q, c ∈ p) (hp : isOperand p = true) :
    isOperand (home ++ str "/" ++ sdir ++ 47 :: q) = true := by
  have h1 : str "/" = [47] := by decide
  apply isOperand_of_mem
  · simp
  · intro c hc
    cases home with
    | nil =>
      rw [h1] at hc
      simp at hc
      subst hc
      decide
    | cons x home1 =>
      simp at hc
      rw [← hc]
      exact (hh x (by simp)).1
  · intro c hc
    rw [h1] at hc
    simp only [List.mem_append, List.mem_cons, List.mem_singleton, List.not_mem_nil,
      or_false] at hc
    rcases hc with ((h | h) | h) | h | h
    · exact ⟨not_space_ne_10 (hh c h).1, (hh c h).2⟩
    · subst h; decide
    · exact ⟨not_space_ne_10 (isToken_mem hs c h).1, (isToken_mem hs c h).2⟩
    · subst h; decide
    · exact isOperand_mem hp c (hq c h)

theorem sendLit_ne_nil (s : String) (n : Nat) (h : 0 < n) : sendLit s n ≠ [] := by
  unfold sendLit
  intro h0
  have := congrArg List.length h0
  rw [List.length_take, List.length_append] at this
  simp only [List.length_singleton, List.length_nil] at this
  omega

/-- A forwarded fetch that the node answers with the zero size and a reason, or that does
not reach the node. -/
theorem S1.download_missing (env : Env) (st : S1.State) (home sdir tail : Bytes) (port : Nat)
    (hhome : getenv_HOME env = some home)
    (hlen : home.length + tail.length + 3 < PATH_MAX)
    (hsd : S1.server_dir env port = some sdir) (hs2 : sdir.length = 2)
    (hreply : env.listening port = true → env.sendOk port 0 = true →
      ∃ fsN reason, reason ≠ [] ∧ S1.peerAt env port st.fs
        (delivered [str "downlf" ++ 32 :: (home ++ str "/" ++ sdir ++ tail)])
          = some (fsN, [zero8, reason])) :
    ∃ st1 reason, S1.download_file_from_server env (home ++ str "/S1" ++ tail) port st
        = some st1 ∧ reason ≠ [] ∧ st1.out = st.out ++ [zero8, reason] ∧ st1.inp = st.inp := by
  by_cases hup : env.listening port = true
  · by_cases hsend : env.sendOk port 0 = true
    · obtain ⟨fsN, reason, hr, hpeer⟩ := hreply hup hsend
      obtain ⟨r1, hr1, hrelay⟩ := S1.relay_zero reason hr
      refine ⟨_, r1, S1.download_ok env st home sdir tail port fsN _ _ hhome hlen hsd hs2 hup
        hsend hpeer hrelay, hr1, rfl, rfl⟩
    · have hPM : PATH_MAX = 4096 := rfl
      have h3 : (str "/S1").length = 3 := by decide
      have hfl : ¬ ((home ++ str "/S1" ++ tail).length < home.length + 3) := by
        simp only [List.length_append, h3]
        omega
      have hEq : S1.download_file_from_server env (home ++ str "/S1" ++ tail) port st
          = some { (st.sends [zero8, sendLit "Failed to send command to server" 31]) with
              conns := st.conns ++ [(port, [])] } := by
        unfold S1.download_file_from_server
        simp only [S1.connect_to_server, hup, Bool.not_true, Bool.false_eq_true, if_false,
          hhome, hsd, hfl, hsend, Bool.not_false, if_true]
      exact ⟨_, _, hEq, sendLit_ne_nil _ _ (by decide), rfl, rfl⟩
  · have hEq : S1.download_file_from_server env (home ++ str "/S1" ++ tail) port st
        = some { (st.sends [zero8, sendLit "Server connection error" 23]) with
            conns := st.conns ++ [(port, [])] } := by
      unfold S1.download_file_from_server
      simp only [S1.connect_to_server, hup, Bool.not_false, if_true]
    exact ⟨_, _, hEq, sendLit_ne_nil _ _ (by decide), rfl, rfl⟩

/-- C3: a fetch of a path with a recognized extension at which nothing exists on the node
it is routed to is answered with 8 zero bytes and then a non-empty reason, in two sends and
nothing else.  HOME has no white space and at most 753 bytes, so that the command the
gateway forwards fits the 1023 bytes that S3 and S4 read (S3.c 81, S4.c 81).  For `.pdf` the
node S2 is taken to answer with the zero size and a reason. -/
theorem C3_fetch_missing (env : Env) (fs : FS) (home p ext : Bytes)
    (hhome : getenv_HOME env = some home) (hhl : home.length + 270 < 1024)
    (hht : ∀ c ∈ home, isspace c = false) (hpv : env.portsValid)
    (hp : isOperand p = true) (hpl : p.length < 256)
    (hext : strrchr (S1.local_path home p) 46 = some ext)
    (hrec : ext = str ".c" ∨ ext = str ".pdf" ∨ ext = str ".txt" ∨ ext = str ".zip")
    (hmiss : stat fs (S1.routed_path env home p) = none)
    (hS2 : ext = str ".pdf" → ∃ reason, reason ≠ [] ∧
      (env.S2 fs (delivered
        [snprintf BUFFER_SIZE (str "downlf " ++ S1.routed_path env home p)])).2
        = [zero8, reason]) :
    ∃ st reason, S1.prcclient env fs (delivered [str "downlf " ++ p]) = some st ∧
      reason ≠ [] ∧ st.out = [zero8, reason] := by
  have hPM : PATH_MAX = 4096 := rfl
  have hBS : BUFFER_SIZE = 8192 := rfl
  obtain ⟨hv1, hv2, hv3, hv4, hv5, hv6, hv7, hv8, hv9⟩ := hpv
  have hh0 := getenv_HOME_no_nul hhome
  have hhtok : ∀ c ∈ home, isspace c = false ∧ c ≠ 0 := fun c hc => ⟨hht c hc, hh0 c hc⟩
  obtain ⟨q, hq, hql, hlp⟩ := S1.local_path_eq home p (by omega)
  have hpne : p ≠ [] := by
    intro h
    rw [h] at hp
    simp [isOperand] at hp
  have hp0 : p.length ≠ 0 := fun h => hpne (List.length_eq_zero.1 h)
  have h3 : (str "/S1").length = 3 := by decide
  have hdrop : (home ++ str "/S1" ++ 47 :: q).drop (home.length + 3) = 47 :: q := by
    have : (home ++ str "/S1").length = home.length + 3 := by
      simp only [List.length_append, h3]
    rw [← this, List.drop_left]
  -- it suffices to find the final state of the `downlf` branch
  suffices hmain : ∃ st reason, S1.downlf env p { fs := fs, inp := [], out := [], conns := [] }
      = some st ∧ reason ≠ [] ∧ st.out = [zero8, reason] ∧ st.inp = [] by
    obtain ⟨st, reason, h1, h2, h3', h4⟩ := hmain
    refine ⟨st, reason, ?_, h2, h3'⟩
    simp only [delivered, List.map_cons, List.map_nil]
    rw [str_downlf_cmd]
    exact S1.prcclient_one env fs _ [] st (by simp [str])
      (by
        have : (str "downlf").length = 6 := by decide
        simp only [List.length_append, List.length_cons, this, hBS]
        omega)
      (by rw [S1.dispatch_downlf env _ _ hp hpl]; exact h1) h4
  -- the forwarded types
  have hfwd : ∀ (sdir : Bytes) (port : Nat), ext ≠ str ".c" →
      S1.download_port env ext = port → S1.server_dir env port = some sdir →
      isToken sdir = true → sdir.length = 2 →
      (env.listening port = true → env.sendOk port 0 = true →
        ∃ fsN reason, reason ≠ [] ∧ S1.peerAt env port fs
          (delivered [str "downlf" ++ 32 :: (home ++ str "/" ++ sdir ++ 47 :: q)])
            = some (fsN, [zero8, reason])) →
      ∃ st reason, S1.downlf env p { fs := fs, inp := [], out := [], conns := [] }
        = some st ∧ reason ≠ [] ∧ st.out = [zero8, reason] ∧ st.inp = [] := by
    intro sdir port hc hport hsd _ hs2 hreply
    have hsome : ¬ (ext ≠ str ".c" ∧ ext ≠ str ".pdf" ∧ ext ≠ str ".txt"
        ∧ ext ≠ str ".zip") := by
      rcases hrec with h | h | h | h <;> simp [h]
    obtain ⟨st1, reason, hd1, hd2, hd3, hd4⟩ := S1.download_missing env
      { fs := fs, inp := [], out := [], conns := [] } home sdir (47 :: q) port hhome
      (by simp only [List.length_cons]; omega) hsd hs2 hreply
    refine ⟨st1, reason, ?_, hd2, by simpa using hd3, hd4⟩
    simp only [S1.downlf, hp0, if_false, hhome, hext, hsome, hc, hport]
    rw [hlp]
    exact hd1
  -- the path on the node, for the forwarded types
  have hroute : ∀ (sdir : Bytes) (port : Nat), ext ≠ str ".c" →
      S1.download_port env ext = port → S1.server_dir env port = some sdir →
      sdir.length = 2 →
      S1.routed_path env home p = home ++ str "/" ++ sdir ++ 47 :: q := by
    intro sdir port hc hport hsd hs2
    have h1 : (str "/").length = 1 := by decide
    have hext1 := hext
    rw [hlp] at hext1
    simp only [S1.routed_path, hlp, hext1, hc, if_false, hport, hsd, hdrop]
    apply snprintf_eq_self
    simp only [List.length_append, List.length_cons, h1, hs2]
    omega
  have hnode : ∀ (sdir : Bytes) (port : Nat), ext ≠ str ".c" →
      S1.download_port env ext = port → S1.server_dir env port = some sdir →
      isToken sdir = true → sdir.length = 2 →
      S3.downlf fs (home ++ str "/" ++ sdir ++ 47 :: q)
        = (fs, [zero8, sendLit "Download failed: File not found" 32]) := by
    intro sdir port hc hport hsd _ hs2
    rw [hroute sdir port hc hport hsd hs2] at hmiss
    simp only [S3.downlf, fopen_rb_none_of_stat hmiss]
  have hadjl : ∀ sdir : Bytes, sdir.length = 2 →
      (home ++ str "/" ++ sdir ++ 47 :: q).length + 7 < 1024 := by
    intro sdir hs2
    have h1 : (str "/").length = 1 := by decide
    simp only [List.length_append, List.length_cons, h1, hs2]
    omega
  rcases hrec with h | h | h | h
  · -- `.c`
    subst h
    have hr : S1.routed_path env home p = S1.local_path home p := by
      simp only [S1.routed_path, hext, if_true]
    rw [hr] at hmiss
    have hsome : ¬ (str ".c" ≠ str ".c" ∧ str ".c" ≠ str ".pdf" ∧ str ".c" ≠ str ".txt"
        ∧ str ".c" ≠ str ".zip") := by simp
    have hEq : S1.downlf env p { fs := fs, inp := [], out := [], conns := [] }
        = some (S1.State.sends { fs := fs, inp := [], out := [], conns := [] }
            [zero8, sendLit "File not found" 14]) := by
      simp only [S1.downlf, S1.downlf_local, hp0, if_false, hhome, hext, hsome, if_true, hmiss]
    exact ⟨_, _, hEq, sendLit_ne_nil _ _ (by decide), rfl, rfl⟩
  · -- `.pdf`
    subst h
    have hc : str ".pdf" ≠ str ".c" := by decide
    have hport : S1.download_port env (str ".pdf") = env.PORT_S2 := by
      simp only [S1.download_port, if_true]
    have hsd : S1.server_dir env env.PORT_S2 = some (str "S2") := by
      simp only [S1.server_dir, if_true]
    apply hfwd (str "S2") env.PORT_S2 hc hport hsd (by decide) (by decide)
    intro _ _
    obtain ⟨reason, hr1, hr2⟩ := hS2 rfl
    rw [hroute (str "S2") env.PORT_S2 hc hport hsd (by decide), str_downlf_cmd,
      snprintf_eq_self _ _ (by
        have : (str "downlf").length = 6 := by decide
        have := hadjl (str "S2") (by decide)
        simp only [List.length_append, List.length_cons, List.length_append] at this ⊢
        omega)] at hr2
    refine ⟨(env.S2 fs (delivered
      [str "downlf" ++ 32 :: (home ++ str "/" ++ str "S2" ++ 47 :: q)])).1, reason, hr1, ?_⟩
    simp only [S1.peerAt, if_true]
    rw [← hr2]
  · -- `.txt`
    subst h
    have hc : str ".txt" ≠ str ".c" := by decide
    have e2 : (str ".txt" = str ".pdf") = False := by decide
    have hport : S1.download_port env (str ".txt") = env.PORT_S3 := by
      simp only [S1.download_port, e2, if_false, if_true]
    have hsd : S1.server_dir env env.PORT_S3 = some (str "S3") := by
      simp only [S1.server_dir, if_neg (Ne.symm hv7), if_true]
    apply hfwd (str "S3") env.PORT_S3 hc hport hsd (by decide) (by decide)
    intro _ _
    refine ⟨fs, sendLit "Download failed: File not found" 32,
      sendLit_ne_nil _ 32 (by decide), ?_⟩
    simp only [S1.peerAt, if_neg (Ne.symm hv7), if_true]
    rw [S3.s3_fetch_eq env fs _ (S1.forward_operand home (str "S3") q p hhtok (by decide) hq hp)
      (hadjl _ (by decide)), hnode (str "S3") env.PORT_S3 hc hport hsd (by decide) (by decide)]
  · -- `.zip`
    subst h
    have hc : str ".zip" ≠ str ".c" := by decide
    have e2 : (str ".zip" = str ".pdf") = False := by decide
    have e4 : (str ".zip" = str ".txt") = False := by decide
    have hport : S1.download_port env (str ".zip") = env.PORT_S4 := by
      simp only [S1.download_port, e2, e4, if_false, if_true]
    have hsd : S1.server_dir env env.PORT_S4 = some (str "S4") := by
      simp only [S1.server_dir, if_neg (Ne.symm hv8), if_neg (Ne.symm hv9), if_true]
    apply hfwd (str "S4") env.PORT_S4 hc hport hsd (by decide) (by decide)
    intro _ _
    refine ⟨fs, sendLit "Download failed: File not found" 32,
      sendLit_ne_nil _ 32 (by decide), ?_⟩
    simp only [S1.peerAt, if_neg (Ne.symm hv8), if_neg (Ne.symm hv9), if_true]
    rw [S4.s4_fetch_eq env fs _ (S1.forward_operand home (str "S4") q p hhtok (by decide) hq hp)
      (hadjl _ (by decide)), S4.downlf_eq,
      hnode (str "S4") env.PORT_S4 hc hport hsd (by decide) (by decide)]

theorem C3_fetch_missing_witness :
    ∃ st reason, S1.prcclient demoEnv [] (delivered [str "downlf " ++ str "~S1/x/a.txt"])
        = some st ∧ reason ≠ [] ∧ st.out = [zero8, reason] :=
  C3_fetch_missing demoEnv [] (str "/home/u") (str "~S1/x/a.txt") (str ".txt") (by decide)
    (by decide) (by decide) (by simp [Env.portsValid, demoEnv]) (by decide) (by decide)
    (by decide) (by decide) (by decide) (fun h => absurd h (by decide))

/-- C4 at a failing input: `/home/u/S1/a.c` is a regular file of three bytes that cannot be
opened for reading.  The gateway sends the size 3 first, and only then the zero size and the
reason. -/
theorem C4_size_before_open_failure :
    (S1.prcclient demoEnv (demoTree [(str "/home/u/S1/a.c", Node.file [1, 2, 3] false true)])
        (delivered [str "downlf ~S1/a.c"])).map (fun st => st.out)
      = some [htobe64 3, zero8, sendLit "Error opening file" 18] ∧
    htobe64 3 = [0, 0, 0, 0, 0, 0, 0, 3] := by
  constructor <;> rfl

/-- C5 at a failing input: `/home/u/S1/a.c` is a readable regular file of length zero.  The
whole response is the 8 zero bytes of its size; no reason follows. -/
theorem C5_empty_file_zero_frame_only :
    (S1.prcclient demoEnv (demoTree [(str "/home/u/S1/a.c", Node.file [] true true)])
        (delivered [str "downlf ~S1/a.c"])).map S1.State.response
      = some zero8 := by
  rfl

/-- C7 at a failing input: S4 receives a store command and then the end of the stream.  It
answers that no data were received and leaves a file of length zero at the target. -/
theorem C7_S4_leaves_empty_file :
    (S4.main_conn demoEnv (demoTree []) (delivered [str "uploadf a.zip /home/u/S4/x"])).map
        (fun r => (r.2, stat r.1 (str "/home/u/S4/x/a.zip")))
      = some ([sendLit "Upload failed: No data received" 32],
          some (Node.file [] true true)) ∧
    (S3.main_conn demoEnv (demoTree []) (delivered [str "uploadf a.txt /home/u/S3/x"])).map
        (fun r => (r.2, stat r.1 (str "/home/u/S3/x/a.txt")))
      = some ([sendLit "Upload failed: No data received" 32], none) := by
  constructor <;> rfl

/-- C8 at a failing input: S3 holds the regular files `a` and `a b.txt`.  The removal of
`~S1/a b.txt` is answered with the success status, S3 having removed `a`, and the fetch that
follows is answered with the size and the content of `a b.txt`. -/
theorem C8_remove_then_fetch_with_blank :
    (S1.prcclient demoEnv
        (demoTree [(str "/home/u/S3/a", Node.file [1] true true),
          (str "/home/u/S3/a b.txt", Node.file [2, 3] true true)])
        (delivered [str "removef ~S1/a b.txt", str "downlf ~S1/a b.txt"])).map
        (fun st => (st.out, stat st.fs (str "/home/u/S3/a"),
          stat st.fs (str "/home/u/S3/a b.txt")))
      = some ([str "File removed successfully", htobe64 2, [2, 3]], none,
          some (Node.file [2, 3] true true)) := by
  rfl

/-! ## Store without content -/

theorem S1.upload_loop_empty (env : Env) (path : Bytes) (fuel : Nat) (inp : Script) (fs : FS)
    (total i : Nat) (hfuel : weight inp < fuel) (hne : ∀ e ∈ inp, e ≠ Event.error)
    (hempty : dataOf inp = []) :
    S1.upload_loop env path fuel fs inp total i = some (fs, [], total) := by
  obtain ⟨n, rfl⟩ : ∃ n, fuel = n + 1 := ⟨fuel - 1, by omega⟩
  rcases recv_spec BUFFER_SIZE (by decide) inp hne with ⟨h1, _⟩ | ⟨b, inp1, _, h2, _, h4, _, _⟩
  · simp only [S1.upload_loop, h1]
  · rw [hempty] at h4
    have := congrArg List.length h4
    simp only [List.length_nil, List.length_append] at this
    have : b.length = 0 := by omega
    exact absurd (List.length_eq_zero.1 this) h2

theorem get_remove_self {fs fs1 : FS} {path : Bytes} (h : remove fs path = some fs1) :
    stat fs1 path = none := by
  unfold remove at h
  by_cases hk : normPath path = []
  · simp [hk] at h
  · simp only [hk, if_false] at h
    unfold stat
    split at h
    · cases h
    · split at h
      · injection h with h
        rw [← h]
        exact FS.get_erase_self _ _ hk
      · cases h
    · split at h
      · injection h with h
        rw [← h]
        exact FS.get_erase_self _ _ hk
      · cases h

/-- C6 (amended): a store at the gateway under a destination that begins with `~S1/`, the
stream ending without content, the file having been opened for writing and the gateway being
able to remove it again, is answered with `Upload failed: No data received` (and the NUL
that ends the literal); nothing exists at the target path afterwards and no node was
contacted. -/
theorem C6_empty_upload (env : Env) (fs fs1 fs3 fs5 : FS) (home f d : Bytes)
    (segs : List Bytes)
    (hhome : getenv_HOME env = some home)
    (hf : isToken f = true) (hd : isToken d = true) (hlen : f.length + d.length < 255)
    (hd4 : d.take 4 = str "~S1/") (hempty : segs.flatten = [])
    (hdirs : create_directories fs (dirname (S1.store_path home d f)) = some fs1)
    (hopen : fopen_wb (remove_ fs1 (S1.store_path home d f)) (S1.store_path home d f)
      = Except.ok fs3)
    (hrem : remove fs3 (S1.store_path home d f) = some fs5) :
    ∃ st, S1.prcclient env fs (delivered ((str "uploadf " ++ f ++ str " " ++ d) :: segs))
        = some st ∧
      st.response = str "Upload failed: No data received" ++ [0] ∧
      stat st.fs (S1.store_path home d f) = none ∧ st.conns = [] := by
  have hflen : ¬ (256 ≤ f.length ∨ PATH_MAX ≤ d.length) := by
    have : PATH_MAX = 4096 := rfl
    omega
  have hloop := S1.upload_loop_empty env (S1.store_path home d f) (weight (delivered segs) + 1)
    (delivered segs) fs3 0 0 (by omega) (no_error_delivered segs)
    (by rw [dataOf_delivered]; exact hempty)
  have hup : S1.uploadf env (str "uploadf" ++ 32 :: (f ++ 32 :: d))
      { fs := fs, inp := delivered segs, out := [], conns := [] }
      = some (S1.State.send { fs := fs5, inp := [], out := [], conns := [] }
          (sendLit "Upload failed: No data received" 32)) := by
    unfold S1.uploadf
    rw [sscanf_two_tokens _ f d str_uploadf_token hf hd]
    simp only [hflen, if_false, hd4, ne_eq, not_true_eq_false, hhome]
    have hsp : S1.temp_path (S1.full_dest_path home d) (basename f).1
        = S1.store_path home d f := rfl
    rw [hsp, hdirs]
    simp only [hopen, hloop, if_true]
    simp only [remove_, hrem, Option.getD_some]
  have hcmd1 : str "uploadf " ++ f ++ str " " ++ d ≠ [] := by
    rw [str_uploadf_cmd]
    simp [str]
  have hcmd1l : (str "uploadf " ++ f ++ str " " ++ d).length ≤ BUFFER_SIZE - 1 := by
    have : (str "uploadf").length = 7 := by decide
    have hB : BUFFER_SIZE = 8192 := rfl
    rw [str_uploadf_cmd]
    simp only [List.length_append, List.length_cons, this, hB]
    omega
  have h1 := S1.prcclient_one env fs _ (delivered segs) _ hcmd1 hcmd1l
    (by rw [str_uploadf_cmd, S1.dispatch_uploadf env _ f d hf hd hlen]; exact hup) rfl
  refine ⟨_, h1, ?_, get_remove_self hrem, rfl⟩
  have : sendLit "Upload failed: No data received" 32
      = str "Upload failed: No data received" ++ [0] := by decide
  simp [S1.State.response, S1.State.send, this]

theorem C6_empty_upload_witness :
    ∃ st, S1.prcclient demoEnv []
        (delivered ((str "uploadf " ++ str "a.c" ++ str " " ++ str "~S1/x") :: [])) = some st ∧
      st.response = str "Upload failed: No data received" ++ [0] ∧
      stat st.fs (S1.store_path (str "/home/u") (str "~S1/x") (str "a.c")) = none ∧
      st.conns = [] :=
  C6_empty_upload demoEnv [] demoDirs demoOpened (remove_ demoOpened
      (S1.store_path (str "/home/u") (str "~S1/x") (str "a.c")))
    (str "/home/u") (str "a.c") (str "~S1/x") [] (by decide) (by decide) (by decide)
    (by decide) (by decide) rfl rfl rfl rfl

/-- C6, as stated, fails where the gateway cannot remove the file: in `demoLockedDir` the
directory `/home/u/S1/x` may not be written and holds `a.c`.  For `uploadf a.c ~S1/x`
without content `remove` fails at S1.c 172, `fopen` truncates the file at 174, `remove`
fails again at 194, and the gateway answers `Upload failed: No data received` while a file,
now empty, is at the target path. -/
theorem C6_counterexample :
    stat demoLockedDir (S1.store_path (str "/home/u") (str "~S1/x") (str "a.c"))
      = some (Node.file [7, 7] true true) ∧
    (S1.prcclient demoEnv demoLockedDir (delivered [str "uploadf a.c ~S1/x"])).map
        (fun st => (st.response, st.conns,
          stat st.fs (S1.store_path (str "/home/u") (str "~S1/x") (str "a.c"))))
      = some (str "Upload failed: No data received" ++ [0], [],
          some (Node.file [] true true)) := by
  refine ⟨rfl, rfl⟩

/-! ## Routing -/

theorem S1.downlf_local_conns (filepath : Bytes) (st : S1.State) :
    (S1.downlf_local filepath st).conns = st.conns := by
  unfold S1.downlf_local
  split
  · split <;> rfl
  · rfl

/-- C9: Store and Fetch route by the same table.  A store whose content was received goes by
the extension of the file name (as `basename` leaves it): for `.c` it is acknowledged by the
gateway, for `.pdf`, `.txt`, `.zip` it is handed to `transfer_file_to_server` with the port
of S2, S3, S4, and otherwise it is refused as unsupported.  A fetch of any path, by any
worker, goes by the extension of the path in the same way: the local branch,
`download_file_from_server` with the same ports, or the unsupported-type answer.  The local
and the unsupported cases open no connection. -/
theorem C9_routing (env : Env) (home : Bytes) (hhome : getenv_HOME env = some home) :
    (∀ (st st1 : S1.State) (f d : Bytes) (fs1 fs3 : FS),
      env.portsValid → isToken f = true → isToken d = true →
      d.take 4 = str "~S1/" → f.length + d.length < 255 →
      (∀ e ∈ st.inp, e ≠ Event.error) →
      dataOf st.inp ≠ [] → (dataOf st.inp).length < 2 ^ 64 →
      create_directories st.fs (dirname (S1.store_path home d f)) = some fs1 →
      fopen_wb (remove_ fs1 (S1.store_path home d f)) (S1.store_path home d f)
        = Except.ok fs3 →
      (∀ i, env.fwriteOk 1 i = true) →
      st1 = { st with
        fs := fwrite fs3 (S1.store_path home d f) (dataOf st.inp), inp := [] } →
      S1.uploadf env (str "uploadf " ++ f ++ str " " ++ d) st =
        (match S1.routing_table env (strrchr (basename f).2 46) with
        | S1.Route.gateway => some (st1.send (sendLit "Stored successfully" 20))
        | S1.Route.node port =>
          S1.transfer_file_to_server env (S1.store_path home d f) (S1.full_dest_path home d)
            port st1
        | S1.Route.unsupported =>
          some { (st1.send (sendLit "Upload failed: Unsupported file type" 37)) with
            fs := remove_ st1.fs (S1.store_path home d f) }) ∧
      st1.conns = st.conns) ∧
    (∀ (st : S1.State) (p : Bytes), p ≠ [] →
      S1.downlf env p st =
        (match S1.routing_table env (strrchr (S1.local_path home p) 46) with
        | S1.Route.gateway => some (S1.downlf_local (S1.local_path home p) st)
        | S1.Route.node port =>
          S1.download_file_from_server env (S1.local_path home p) port st
        | S1.Route.unsupported =>
          some (st.sends [zero8, sendLit "Only .c, .pdf, .txt, .zip supported" 35])) ∧
      (S1.downlf_local (S1.local_path home p) st).conns = st.conns ∧
      (st.sends [zero8, sendLit "Only .c, .pdf, .txt, .zip supported" 35]).conns
        = st.conns) := by
  have e1 : (str ".pdf" = str ".c") = False := by decide
  have e2 : (str ".txt" = str ".c") = False := by decide
  have e3 : (str ".zip" = str ".c") = False := by decide
  have e4 : (str ".txt" = str ".pdf") = False := by decide
  have e5 : (str ".zip" = str ".pdf") = False := by decide
  have e6 : (str ".zip" = str ".txt") = False := by decide
  constructor
  · intro st st1 f d fs1 fs3 hpv hf hd hd4 hlen hne hb hb64 hdirs hopen hwrite hst1
    obtain ⟨hv1, hv2, hv3, hv4, hv5, hv6, hv7, hv8, hv9⟩ := hpv
    have n2 : env.PORT_S2 ≠ 0 := by omega
    have n3 : env.PORT_S3 ≠ 0 := by omega
    have n4 : env.PORT_S4 ≠ 0 := by omega
    refine ⟨?_, by rw [hst1]⟩
    rw [str_uploadf_cmd, S1.uploadf_routed env st home f d fs1 fs3 hhome hf hd hd4 hlen hne hb
      hb64 hdirs hopen hwrite, ← hst1]
    by_cases h1 : strrchr (basename f).2 46 = some (str ".c")
    · simp only [h1, S1.routing_table, if_true]
    · by_cases h2 : strrchr (basename f).2 46 = some (str ".pdf")
      · simp only [h2, S1.routing_table, S1.upload_port, Option.some.injEq, e1, if_false,
          if_true, ne_eq, n2, not_false_eq_true]
      · by_cases h3 : strrchr (basename f).2 46 = some (str ".txt")
        · simp only [h3, S1.routing_table, S1.upload_port, Option.some.injEq, e2, e4, if_false,
            if_true, ne_eq, n3, not_false_eq_true]
        · by_cases h4 : strrchr (basename f).2 46 = some (str ".zip")
          · simp only [h4, S1.routing_table, S1.upload_port, Option.some.injEq, e3, e5, e6,
              if_false, if_true, ne_eq, n4, not_false_eq_true]
          · simp only [h1, h2, h3, h4, S1.routing_table, S1.upload_port, if_false, ne_eq,
              not_true_eq_false]
            rw [hst1]
  · intro st p hp
    refine ⟨?_, S1.downlf_local_conns _ _, rfl⟩
    have hp0 : p.length ≠ 0 := fun h => hp (List.length_eq_zero.1 h)
    cases hx : strrchr (S1.local_path home p) 46 with
    | none =>
      simp only [S1.downlf, hp0, if_false, hhome, hx, S1.routing_table, reduceCtorEq]
    | some ext =>
      by_cases h1 : ext = str ".c"
      · subst h1
        simp only [S1.downlf, hp0, if_false, hhome, hx, S1.routing_table, if_true, ne_eq,
          not_true_eq_false, false_and]
      · by_cases h2 : ext = str ".pdf"
        · subst h2
          simp only [S1.downlf, hp0, if_false, hhome, hx, S1.routing_table, S1.download_port,
            Option.some.injEq, e1, if_true, ne_eq, not_true_eq_false, false_and, and_false,
            not_false_eq_true]
        · by_cases h3 : ext = str ".txt"
          · subst h3
            simp only [S1.downlf, hp0, if_false, hhome, hx, S1.routing_table,
              S1.download_port, Option.some.injEq, e2, e4, if_true, ne_eq, not_true_eq_false,
              false_and, and_false, not_false_eq_true]
          · by_cases h4 : ext = str ".zip"
            · subst h4
              simp only [S1.downlf, hp0, if_false, hhome, hx, S1.routing_table,
                S1.download_port, Option.some.injEq, e3, e5, e6, if_true, ne_eq,
                not_true_eq_false, false_and, and_false, not_false_eq_true]
            · simp only [S1.downlf, hp0, if_false, hhome, hx, S1.routing_table,
                Option.some.injEq, h1, h2, h3, h4, ne_eq, not_false_eq_true, and_self, if_true]

theorem C9_routing_witness :
    (S1.uploadf demoEnv (str "uploadf " ++ str "a.pdf" ++ str " " ++ str "~S1/x") demoState =
        (match S1.routing_table demoEnv (strrchr (basename (str "a.pdf")).2 46) with
        | S1.Route.gateway => some (demoReceived.send (sendLit "Stored successfully" 20))
        | S1.Route.node port =>
          S1.transfer_file_to_server demoEnv demoPdf
            (S1.full_dest_path (str "/home/u") (str "~S1/x")) port demoReceived
        | S1.Route.unsupported =>
          some { (demoReceived.send (sendLit "Upload failed: Unsupported file type" 37)) with
            fs := remove_ demoReceived.fs demoPdf }) ∧
      demoReceived.conns = demoState.conns) ∧
    (S1.downlf demoEnv (str "~S1/x/a.pdf") demoState =
        (match S1.routing_table demoEnv
          (strrchr (S1.local_path (str "/home/u") (str "~S1/x/a.pdf")) 46) with
        | S1.Route.gateway =>
          some (S1.downlf_local (S1.local_path (str "/home/u") (str "~S1/x/a.pdf")) demoState)
        | S1.Route.node port =>
          S1.download_file_from_server demoEnv
            (S1.local_path (str "/home/u") (str "~S1/x/a.pdf")) port demoState
        | S1.Route.unsupported =>
          some (demoState.sends [zero8, sendLit "Only .c, .pdf, .txt, .zip supported" 35])) ∧
      (S1.downlf_local (S1.local_path (str "/home/u") (str "~S1/x/a.pdf")) demoState).conns
        = demoState.conns ∧
      (demoState.sends [zero8, sendLit "Only .c, .pdf, .txt, .zip supported" 35]).conns
        = demoState.conns) :=
  ⟨(C9_routing demoEnv (str "/home/u") (by decide)).1 demoState demoReceived (str "a.pdf")
      (str "~S1/x") (dirsMade [] demoPdf)
      (opened (remove_ (dirsMade [] demoPdf) demoPdf) demoPdf)
      (by simp [Env.portsValid, demoEnv]) (by decide) (by decide) (by decide) (by decide)
      (by decide) (by decide) (by decide) rfl rfl (fun _ => rfl) rfl,
   (C9_routing demoEnv (str "/home/u") (by decide)).2 demoState (str "~S1/x/a.pdf")
      (by decide)⟩

/-! ## Removal -/

theorem S1.downltar_invalid (env : Env) (t : Bytes) (st : S1.State)
    (h1 : t ≠ str ".c") (h2 : t ≠ str ".pdf") (h3 : t ≠ str ".txt") :
    S1.downltar env t st = some (st.sends [zero8,
      if t = [] then str "Download failed: No file type provided"
      else str "Download failed: Invalid file type"]) := by
  have e1 : sendLit "Download failed: No file type provided" 38
      = str "Download failed: No file type provided" := by decide
  have e2 : sendLit "Download failed: Invalid file type" 34
      = str "Download failed: Invalid file type" := by decide
  unfold S1.downltar
  by_cases ht : t = []
  · subst ht
    simp [e1]
  · have hl : t.length ≠ 0 := fun h => ht (List.length_eq_zero.1 h)
    simp only [hl, if_false, ne_eq, h1, h2, h3, not_false_eq_true, and_self, if_true, e2, ht]

/-- C17: a `downltar` command whose type filter is none of `.c`, `.pdf` and `.txt` (so also
for `.zip` and for no filter at all) is answered with 8 zero bytes followed by a reason that
is not empty.  The worker keeps its file system and its connection log, and the answer is
the same in every environment: neither the archive builder nor a node has a part in it. -/
theorem C17_invalid_filter (buffer t : Bytes) (st : S1.State)
    (hcmd : sscanf_command buffer = (some (str "downltar"), t)) (hlen : t.length < 256)
    (h1 : t ≠ str ".c") (h2 : t ≠ str ".pdf") (h3 : t ≠ str ".txt") :
    ∃ reason : Bytes, reason ≠ [] ∧
      ∀ env : Env, S1.dispatch env buffer st =
        some { fs := st.fs, inp := st.inp, out := st.out ++ [zero8, reason],
               conns := st.conns } := by
  refine ⟨if t = [] then str "Download failed: No file type provided"
      else str "Download failed: Invalid file type", ?_, ?_⟩
  · split <;> decide
  · intro env
    have hl : ¬ (20 ≤ (str "downltar").length ∨ 256 ≤ t.length) := by
      have : (str "downltar").length = 8 := by decide
      omega
    have c1 : (str "downltar" = str "uploadf") = False := by decide
    have c2 : (str "downltar" = str "downlf") = False := by decide
    have c3 : (str "downltar" = str "removef") = False := by decide
    unfold S1.dispatch
    simp only [hcmd, hl, if_false, c1, c2, c3, if_true, S1.downltar_invalid env t st h1 h2 h3]
    rfl

theorem C17_invalid_filter_witness :
    ∃ reason : Bytes, reason ≠ [] ∧
      ∀ env : Env, S1.dispatch env (str "downltar .zip")
          { fs := demoTree [], inp := [], out := [], conns := [] } =
        some { fs := demoTree [], inp := [], out := [] ++ [zero8, reason], conns := [] } :=
  C17_invalid_filter (str "downltar .zip") (str ".zip")
    { fs := demoTree [], inp := [], out := [], conns := [] }
    (by decide) (by decide) (by decide) (by decide) (by decide)

/-! ## Lemmas: what the gateway sends to a node -/

theorem receive_full_loop_no_error :
    ∀ (fuel : Nat) (inp : Script) (remaining : Nat) (buf : Bytes),
      (∀ e ∈ inp, e ≠ Event.error) →
      ∀ e ∈ (receive_full_loop fuel inp remaining buf).2, e ≠ Event.error := by
  intro fuel
  induction fuel with
  | zero => intro inp remaining buf hne; simpa [receive_full_loop] using hne
  | succ fuel ih =>
    intro inp remaining buf hne
    by_cases hr : remaining = 0
    · simpa [receive_full_loop, hr] using hne
    · rcases recv_spec remaining (by omega) inp hne with ⟨h1, _⟩ |
        ⟨b, inp1, h1, _, _, _, _, h6⟩
      · simp [receive_full_loop, hr, h1]
      · simp only [receive_full_loop, hr, if_false, h1]
        exact ih inp1 _ _ h6

theorem S1.relay_loop_total :
    ∀ (fuel : Nat) (inp : Script) (n total : Nat),
      weight inp < fuel → (∀ e ∈ inp, e ≠ Event.error) →
      ∃ l, S1.relay_loop fuel inp n total = some l := by
  intro fuel
  induction fuel with
  | zero => intro inp n total h; omega
  | succ fuel ih =>
    intro inp n total hfuel hne
    by_cases hlt : total < n
    · have hcap : 0 < min (n - total) BUFFER_SIZE := by
        have : 0 < BUFFER_SIZE := by decide
        omega
      rcases recv_spec _ hcap inp hne with ⟨h1, _⟩ | ⟨b, inp1, h1, _, _, _, h5, h6⟩
      · exact ⟨[], by simp only [S1.relay_loop, hlt, if_true, h1]⟩
      · obtain ⟨l, hl⟩ := ih inp1 n (total + b.length) (by omega) h6
        exact ⟨b :: l, by simp only [S1.relay_loop, hlt, if_true, h1, hl, Option.map_some']⟩
    · exact ⟨[], by simp only [S1.relay_loop, hlt, if_false]⟩

/-- The relay of a reply always comes to an end. -/
theorem S1.relay_download_total (reply : Script) (hne : ∀ e ∈ reply, e ≠ Event.error) :
    ∃ l, S1.relay_download reply = some l := by
  have hrest := receive_full_loop_no_error 8 reply 8 [] hne
  unfold S1.relay_download
  unfold receive_full at *
  rcases h : receive_full_loop 8 reply 8 [] with ⟨o, rest⟩
  rw [h] at hrest
  cases o with
  | none => exact ⟨_, rfl⟩
  | some hdr =>
    simp only []
    by_cases hz : 0 < be64toh hdr
    · obtain ⟨l, hl⟩ := S1.relay_loop_total (weight rest + 1) rest (be64toh hdr) 0
        (by omega) hrest
      exact ⟨hdr :: l, by simp only [hz, if_true, hl, Option.map_some']⟩
    · simp only [hz, if_false]
      split
      · exact ⟨_, rfl⟩
      · exact ⟨_, rfl⟩

/-- How a port of a node, its directory and its file type go together. -/
theorem S1.node_facts (env : Env) (hpv : env.portsValid) (ext sdir : Bytes) (port : Nat)
    (hnode : (ext = str ".pdf" ∧ sdir = str "S2" ∧ port = env.PORT_S2) ∨
      (ext = str ".txt" ∧ sdir = str "S3" ∧ port = env.PORT_S3) ∨
      (ext = str ".zip" ∧ sdir = str "S4" ∧ port = env.PORT_S4)) :
    ext ≠ str ".c" ∧ ext ≠ [] ∧ 47 ∉ ext ∧ strrchr ext 46 = some ext ∧
      S1.upload_port env (some ext) = port ∧ S1.download_port env ext = port ∧ port ≠ 0 ∧
      S1.server_dir env port = some sdir ∧ sdir.length = 2 ∧ isToken sdir = true ∧
      ¬ (ext ≠ str ".c" ∧ ext ≠ str ".pdf" ∧ ext ≠ str ".txt" ∧ ext ≠ str ".zip") := by
  obtain ⟨hv1, hv2, hv3, hv4, hv5, hv6, hv7, hv8, hv9⟩ := hpv
  rcases hnode with ⟨h1, h2, h3⟩ | ⟨h1, h2, h3⟩ | ⟨h1, h2, h3⟩
  · subst h1 h2 h3
    refine ⟨by decide, by decide, by decide, by decide, ?_, ?_, by omega, ?_, by decide,
      by decide, by decide⟩
    · simp only [S1.upload_port, if_true]
    · simp only [S1.download_port, if_true]
    · simp only [S1.server_dir, if_true]
  · subst h1 h2 h3
    have e1 : (some (str ".txt") = some (str ".pdf")) = False := by decide
    have e2 : (str ".txt" = str ".pdf") = False := by decide
    refine ⟨by decide, by decide, by decide, by decide, ?_, ?_, by omega, ?_, by decide,
      by decide, by decide⟩
    · simp only [S1.upload_port, e1, if_false, if_true]
    · simp only [S1.download_port, e2, if_false, if_true]
    · simp only [S1.server_dir, if_neg (Ne.symm hv7), if_true]
  · subst h1 h2 h3
    have e1 : (some (str ".zip") = some (str ".pdf")) = False := by decide
    have e2 : (str ".zip" = str ".pdf") = False := by decide
    have e3 : (some (str ".zip") = some (str ".txt")) = False := by decide
    have e4 : (str ".zip" = str ".txt") = False := by decide
    refine ⟨by decide, by decide, by decide, by decide, ?_, ?_, by omega, ?_, by decide,
      by decide, by decide⟩
    · simp only [S1.upload_port, e1, e3, if_false, if_true]
    · simp only [S1.download_port, e2, e4, if_false, if_true]
    · simp only [S1.server_dir, if_neg (Ne.symm hv8), if_neg (Ne.symm hv9), if_true]

/-- A fetch that is forwarded: the command the node gets. -/
theorem S1.downlf_forward (env : Env) (st : S1.State) (home p ext sdir tail : Bytes)
    (port : Nat) (fsN : FS) (reply : List Bytes)
    (hpv : env.portsValid) (hhome : getenv_HOME env = some home) (hp : p ≠ [])
    (hlp : S1.local_path home p = home ++ str "/S1" ++ tail)
    (hlen : home.length + tail.length + 3 < PATH_MAX)
    (hext : strrchr (S1.local_path home p) 46 = some ext)
    (hnode : (ext = str ".pdf" ∧ sdir = str "S2" ∧ port = env.PORT_S2) ∨
      (ext = str ".txt" ∧ sdir = str "S3" ∧ port = env.PORT_S3) ∨
      (ext = str ".zip" ∧ sdir = str "S4" ∧ port = env.PORT_S4))
    (hup : env.listening port = true) (hsend : env.sendOk port 0 = true)
    (hpeer : S1.peerAt env port st.fs
      (delivered [str "downlf" ++ 32 :: (home ++ str "/" ++ sdir ++ tail)]) = some (fsN, reply)) :
    ∃ l, S1.downlf env p st = some { (st.sends l) with
      fs := fsN,
      conns := st.conns ++ [(port, [str "downlf" ++ 32 :: (home ++ str "/" ++ sdir ++ tail)])] }
    := by
  obtain ⟨hc, _, _, _, _, hdp, _, hsd, hs2, _, hrec⟩ := S1.node_facts env hpv ext sdir port hnode
  obtain ⟨l, hl⟩ := S1.relay_download_total (delivered reply) (no_error_delivered reply)
  refine ⟨l, ?_⟩
  have hp0 : p.length ≠ 0 := fun h => hp (List.length_eq_zero.1 h)
  unfold S1.downlf
  simp only [hp0, if_false, hhome, hext, hrec, hc, hdp]
  rw [hlp]
  exact S1.download_ok env st home sdir tail port fsN reply l hhome hlen hsd hs2 hup hsend
    hpeer hl

/-- A removal that is forwarded: the command the node gets. -/
theorem S1.removef_forward (env : Env) (st : S1.State) (home p ext sdir : Bytes)
    (port : Nat) (fsN : FS) (reply : List Bytes)
    (hpv : env.portsValid) (hhome : getenv_HOME env = some home)
    (hhl : home.length + 260 < PATH_MAX) (hpl : p.length < 256)
    (hext : strrchr (S1.local_path home p) 46 = some ext)
    (hnode : (ext = str ".pdf" ∧ sdir = str "S2" ∧ port = env.PORT_S2) ∨
      (ext = str ".txt" ∧ sdir = str "S3" ∧ port = env.PORT_S3))
    (hup : env.listening port = true) (hsend : env.sendOk port 0 = true)
    (hpeer : S1.peerAt env port st.fs
      (delivered [str "removef " ++ (home ++ str "/" ++ sdir ++ str "/" ++ p.drop 4)])
        = some (fsN, reply)) :
    ∃ msg, S1.removef env p st = some (S1.State.send
      { st with
        fs := fsN,
        conns := st.conns ++
          [(port, [str "removef " ++ (home ++ str "/" ++ sdir ++ str "/" ++ p.drop 4)])] }
      msg) := by
  have hPM : PATH_MAX = 4096 := rfl
  have hBS : BUFFER_SIZE = 8192 := rfl
  obtain ⟨hv1, hv2, hv3, hv4, hv5, hv6, hv7, hv8, hv9⟩ := hpv
  have hfwd : ∀ (e2 : Bytes), ext.drop 1 = e2 → e2 ≠ str "c" →
      (e2 = str "pdf" ∨ e2 = str "txt") →
      (if e2 = str "pdf" then env.PORT_S2 else env.PORT_S3) = port →
      snprintf 4 (str "S" ++ (if port = env.PORT_S2 then str "2" else str "3")) = sdir →
      sdir.length = 2 →
      ∃ msg, S1.removef env p st = some (S1.State.send
        { st with
          fs := fsN,
          conns := st.conns ++
            [(port, [str "removef " ++ (home ++ str "/" ++ sdir ++ str "/" ++ p.drop 4)])] }
        msg) := by
    intro e2 he2 hc hpt hport hsd hs2
    have h1 : (str "/").length = 1 := by decide
    have h8 : (str "removef ").length = 8 := by decide
    have hadj : snprintf PATH_MAX (home ++ str "/" ++ sdir ++ str "/" ++ p.drop 4)
        = home ++ str "/" ++ sdir ++ str "/" ++ p.drop 4 := by
      apply snprintf_eq_self
      simp only [List.length_append, List.length_drop, h1, hs2]
      omega
    have hcmd : snprintf BUFFER_SIZE
        (str "removef " ++ (home ++ str "/" ++ sdir ++ str "/" ++ p.drop 4))
        = str "removef " ++ (home ++ str "/" ++ sdir ++ str "/" ++ p.drop 4) := by
      apply snprintf_eq_self
      simp only [List.length_append, List.length_drop, h1, hs2, h8]
      omega
    unfold S1.removef
    simp only [hhome, hext, he2, hc, if_false, hpt, if_true, hport, S1.connect_to_server, hup,
      Bool.not_true, Bool.false_eq_true, hsd, hadj, hcmd, hsend, hpeer]
    split
    · exact ⟨_, rfl⟩
    · exact ⟨_, rfl⟩
  rcases hnode with ⟨h1, h2, h3⟩ | ⟨h1, h2, h3⟩
  · subst h1 h2 h3
    exact hfwd (str "pdf") (by decide) (by decide) (Or.inl rfl) (by simp) (by simp; decide)
      (by decide)
  · subst h1 h2 h3
    have e1 : (str "txt" = str "pdf") = False := by decide
    exact hfwd (str "txt") (by decide) (by decide) (Or.inr rfl) (by simp only [e1, if_false])
      (by simp only [if_neg (Ne.symm hv7)]; decide) (by decide)

/-- A store that is forwarded: the command and the content the node gets. -/
theorem S1.transfer_sends (env : Env) (st : S1.State) (home f d sdir b : Bytes) (port : Nat)
    (fsN : FS) (reply : List Bytes)
    (hhome : getenv_HOME env = some home) (hhl : home.length + 256 < PATH_MAX)
    (hd4 : d.take 4 = str "~S1/") (hlen : f.length + d.length < 255)
    (hbne : (basename f).1 ≠ []) (hb47 : 47 ∉ (basename f).1)
    (hbl : (basename f).1.length ≤ f.length)
    (hsd : S1.server_dir env port = some sdir) (hs2 : sdir.length = 2)
    (hup : env.listening port = true) (hsend : ∀ i, env.sendOk port i = true)
    (hfile : fopen_rb st.fs (S1.store_path home d f) = some b)
    (hpeer : S1.peerAt env port st.fs (delivered
      ((str "uploadf" ++ 32 :: ((basename f).1 ++ 32 :: S1.forward_dir home sdir d))
        :: fread_all b)) = some (fsN, reply)) :
    ∃ msg,
      S1.transfer_file_to_server env (S1.store_path home d f) (S1.full_dest_path home d) port st
        = some (S1.State.send
            { st with
              fs := remove_ fsN (S1.store_path home d f),
              conns := st.conns ++ [(port,
                (str "uploadf" ++ 32 :: ((basename f).1 ++ 32 :: S1.forward_dir home sdir d))
                  :: fread_all b)] }
            msg) := by
  have hPM : PATH_MAX = 4096 := rfl
  have hBS : BUFFER_SIZE = 8192 := rfl
  have hfl := S1.full_dest_path_length home d (by omega) hd4
  have hdrop := S1.full_dest_path_drop home d (by omega) hd4
  have hfd := S1.forward_dir_length home sdir d hs2 hd4
  have hbase := S1.basename_store_path home d f hd4 (by omega) hbne hb47
  have hadj : snprintf PATH_MAX (home ++ str "/" ++ sdir ++ 47 :: d.drop 4)
      = S1.forward_dir home sdir d := by
    apply snprintf_eq_self
    have : (home ++ str "/" ++ sdir ++ 47 :: d.drop 4).length
        = (S1.forward_dir home sdir d).length := rfl
    omega
  have hbuf : snprintf BUFFER_SIZE
      (str "uploadf " ++ (basename f).1 ++ str " " ++ S1.forward_dir home sdir d)
      = str "uploadf" ++ 32 :: ((basename f).1 ++ 32 :: S1.forward_dir home sdir d) := by
    rw [str_uploadf_cmd]
    apply snprintf_eq_self
    have : (str "uploadf").length = 7 := by decide
    simp only [List.length_append, List.length_cons, this]
    omega
  have h4 := length_ge_4 hd4
  unfold S1.transfer_file_to_server
  simp only [S1.connect_to_server, hup, Bool.not_true, Bool.false_eq_true, if_false, hhome,
    hsd, hfl, hdrop, List.head?_cons, true_or, if_true, hadj, hbase, hbuf, hsend, hfile,
    S1.send_loop_all env port hsend, hpeer]
  rw [if_neg (by omega)]
  split
  · exact ⟨_, rfl⟩
  · exact ⟨_, rfl⟩

/-! ## The path under each node -/

theorem take4_ns (s : Bytes) : (str "~S1/" ++ s).take 4 = str "~S1/" := by
  have : (str "~S1/").length = 4 := by decide
  rw [← this, List.take_left]

theorem drop4_ns (s : Bytes) : (str "~S1/" ++ s).drop 4 = s := by
  have : (str "~S1/").length = 4 := by decide
  rw [← this, List.drop_left]

theorem S1.local_path_ns (home s : Bytes) (h : home.length + s.length + 4 < PATH_MAX) :
    S1.local_path home (str "~S1/" ++ s) = home ++ str "/S1/" ++ s := by
  unfold S1.local_path
  rw [if_pos (take4_ns s), drop4_ns, snprintf_eq_self]
  have : (str "/S1/").length = 4 := by decide
  simp only [List.length_append, this]
  omega

/-- C11: for a path `~S1/s` the gateway works under its own directory on `home/S1/s`
(`local_path` for Fetch, Remove and ListNames, `full_dest_path` for Store), and the command it
sends to the node S`n` for a forwarded Fetch, Remove or Store names `home/Sn/s`: the text
after the directory of the node is `s` in each case.  For Store `s` is the directory of
the destination, and the node joins the file name to it (`full_path`). -/
theorem C11_path_rewriting (env : Env) (home s : Bytes)
    (hpv : env.portsValid) (hhome : getenv_HOME env = some home)
    (hhl : home.length + 260 < PATH_MAX) (hsl : s.length < 252) :
    S1.local_path home (str "~S1/" ++ s) = home ++ str "/S1/" ++ s ∧
    S1.full_dest_path home (str "~S1/" ++ s) = home ++ str "/S1/" ++ s ∧
    (∀ (st : S1.State) (ext sdir : Bytes) (port : Nat) (fsN : FS) (reply : List Bytes),
      strrchr (home ++ str "/S1/" ++ s) 46 = some ext →
      ((ext = str ".pdf" ∧ sdir = str "S2" ∧ port = env.PORT_S2) ∨
        (ext = str ".txt" ∧ sdir = str "S3" ∧ port = env.PORT_S3) ∨
        (ext = str ".zip" ∧ sdir = str "S4" ∧ port = env.PORT_S4)) →
      env.listening port = true → env.sendOk port 0 = true →
      S1.peerAt env port st.fs
        (delivered [str "downlf " ++ (home ++ str "/" ++ sdir ++ str "/" ++ s)])
          = some (fsN, reply) →
      ∃ st1, S1.downlf env (str "~S1/" ++ s) st = some st1 ∧
        st1.conns = st.conns ++
          [(port, [str "downlf " ++ (home ++ str "/" ++ sdir ++ str "/" ++ s)])]) ∧
    (∀ (st : S1.State) (ext sdir : Bytes) (port : Nat) (fsN : FS) (reply : List Bytes),
      strrchr (home ++ str "/S1/" ++ s) 46 = some ext →
      ((ext = str ".pdf" ∧ sdir = str "S2" ∧ port = env.PORT_S2) ∨
        (ext = str ".txt" ∧ sdir = str "S3" ∧ port = env.PORT_S3)) →
      env.listening port = true → env.sendOk port 0 = true →
      S1.peerAt env port st.fs
        (delivered [str "removef " ++ (home ++ str "/" ++ sdir ++ str "/" ++ s)])
          = some (fsN, reply) →
      ∃ st1, S1.removef env (str "~S1/" ++ s) st = some st1 ∧
        st1.conns = st.conns ++
          [(port, [str "removef " ++ (home ++ str "/" ++ sdir ++ str "/" ++ s)])]) ∧
    (∀ (st : S1.State) (f ext sdir b : Bytes) (port : Nat) (fs1 fs3 fsN : FS)
        (reply : List Bytes),
      isToken f = true → isToken (str "~S1/" ++ s) = true → f.length + s.length < 251 →
      strrchr f 46 = some ext →
      ((ext = str ".pdf" ∧ sdir = str "S2" ∧ port = env.PORT_S2) ∨
        (ext = str ".txt" ∧ sdir = str "S3" ∧ port = env.PORT_S3) ∨
        (ext = str ".zip" ∧ sdir = str "S4" ∧ port = env.PORT_S4)) →
      (∀ e ∈ st.inp, e ≠ Event.error) → dataOf st.inp ≠ [] →
      (dataOf st.inp).length < 2 ^ 64 →
      create_directories st.fs (dirname (S1.store_path home (str "~S1/" ++ s) f)) = some fs1 →
      fopen_wb (remove_ fs1 (S1.store_path home (str "~S1/" ++ s) f))
        (S1.store_path home (str "~S1/" ++ s) f) = Except.ok fs3 →
      (∀ i, env.fwriteOk 1 i = true) →
      env.listening port = true → (∀ i, env.sendOk port i = true) →
      fopen_rb (fwrite fs3 (S1.store_path home (str "~S1/" ++ s) f) (dataOf st.inp))
        (S1.store_path home (str "~S1/" ++ s) f) = some b →
      S1.peerAt env port (fwrite fs3 (S1.store_path home (str "~S1/" ++ s) f) (dataOf st.inp))
        (delivered ((str "uploadf " ++ (basename f).1 ++ str " " ++
          (home ++ str "/" ++ sdir ++ str "/" ++ s)) :: fread_all b)) = some (fsN, reply) →
      ∃ st1, S1.uploadf env (str "uploadf " ++ f ++ str " " ++ (str "~S1/" ++ s)) st
          = some st1 ∧
        st1.conns = st.conns ++
          [(port, (str "uploadf " ++ (basename f).1 ++ str " " ++
            (home ++ str "/" ++ sdir ++ str "/" ++ s)) :: fread_all b)]) := by
  have hPM : PATH_MAX = 4096 := rfl
  have hsl1 : str "/" = [47] := by decide
  have hS1 : str "/S1/" = str "/S1" ++ [47] := by decide
  have hlp := S1.local_path_ns home s (by omega)
  have hne : str "~S1/" ++ s ≠ [] := by simp [str]
  have hplen : (str "~S1/" ++ s).length = s.length + 4 := by
    have : (str "~S1/").length = 4 := by decide
    simp only [List.length_append, this]
    omega
  refine ⟨hlp, ?_, ?_, ?_, ?_⟩
  · unfold S1.full_dest_path
    rw [drop4_ns, snprintf_eq_self]
    have : (str "/S1/").length = 4 := by decide
    simp only [List.length_append, this]
    omega
  · intro st ext sdir port fsN reply hext hnode hup hsend hpeer
    have hlp1 : S1.local_path home (str "~S1/" ++ s) = home ++ str "/S1" ++ 47 :: s := by
      rw [hlp, hS1]; simp
    have hcmd : str "downlf " ++ (home ++ str "/" ++ sdir ++ str "/" ++ s)
        = str "downlf" ++ 32 :: (home ++ str "/" ++ sdir ++ 47 :: s) := by
      rw [str_downlf_cmd, hsl1]; simp
    rw [hcmd] at hpeer ⊢
    obtain ⟨l, hl⟩ := S1.downlf_forward env st home (str "~S1/" ++ s) ext sdir (47 :: s) port
      fsN reply hpv hhome hne hlp1 (by simp only [List.length_cons]; omega)
      (by rw [hlp]; exact hext) hnode hup hsend hpeer
    exact ⟨_, hl, rfl⟩
  · intro st ext sdir port fsN reply hext hnode hup hsend hpeer
    obtain ⟨msg, hm⟩ := S1.removef_forward env st home (str "~S1/" ++ s) ext sdir port fsN
      reply hpv hhome hhl (by omega) (by rw [hlp]; exact hext) hnode hup hsend
      (by rw [drop4_ns]; exact hpeer)
    rw [drop4_ns] at hm
    exact ⟨_, hm, rfl⟩
  · intro st f ext sdir b port fs1 fs3 fsN reply hf hd hlen hext hnode hne1 hb hb64 hdirs
      hopen hwrite hup hsend hfile hpeer
    obtain ⟨hc, hr, hr47, hrr, hport, _, hp0, hsd, hs2, _, _⟩ :=
      S1.node_facts env hpv ext sdir port hnode
    obtain ⟨_, hbtok, hbl, _, hb47⟩ := basename_ext f ext hf hext hr hr47 hrr
    have hfd : S1.forward_dir home sdir (str "~S1/" ++ s)
        = home ++ str "/" ++ sdir ++ str "/" ++ s := by
      unfold S1.forward_dir
      rw [drop4_ns, hsl1]; simp
    have hcmd : str "uploadf " ++ (basename f).1 ++ str " " ++
          (home ++ str "/" ++ sdir ++ str "/" ++ s)
        = str "uploadf" ++ 32 :: ((basename f).1 ++ 32 ::
          S1.forward_dir home sdir (str "~S1/" ++ s)) := by
      rw [str_uploadf_cmd, hfd]
    rw [hcmd] at hpeer ⊢
    rw [str_uploadf_cmd, S1.uploadf_received env st home f (str "~S1/" ++ s) ext fs1 fs3 hhome
      hf hd hext hr hr47 hrr (take4_ns s) (by omega) hne1 hb hb64 hdirs hopen hwrite,
      if_neg hc, hport, if_pos hp0]
    obtain ⟨msg, hm⟩ := S1.transfer_sends env
      { st with
        fs := fwrite fs3 (S1.store_path home (str "~S1/" ++ s) f) (dataOf st.inp), inp := [] }
      home f (str "~S1/" ++ s) sdir b port fsN reply hhome (by omega) (take4_ns s) (by omega)
      (isToken_ne_nil hbtok) hb47 hbl hsd hs2 hup hsend hfile hpeer
    exact ⟨_, hm, rfl⟩

theorem C11_path_rewriting_witness :
    (∃ st1, S1.downlf demoEnv (str "~S1/" ++ str "x/a.txt")
        { fs := demoTree [], inp := [], out := [], conns := [] } = some st1 ∧
      st1.conns = [] ++ [(5003, [str "downlf " ++
        (str "/home/u" ++ str "/" ++ str "S3" ++ str "/" ++ str "x/a.txt")])]) ∧
    (∃ st1, S1.removef demoEnv (str "~S1/" ++ str "x/a.txt")
        { fs := demoTree [], inp := [], out := [], conns := [] } = some st1 ∧
      st1.conns = [] ++ [(5003, [str "removef " ++
        (str "/home/u" ++ str "/" ++ str "S3" ++ str "/" ++ str "x/a.txt")])]) ∧
    (∃ st1, S1.uploadf demoEnv
        (str "uploadf " ++ str "a.txt" ++ str " " ++ (str "~S1/" ++ str "x")) demoState
          = some st1 ∧
      st1.conns = demoState.conns ++ [(5003, (str "uploadf " ++ (basename (str "a.txt")).1 ++
        str " " ++ (str "/home/u" ++ str "/" ++ str "S3" ++ str "/" ++ str "x")) ::
          fread_all [104, 105])]) :=
  ⟨(C11_path_rewriting demoEnv (str "/home/u") (str "x/a.txt")
      (by simp [Env.portsValid, demoEnv]) (by decide) (by decide) (by decide)).2.2.1
      { fs := demoTree [], inp := [], out := [], conns := [] } (str ".txt") (str "S3") 5003
      (demoTree []) [zero8, sendLit "Download failed: File not found" 32]
      (by decide) (Or.inr (Or.inl ⟨rfl, rfl, rfl⟩)) rfl rfl rfl,
   (C11_path_rewriting demoEnv (str "/home/u") (str "x/a.txt")
      (by simp [Env.portsValid, demoEnv]) (by decide) (by decide) (by decide)).2.2.2.1
      { fs := demoTree [], inp := [], out := [], conns := [] } (str ".txt") (str "S3") 5003
      (demoTree []) [sendLit "Remove failed: File not found" 29]
      (by decide) (Or.inr ⟨rfl, rfl, rfl⟩) rfl rfl rfl,
   (C11_path_rewriting demoEnv (str "/home/u") (str "x")
      (by simp [Env.portsValid, demoEnv]) (by decide) (by decide) (by decide)).2.2.2.2
      demoState (str "a.txt") (str ".txt") (str "S3") [104, 105] 5003
      (dirsMade [] demoCopy) demoCopyOpened (fwrite demoTargetOpened demoTarget [104, 105])
      [sendLit "Stored successfully" 20]
      (by decide) (by decide) (by decide) (by decide) (Or.inr (Or.inl ⟨rfl, rfl, rfl⟩))
      (by decide) (by decide) (by decide) rfl rfl (fun _ => rfl) rfl (fun _ => rfl) rfl rfl⟩

/-! ## Operands without the `~S1/` start -/

/-- A fetch treats an operand without `~S1/` as the path below the directory of S1: it is
handled as the operand with `~S1/` put before it. -/
theorem S1.downlf_lenient (env : Env) (p : Bytes) (st : S1.State) (hp : p ≠ [])
    (h4 : p.take 4 ≠ str "~S1/") :
    S1.downlf env p st = S1.downlf env (str "~S1/" ++ p) st := by
  have hp0 : p.length ≠ 0 := fun h => hp (List.length_eq_zero.1 h)
  have hq0 : (str "~S1/" ++ p).length ≠ 0 := by simp [str]
  unfold S1.downlf
  simp only [hp0, hq0, if_false]
  cases hh : getenv_HOME env with
  | none => rfl
  | some home =>
    have hl1 : S1.local_path home p = S1.local_path home (str "~S1/" ++ p) := by
      unfold S1.local_path
      rw [if_neg h4, if_pos (take4_ns p), drop4_ns]
    simp only [hl1]

/-- C12 fails for Remove and ListNames of a forwarded type.  The removal of `docs/a.txt`
names `/home/u/S3//a.txt` to S3 (the operand less its first four bytes), the file
`/home/u/S3/docs/a.txt` stays and the answer is `File not found`, while the removal of
`~S1/docs/a.txt` names `/home/u/S3/docs/a.txt` and removes it.  In the same way the
listing of `docs` asks the nodes for their whole directory, the listing of `~S1/docs` for
`docs` below it. -/
theorem C12_lenient_operand_cut :
    (S1.prcclient demoEnv demoDocs (delivered [str "removef docs/a.txt"])).map
        (fun st => (st.out, st.conns, stat st.fs (str "/home/u/S3/docs/a.txt")))
      = some ([str "Remove failed: File not found"],
          [(5003, [str "removef /home/u/S3//a.txt"])], some (Node.file [1] true true)) ∧
    (S1.prcclient demoEnv demoDocs (delivered [str "removef ~S1/docs/a.txt"])).map
        (fun st => (st.out, st.conns, stat st.fs (str "/home/u/S3/docs/a.txt")))
      = some ([str "File removed successfully"],
          [(5003, [str "removef /home/u/S3/docs/a.txt"])], none) ∧
    (S1.prcclient demoEnv demoDocs (delivered [str "dispfnames docs"])).map
        (fun st => st.conns)
      = some [(5002, [str "dispfnames /home/u/S2/ .pdf"]),
          (5003, [str "dispfnames /home/u/S3/ .txt"]),
          (5004, [str "dispfnames /home/u/S4/ .zip"])] ∧
    (S1.prcclient demoEnv demoDocs (delivered [str "dispfnames ~S1/docs"])).map
        (fun st => st.conns)
      = some [(5002, [str "dispfnames /home/u/S2/docs .pdf"]),
          (5003, [str "dispfnames /home/u/S3/docs .txt"]),
          (5004, [str "dispfnames /home/u/S4/docs .zip"])] := by
  refine ⟨rfl, rfl, rfl, rfl⟩

/-! ## Stores that are refused -/

/-- A store whose destination does not start with `~S1/` is refused at once: the worker
keeps its file system and opens no connection. -/
theorem S1.uploadf_bad_destination (env : Env) (st : S1.State) (f d : Bytes)
    (hf : isToken f = true) (hd : isToken d = true) (hlen : f.length + d.length < 255)
    (h4 : d.take 4 ≠ str "~S1/") :
    S1.uploadf env (str "uploadf" ++ 32 :: (f ++ 32 :: d)) st =
      some { fs := st.fs, inp := st.inp, conns := st.conns,
             out := st.out ++
               [sendLit "Upload failed: Destination path must start with ~S1/" 51] } := by
  have hflen : ¬ (256 ≤ f.length ∨ PATH_MAX ≤ d.length) := by
    have : PATH_MAX = 4096 := rfl
    omega
  unfold S1.uploadf
  rw [sscanf_two_tokens _ f d str_uploadf_token hf hd]
  simp only [hflen, if_false, ne_eq, h4, not_false_eq_true, if_true]
  rfl

/-- C13 fails for the file type: the type is looked at after the content was written.
A store of `a.xyz` under `~S1/newdir` is answered `Unsupported file type` and opens no
connection, but the directory `/home/u/S1/newdir`, which did not exist, is there afterwards;
and a store of `a.xyz` under `~S1/x`, where a file `a.xyz` was kept, is answered in the same
way and the file is gone afterwards. -/
theorem C13_unsupported_type_after_write :
    stat (demoTree []) (str "/home/u/S1/newdir") = none ∧
    (S1.prcclient demoEnv (demoTree [])
        (delivered [str "uploadf a.xyz ~S1/newdir", [104, 105]])).map
        (fun st => (st.out, st.conns, stat st.fs (str "/home/u/S1/newdir")))
      = some ([str "Upload failed: Unsupported file type" ++ [0]], [],
          some (Node.dir true)) ∧
    stat demoXyz (str "/home/u/S1/x/a.xyz") = some (Node.file [9] true true) ∧
    (S1.prcclient demoEnv demoXyz (delivered [str "uploadf a.xyz ~S1/x", [104, 105]])).map
        (fun st => (st.out, st.conns, stat st.fs (str "/home/u/S1/x/a.xyz")))
      = some ([str "Upload failed: Unsupported file type" ++ [0]], [], none) := by
  refine ⟨rfl, rfl, rfl, rfl⟩

/-! ## Listings: the blocks in order -/

/-- One round of the loop over the nodes adds the block of the node to the list, cut to the
room that is left. -/
theorem S1.dispfnames_node_heard (env : Env) (home p : Bytes) (n port : Nat) (ft : Bytes)
    (st : S1.State) (file_list : Bytes) (fs1 : FS) (a : Option Bytes)
    (h : S1.heard env port (S1.disp_cmd home p n ft) st.fs fs1 a) :
    S1.dispfnames_node env home p n port ft st file_list =
      some ({ st with
              fs := fs1, conns := st.conns ++ [(port, S1.asked (S1.disp_cmd home p n ft) a)] },
        S1.strncat_list file_list (S1.contribution a)) := by
  cases a with
  | none =>
    obtain ⟨h1, h2⟩ := h
    subst h2
    unfold S1.dispfnames_node
    simp [S1.connect_to_server, h1, S1.contribution, S1.asked, S1.strncat_list]
  | some r =>
    obtain ⟨h1, h2, h3, h4, h5, rest, h6⟩ := h
    have hrecv : recv (BUFFER_SIZE - 1) (delivered (r :: rest))
        = (Recv.data r, delivered rest) := by
      simp only [delivered, List.map_cons]
      exact recv_head _ r _ h3 h4
    have h6a : S1.peerAt env port st.fs (delivered [snprintf BUFFER_SIZE (str "dispfnames " ++
        snprintf PATH_MAX (home ++ str "/S" ++ (Nat.toDigits 10 n).map Char.toNat ++ str "/"
          ++ p.drop 4) ++ str " " ++ ft)]) = some (fs1, r :: rest) := h6
    unfold S1.dispfnames_node
    simp only [S1.connect_to_server, h1, Bool.not_true, Bool.false_eq_true, if_false, h2,
      if_true, h6a, hrecv, cstr_eq_self r h5, S1.contribution, S1.asked, S1.strncat_list]
    by_cases hs : r = str "No files found"
    · simp [hs, S1.disp_cmd]
    · simp [hs, S1.disp_cmd]

/-- The listing of an existing directory: the local block and what the nodes contribute are
put together by `strncat` in the order of the loop, each cut to the room left in the list
buffer. -/
theorem S1.dispfnames_cut (env : Env) (st : S1.State) (home p : Bytes)
    (fs2 fs3 fs4 : FS) (a2 a3 a4 : Option Bytes) (w : Bool)
    (hhome : getenv_HOME env = some home) (hp : p ≠ [])
    (hdir : stat st.fs (S1.local_path home p) = some (Node.dir w))
    (h2 : S1.heard env env.PORT_S2 (S1.disp_cmd home p 2 (str ".pdf")) st.fs fs2 a2)
    (h3 : S1.heard env env.PORT_S3 (S1.disp_cmd home p 3 (str ".txt")) fs2 fs3 a3)
    (h4 : S1.heard env env.PORT_S4 (S1.disp_cmd home p 4 (str ".zip")) fs3 fs4 a4) :
    S1.dispfnames env p st = some
      { fs := fs4, inp := st.inp,
        out := st.out ++
          [if S1.strncat_list (S1.strncat_list (S1.strncat_list (S1.strncat_list []
              (listNames BUFFER_SIZE env st.fs (S1.local_path home p) (str ".c")))
              (S1.contribution a2))
              (S1.contribution a3)) (S1.contribution a4) = [] then str "No files found"
           else S1.strncat_list (S1.strncat_list (S1.strncat_list (S1.strncat_list []
              (listNames BUFFER_SIZE env st.fs (S1.local_path home p) (str ".c")))
              (S1.contribution a2))
              (S1.contribution a3)) (S1.contribution a4)],
        conns := st.conns ++
          [(env.PORT_S2, S1.asked (S1.disp_cmd home p 2 (str ".pdf")) a2),
           (env.PORT_S3, S1.asked (S1.disp_cmd home p 3 (str ".txt")) a3),
           (env.PORT_S4, S1.asked (S1.disp_cmd home p 4 (str ".zip")) a4)] } := by
  have hp0 : p.length ≠ 0 := fun h => hp (List.length_eq_zero.1 h)
  have e14 : sendLit "No files found" 14 = str "No files found" := by decide
  have t0 : (listNames BUFFER_SIZE env st.fs (S1.local_path home p) (str ".c")).take
        (BUFFER_SIZE - 1)
      = S1.strncat_list []
          (listNames BUFFER_SIZE env st.fs (S1.local_path home p) (str ".c")) := by
    simp [S1.strncat_list]
  generalize hL : S1.strncat_list []
      (listNames BUFFER_SIZE env st.fs (S1.local_path home p) (str ".c"))
    = L at t0 ⊢
  have r2 := S1.dispfnames_node_heard env home p 2 env.PORT_S2 (str ".pdf") st L fs2 a2 h2
  have r3 := S1.dispfnames_node_heard env home p 3 env.PORT_S3 (str ".txt")
    { st with
      fs := fs2,
      conns := st.conns ++ [(env.PORT_S2, S1.asked (S1.disp_cmd home p 2 (str ".pdf")) a2)] }
    (S1.strncat_list L (S1.contribution a2)) fs3 a3 h3
  have r4 := S1.dispfnames_node_heard env home p 4 env.PORT_S4 (str ".zip")
    { st with
      fs := fs3,
      conns := st.conns ++ [(env.PORT_S2, S1.asked (S1.disp_cmd home p 2 (str ".pdf")) a2)]
        ++ [(env.PORT_S3, S1.asked (S1.disp_cmd home p 3 (str ".txt")) a3)] }
    (S1.strncat_list (S1.strncat_list L (S1.contribution a2)) (S1.contribution a3)) fs4 a4 h4
  dsimp only at r3 r4
  unfold S1.dispfnames
  simp only [hp0, if_false, hhome, hdir, t0, r2, e14]
  simp only [r3]
  simp only [r4]
  simp only [S1.State.send]
  generalize S1.strncat_list (S1.strncat_list (S1.strncat_list L (S1.contribution a2))
    (S1.contribution a3)) (S1.contribution a4) = all
  by_cases hall : all = []
  · rw [if_pos (by rw [hall]; rfl), if_pos hall]
    simp
  · have : all.length ≠ 0 := fun h => hall (List.length_eq_zero.1 h)
    rw [if_neg this, if_neg hall]
    simp

theorem S1.strncat_list_fit (file_list current_list : Bytes)
    (h : file_list.length + current_list.length ≤ BUFFER_SIZE - 1) :
    S1.strncat_list file_list current_list = file_list ++ current_list := by
  unfold S1.strncat_list
  rw [List.take_of_length_le (by omega)]

/-- Blocks that fit the list buffer together are put together whole. -/
theorem S1.strncat_list_all (l c2 c3 c4 : Bytes)
    (h : (l ++ c2 ++ c3 ++ c4).length ≤ BUFFER_SIZE - 1) :
    S1.strncat_list (S1.strncat_list (S1.strncat_list (S1.strncat_list [] l) c2) c3) c4
      = l ++ c2 ++ c3 ++ c4 := by
  simp only [List.length_append] at h
  rw [S1.strncat_list_fit [] l (by simp only [List.length_nil]; omega), List.nil_append,
    S1.strncat_list_fit l c2 (by omega),
    S1.strncat_list_fit (l ++ c2) c3 (by simp only [List.length_append]; omega),
    S1.strncat_list_fit (l ++ c2 ++ c3) c4 (by simp only [List.length_append]; omega)]

/-- C14: a listing of an existing directory is the local block followed by the blocks of S2,
S3 and S4 in this order, where a node that cannot be reached or that answers
`No files found` adds nothing; when that makes no byte at all, the answer is
`No files found`.  The blocks together fit the list buffer (at most 8191 bytes).  The
nodes are asked in the order S2, S3, S4. -/
theorem C14_listing_blocks (env : Env) (st : S1.State) (home p : Bytes)
    (fs2 fs3 fs4 : FS) (a2 a3 a4 : Option Bytes) (w : Bool)
    (hhome : getenv_HOME env = some home) (hp : p ≠ [])
    (hdir : stat st.fs (S1.local_path home p) = some (Node.dir w))
    (h2 : S1.heard env env.PORT_S2 (S1.disp_cmd home p 2 (str ".pdf")) st.fs fs2 a2)
    (h3 : S1.heard env env.PORT_S3 (S1.disp_cmd home p 3 (str ".txt")) fs2 fs3 a3)
    (h4 : S1.heard env env.PORT_S4 (S1.disp_cmd home p 4 (str ".zip")) fs3 fs4 a4)
    (hfit : (listNames BUFFER_SIZE env st.fs (S1.local_path home p) (str ".c") ++
      S1.contribution a2 ++
      S1.contribution a3 ++ S1.contribution a4).length ≤ BUFFER_SIZE - 1) :
    S1.dispfnames env p st = some
      { fs := fs4, inp := st.inp,
        out := st.out ++
          [if listNames BUFFER_SIZE env st.fs (S1.local_path home p) (str ".c") ++
              S1.contribution a2 ++
              S1.contribution a3 ++ S1.contribution a4 = [] then str "No files found"
           else listNames BUFFER_SIZE env st.fs (S1.local_path home p) (str ".c") ++
              S1.contribution a2 ++
              S1.contribution a3 ++ S1.contribution a4],
        conns := st.conns ++
          [(env.PORT_S2, S1.asked (S1.disp_cmd home p 2 (str ".pdf")) a2),
           (env.PORT_S3, S1.asked (S1.disp_cmd home p 3 (str ".txt")) a3),
           (env.PORT_S4, S1.asked (S1.disp_cmd home p 4 (str ".zip")) a4)] } := by
  rw [S1.dispfnames_cut env st home p fs2 fs3 fs4 a2 a3 a4 w hhome hp hdir h2 h3 h4,
    S1.strncat_list_all _ _ _ _ hfit]

theorem C14_listing_blocks_witness :
    S1.dispfnames posixEnvS2Down (str "~S1/d")
        { fs := demoNested, inp := [], out := [], conns := [] } = some
      { fs := demoNested, inp := [],
        out := [] ++
          [if listNames BUFFER_SIZE posixEnvS2Down demoNested
                (S1.local_path (str "/home/u") (str "~S1/d")) (str ".c") ++
              S1.contribution none ++ S1.contribution (some (str "n.txt\nm.txt\n")) ++
              S1.contribution (some (str "No files found")) = [] then str "No files found"
           else listNames BUFFER_SIZE posixEnvS2Down demoNested
                (S1.local_path (str "/home/u") (str "~S1/d")) (str ".c") ++
              S1.contribution none ++ S1.contribution (some (str "n.txt\nm.txt\n")) ++
              S1.contribution (some (str "No files found"))],
        conns := [] ++
          [(posixEnvS2Down.PORT_S2,
              S1.asked (S1.disp_cmd (str "/home/u") (str "~S1/d") 2 (str ".pdf")) none),
           (posixEnvS2Down.PORT_S3,
              S1.asked (S1.disp_cmd (str "/home/u") (str "~S1/d") 3 (str ".txt"))
                (some (str "n.txt\nm.txt\n"))),
           (posixEnvS2Down.PORT_S4,
              S1.asked (S1.disp_cmd (str "/home/u") (str "~S1/d") 4 (str ".zip"))
                (some (str "No files found")))] } :=
  C14_listing_blocks posixEnvS2Down { fs := demoNested, inp := [], out := [], conns := [] }
    (str "/home/u") (str "~S1/d") demoNested demoNested demoNested
    none (some (str "n.txt\nm.txt\n")) (some (str "No files found")) true
    (by decide) (by decide) rfl ⟨rfl, rfl⟩
    ⟨rfl, rfl, by decide, by decide, by decide, [], rfl⟩
    ⟨rfl, rfl, by decide, by decide, by decide, [], rfl⟩
    (by decide)

/-! ## Listings: order -/

/-- C15 fails for a directory with a subdirectory: `sort` orders the paths that `find`
prints, and the names are cut out of the paths afterwards.  In `demoNested` the gateway has
`d/b.c` and `d/sub/a.c`, and S3 has `d/n.txt` and `d/sub/m.txt`; the listing of `~S1/d` is
`b.c`, `a.c`, `n.txt`, `m.txt`, and so is the block that S3 sends: `b.c` stands before `a.c`
and `n.txt` before `m.txt`. -/
theorem C15_names_in_path_order :
    (S1.prcclient posixEnv demoNested (delivered [str "dispfnames ~S1/d"])).map
        (fun st => st.out) = some [str "b.c\na.c\nn.txt\nm.txt\n"] ∧
    (S3.main_conn posixEnv demoNested (delivered [str "dispfnames /home/u/S3/d .txt"])).map
        Prod.snd = some [str "n.txt\nm.txt\n"] ∧
    find_sort demoNested (str "/home/u/S1/d") (str ".c")
      = str "/home/u/S1/d/b.c\n/home/u/S1/d/sub/a.c\n" ∧
    bytesLe (str "b.c") (str "a.c") = false ∧ bytesLe (str "n.txt") (str "m.txt") = false := by
  refine ⟨rfl, rfl, rfl, rfl, rfl⟩

/-! ## Bundles by type: failures -/

/-- C18 fails when the archive cannot be opened for reading: the size is sent before the
file is opened.  In `demoStaleTar` the archive path of the gateway holds a file that may be
written and not read; `downltar .c` lets the builder write the archive (3 bytes), and the
client gets the size 3, then 8 zero bytes and the reason.  The archive is removed. -/
theorem C18_size_before_archive_open :
    (S1.prcclient posixEnv demoStaleTar (delivered [str "downltar .c"])).map
        (fun st => (st.out, stat st.fs (str "/home/u/S1/temp/cfiles.tar")))
      = some ([htobe64 3, zero8, str "Download failed: Cannot open tar file on S1"], none) ∧
    htobe64 3 ≠ zero8 := by
  refine ⟨rfl, by decide⟩

/-- C19 fails for both cases it names: S3 answers a `downltar` for another type than `.txt`,
and one for which the archive builder fails (as it does in `demoEnv`), with the text of the
reason alone; no 8 zero bytes go before it.  Read as a size, the first 8 bytes of either
answer (`Download`) are the number 4931291433143329124, and 42 and 46 bytes follow.  The
gateway takes them for a size and tells its client `Transfer interrupted`. -/
theorem C19_S3_reason_without_frame :
    S3.main_conn demoEnv (demoTree []) (delivered [str "downltar .pdf"])
      = some (demoTree [], [str "Download failed: Invalid file type for this server"]) ∧
    (S3.main_conn demoEnv (demoTree []) (delivered [str "downltar .txt"])).map Prod.snd
      = some [str "Download failed: No files found or tar creation failed"] ∧
    (str "Download failed: Invalid file type for this server").take 8 ≠ zero8 ∧
    be64toh ((str "Download failed: Invalid file type for this server").take 8)
      = 4931291433143329124 ∧
    be64toh ((str "Download failed: No files found or tar creation failed").take 8)
      = 4931291433143329124 ∧
    (str "Download failed: Invalid file type for this server").length - 8 = 42 ∧
    (str "Download failed: No files found or tar creation failed").length - 8 = 46 ∧
    (S1.prcclient demoEnv (demoTree []) (delivered [str "downltar .txt"])).map
        (fun st => st.out) = some [zero8, str "Download failed: Transfer interrupted"] := by
  refine ⟨rfl, rfl, by decide, by decide, by decide, by decide, by decide, rfl⟩

/-! ## Lemmas: the archive path -/

theorem get_mkdir_other (fs : FS) (path : Bytes) (k : Key) (h : k ≠ normPath path) :
    FS.get (mkdir fs path) k = FS.get fs k := by
  unfold mkdir
  simp only []
  split
  · rfl
  · split
    · exact FS.get_set_other _ _ _ _ h
    · rfl

theorem get_foldl_mkdir (k : Key) :
    ∀ (l : List Bytes) (fs : FS), (∀ P ∈ l, k ≠ normPath P) →
      FS.get (l.foldl mkdir fs) k = FS.get fs k := by
  intro l
  induction l with
  | nil => intro fs _; rfl
  | cons P l ih =>
    intro fs h
    rw [List.foldl_cons, ih (mkdir fs P) (fun Q hQ => h Q (List.mem_cons_of_mem _ hQ)),
      get_mkdir_other fs P k (h P (List.mem_cons_self _ _))]

/-- Every string on which `create_directories` calls `mkdir` inside its loop is followed by
a slash in the path. -/
theorem slashCuts_spec :
    ∀ (rest done P : Bytes), P ∈ slashCuts done rest →
      ∃ suffix, done ++ rest = P ++ 47 :: suffix := by
  intro rest
  induction rest with
  | nil => intro done P h; simp [slashCuts] at h
  | cons c rest ih =>
    intro done P h
    by_cases hc : c = 47
    · subst hc
      simp only [slashCuts, if_true, List.mem_cons] at h
      rcases h with h | h
      · exact ⟨rest, by rw [h]⟩
      · obtain ⟨suffix, hs⟩ := ih (done ++ [47]) P h
        exact ⟨suffix, by rw [← hs]; simp⟩
    · simp only [slashCuts, hc, if_false] at h
      obtain ⟨suffix, hs⟩ := ih (done ++ [c]) P h
      exact ⟨suffix, by rw [← hs]; simp⟩

theorem normPath_no_dotdot (z : Bytes) (h : str ".." ∉ components z []) :
    normPath z = (components z []).filter (fun c => c ≠ str ".") := by
  unfold normPath
  rw [foldl_resolveStep_no_dotdot _ h]
  simp

theorem normPath_cut_length (P suffix : Bytes)
    (h : str ".." ∉ components (P ++ 47 :: suffix) []) :
    (normPath P).length ≤ (normPath (P ++ 47 :: suffix)).length := by
  have hc := components_append_slash P suffix []
  rw [hc] at h
  have hP : str ".." ∉ components P [] := fun hh => h (List.mem_append_left _ hh)
  rw [normPath_no_dotdot P hP, normPath_no_dotdot _ (by rw [hc]; exact h), hc,
    List.filter_append, List.length_append]
  omega

theorem normPath_child (x name : Bytes) (h : str ".." ∉ components x [])
    (hn : components name [] = [name]) (h1 : name ≠ str ".") (h2 : name ≠ str "..") :
    normPath (x ++ 47 :: name) = normPath x ++ [name] := by
  have hc := components_append_slash x name []
  have hall : str ".." ∉ components (x ++ 47 :: name) [] := by
    rw [hc, hn]
    intro hh
    rcases List.mem_append.1 hh with hh | hh
    · exact h hh
    · simp at hh
      exact h2 hh.symm
  rw [normPath_no_dotdot _ hall, normPath_no_dotdot x h, hc, hn, List.filter_append]
  simp [h1]

theorem stripSlashes_slash (x : Bytes) : stripSlashes (x ++ [47]) = stripSlashes x := by
  simp [stripSlashes]

/-- The call `dirname` on a path that ends in a name after a slash. -/
theorem dirname_child (x name : Bytes) (hx : x ≠ []) (hxs : stripSlashes x = x)
    (hn : name ≠ []) (h47 : 47 ∉ name) : dirname (x ++ 47 :: name) = x := by
  have e : x ++ 47 :: name = (x ++ [47]) ++ name := by simp
  have hs : stripSlashes (x ++ 47 :: name) = x ++ 47 :: name := by
    rw [e]; exact stripSlashes_append _ _ hn h47
  have hl : lastSegment (x ++ 47 :: name) = name := by
    rw [e, lastSegment_append _ _ h47, lastSegment_slash]; rfl
  have hne : x ++ 47 :: name ≠ [] := by simp
  have hmem : 47 ∈ x ++ 47 :: name := by simp
  have htake : (x ++ 47 :: name).take ((x ++ 47 :: name).length - name.length) = x ++ [47] := by
    rw [e]
    have : (x ++ [47] ++ name).length - name.length = (x ++ [47]).length := by
      simp only [List.length_append]; omega
    rw [this, List.take_left]
  unfold dirname
  simp only [hs, if_neg hne, hmem, not_true_eq_false, if_false, hl, htake, stripSlashes_slash,
    hxs, if_neg hx]

theorem S1.tar_path_eq (home t : Bytes) (hhl : home.length + 30 < PATH_MAX) :
    ∃ name, S1.tar_path home t = (home ++ str "/S1/temp") ++ 47 :: name ∧
      name ≠ [] ∧ 47 ∉ name ∧ components name [] = [name] ∧ name ≠ str "." ∧
      name ≠ str ".." := by
  have hPM : PATH_MAX = 4096 := rfl
  have e9 : str "/S1/temp/" = str "/S1/temp" ++ [47] := by decide
  have l8 : (str "/S1/temp").length = 8 := by decide
  have key : ∀ base : Bytes, base.length ≤ 9 →
      snprintf PATH_MAX (home ++ str "/S1/temp/" ++ base ++ str ".tar")
        = (home ++ str "/S1/temp") ++ 47 :: (base ++ str ".tar") := by
    intro base hb
    rw [snprintf_eq_self, e9]
    · simp
    · have : (str ".tar").length = 4 := by decide
      simp only [List.length_append, e9, l8, this, List.length_singleton]
      omega
  unfold S1.tar_path
  by_cases h1 : t = str ".c"
  · exact ⟨str "cfiles" ++ str ".tar", by rw [if_pos h1]; exact key _ (by decide), by decide,
      by decide, by decide, by decide, by decide⟩
  · by_cases h2 : t = str ".pdf"
    · exact ⟨str "pdffiles" ++ str ".tar",
        by rw [if_neg h1, if_pos h2]; exact key _ (by decide), by decide, by decide,
        by decide, by decide, by decide⟩
    · exact ⟨str "textfiles" ++ str ".tar",
        by rw [if_neg h1, if_neg h2]; exact key _ (by decide), by decide, by decide,
        by decide, by decide, by decide⟩

theorem S1.temp_dir_facts (home : Bytes) (hdots : str ".." ∉ components home []) :
    home ++ str "/S1/temp" ≠ [] ∧ stripSlashes (home ++ str "/S1/temp") = home ++ str "/S1/temp" ∧
      str ".." ∉ components (home ++ str "/S1/temp") [] := by
  refine ⟨by simp [str], ?_, ?_⟩
  · have e : home ++ str "/S1/temp" = (home ++ str "/S1/") ++ str "temp" := by
      have : str "/S1/temp" = str "/S1/" ++ str "temp" := by decide
      rw [this]; simp
    rw [e]
    exact stripSlashes_append _ _ (by decide) (by decide)
  · have e : home ++ str "/S1/temp" = home ++ 47 :: str "S1/temp" := by
      have : str "/S1/temp" = 47 :: str "S1/temp" := by decide
      rw [this]
    rw [e, components_append_slash]
    intro hh
    rcases List.mem_append.1 hh with hh | hh
    · exact hdots hh
    · revert hh
      decide

/-- The call `create_directories(dirname(tar_path))` results in `dirsMade`. -/
theorem S1.tar_dirs (fs : FS) (home t : Bytes) (hhl : home.length + 30 < PATH_MAX)
    (hdots : str ".." ∉ components home []) :
    create_directories fs (dirname (S1.tar_path home t))
      = some (dirsMade fs (S1.tar_path home t)) := by
  obtain ⟨name, htp, hn, h47, _, _, _⟩ := S1.tar_path_eq home t hhl
  obtain ⟨hx, hxs, _⟩ := S1.temp_dir_facts home hdots
  have hd : dirname (S1.tar_path home t) = home ++ str "/S1/temp" := by
    rw [htp]; exact dirname_child _ _ hx hxs hn h47
  unfold dirsMade
  rw [hd]
  have hPM : PATH_MAX = 4096 := rfl
  have hsn : snprintf PATH_MAX (home ++ str "/S1/temp") = home ++ str "/S1/temp" := by
    apply snprintf_eq_self
    have : (str "/S1/temp").length = 8 := by decide
    simp only [List.length_append, this]; omega
  unfold create_directories
  rw [hsn]
  cases hX : home ++ str "/S1/temp" with
  | nil => exact absurd hX hx
  | cons c rest => rfl

/-- The directories made for the archive leave the path of the archive as it was. -/
theorem S1.tar_absent_dirs (fs : FS) (home t : Bytes) (hhl : home.length + 30 < PATH_MAX)
    (hdots : str ".." ∉ components home []) :
    stat (dirsMade fs (S1.tar_path home t)) (S1.tar_path home t)
      = stat fs (S1.tar_path home t) := by
  obtain ⟨name, htp, hn, h47, hcn, hn1, hn2⟩ := S1.tar_path_eq home t hhl
  obtain ⟨hx, hxs, hxd⟩ := S1.temp_dir_facts home hdots
  have hd : dirname (S1.tar_path home t) = home ++ str "/S1/temp" := by
    rw [htp]; exact dirname_child _ _ hx hxs hn h47
  have hk : normPath (S1.tar_path home t) = normPath (home ++ str "/S1/temp") ++ [name] := by
    rw [htp]; exact normPath_child _ _ hxd hcn hn1 hn2
  have hPM : PATH_MAX = 4096 := rfl
  have hsn : snprintf PATH_MAX (home ++ str "/S1/temp") = home ++ str "/S1/temp" := by
    apply snprintf_eq_self
    have : (str "/S1/temp").length = 8 := by decide
    simp only [List.length_append, this]; omega
  have hlen : ∀ P : Bytes, (normPath P).length ≤ (normPath (home ++ str "/S1/temp")).length →
      normPath (S1.tar_path home t) ≠ normPath P := by
    intro P hP heq
    rw [hk] at heq
    have := congrArg List.length heq
    simp only [List.length_append, List.length_singleton] at this
    omega
  unfold dirsMade stat
  rw [hd]
  unfold create_directories
  rw [hsn]
  cases hX : home ++ str "/S1/temp" with
  | nil => exact absurd hX hx
  | cons c rest =>
    simp only [Option.getD_some]
    rw [get_mkdir_other _ _ _ (by rw [← hX]; exact hlen _ (Nat.le_refl _))]
    apply get_foldl_mkdir
    intro P hP
    obtain ⟨suffix, hs⟩ := slashCuts_spec rest [c] P hP
    have hs' : home ++ str "/S1/temp" = P ++ 47 :: suffix := by rw [hX]; exact hs
    apply hlen
    rw [hs']
    exact normPath_cut_length P suffix (by rw [← hs']; exact hxd)

/-! ## Lemmas: a file that was just made can be removed -/

theorem dropLast_ne_self {k : Key} (h : k ≠ []) : k.dropLast ≠ k := by
  intro heq
  have h1 := congrArg List.length heq
  have h2 : 0 < k.length := List.length_pos.2 h
  simp only [List.length_dropLast] at h1
  omega

theorem removableFile_iff (fs : FS) (path : Bytes) :
    removableFile fs path = true ↔
      (∃ d r w, FS.get fs (normPath path) = some (Node.file d r w)) ∧
        FS.parentWritable fs (normPath path) = true := by
  unfold removableFile
  constructor
  · intro h
    rw [Bool.and_eq_true] at h
    refine ⟨?_, h.2⟩
    have h1 := h.1
    split at h1
    · exact ⟨_, _, _, by assumption⟩
    · cases h1
  · rintro ⟨⟨d, r, w, hg⟩, hp⟩
    simp [hg, hp]

theorem fopen_wb_fresh {fs fs1 : FS} {path : Bytes} (habs : stat fs path = none)
    (h : fopen_wb fs path = Except.ok fs1) : removableFile fs1 path = true := by
  unfold stat at habs
  have hk : normPath path ≠ [] := by
    intro hk
    rw [hk, FS.get_nil_key] at habs
    cases habs
  unfold fopen_wb at h
  simp only [habs] at h
  rw [removableFile_iff]
  split at h
  · cases h
  · cases h
  · rename_i w hd
    by_cases hw : w = true
    · simp only [hw, if_true] at h
      injection h with h
      subst h
      refine ⟨⟨[], true, true, FS.get_set_self _ _ _ hk⟩, ?_⟩
      unfold FS.parentWritable
      rw [FS.get_set_other _ _ _ _ (dropLast_ne_self hk), hd, hw]
    · simp only [hw, if_false] at h
      cases h

theorem fwrite_removable {fs : FS} {path : Bytes} (data : Bytes)
    (h : removableFile fs path = true) : removableFile (fwrite fs path data) path = true := by
  rw [removableFile_iff] at h ⊢
  obtain ⟨⟨d, r, w, hg⟩, hp⟩ := h
  have hk := FS.key_ne_nil_of_file hg
  unfold fwrite
  simp only [hg]
  refine ⟨⟨_, _, _, FS.get_set_self _ _ _ hk⟩, ?_⟩
  unfold FS.parentWritable at hp ⊢
  rw [FS.get_set_other _ _ _ _ (dropLast_ne_self hk)]
  exact hp

theorem remove_removable {fs : FS} {path : Bytes} (h : removableFile fs path = true) :
    (remove fs path).isSome = true := by
  rw [removableFile_iff] at h
  obtain ⟨⟨d, r, w, hg⟩, hp⟩ := h
  have hk := FS.key_ne_nil_of_file hg
  unfold remove
  simp [hk, hg, hp]

/-- After `remove` on a path at which nothing is, or at which `remove` succeeds, nothing is
at the path. -/
theorem stat_remove_ {fs : FS} {path : Bytes}
    (h : stat fs path = none ∨ (remove fs path).isSome = true) :
    stat (remove_ fs path) path = none := by
  unfold remove_
  cases hr : remove fs path with
  | some fs1 => exact get_remove_self hr
  | none =>
    rcases h with h | h
    · exact h
    · rw [hr] at h
      cases h

theorem S1.send_tar_fs (tar_path : Bytes) (st : S1.State) :
    (S1.send_tar tar_path st).fs = remove_ st.fs tar_path := by
  unfold S1.send_tar
  split
  · rfl
  · split <;> rfl

/-- The loop that saves the archive comes to an end and leaves a file that can be
removed. -/
theorem S1.save_loop_keeps (env : Env) (tp : Bytes) :
    ∀ (fuel : Nat) (fs : FS) (inp : Script) (size total i : Nat),
      weight inp < fuel → (∀ e ∈ inp, e ≠ Event.error) → removableFile fs tp = true →
      ∃ fs4 t, S1.save_loop env tp fuel fs inp size total i = some (fs4, t) ∧
        removableFile fs4 tp = true := by
  intro fuel
  induction fuel with
  | zero => intro fs inp size total i h; omega
  | succ fuel ih =>
    intro fs inp size total i hfuel hne hgood
    by_cases hlt : total < size
    · have hcap : 0 < min (size - total) BUFFER_SIZE := by
        have : 0 < BUFFER_SIZE := by decide
        omega
      rcases recv_spec _ hcap inp hne with ⟨h1, _⟩ | ⟨b, inp1, h1, _, _, _, h5, h6⟩
      · exact ⟨fs, total, by simp only [S1.save_loop, hlt, if_true, h1], hgood⟩
      · have hg1 : removableFile (if env.fwriteOk 1 i = true then fwrite fs tp b else fs) tp
            = true := by
          split
          · exact fwrite_removable b hgood
          · exact hgood
        obtain ⟨fs4, t, h4, hg4⟩ := ih _ inp1 size (total + b.length) (i + 1) (by omega) h6 hg1
        exact ⟨fs4, t, by simp only [S1.save_loop, hlt, if_true, h1, h4], hg4⟩
    · exact ⟨fs, total, by simp only [S1.save_loop, hlt, if_false], hgood⟩

/-! ## Bundles by type: the archive is removed -/

/-- C20: when nothing is at the archive path of the gateway for the filter before a
`downltar` request, nothing is there when the handler is done, whatever the outcome.
HOME is set and has no `..` component; what the archive builder leaves at the path can be
removed; a node that is asked for its archive handles the request and leaves the path of
the gateway alone. -/
theorem C20_archive_absent (env : Env) (st : S1.State) (home t : Bytes)
    (hhome : getenv_HOME env = some home) (hhl : home.length + 30 < PATH_MAX)
    (hdots : str ".." ∉ components home [])
    (habs : stat st.fs (S1.tar_path home t) = none)
    (hsys : t = str ".c" →
      stat (env.system (dirsMade st.fs (S1.tar_path home t))
          (S1.tar_cmd home (S1.tar_path home t))).2 (S1.tar_path home t) = none ∨
      (remove (env.system (dirsMade st.fs (S1.tar_path home t))
          (S1.tar_cmd home (S1.tar_path home t))).2 (S1.tar_path home t)).isSome = true)
    (hnode : t ≠ str ".c" → env.listening (S1.tar_port env t) = true →
      ∃ fs2 reply, S1.peerAt env (S1.tar_port env t) (dirsMade st.fs (S1.tar_path home t))
          (delivered (if env.sendOk (S1.tar_port env t) 0 = true
            then [snprintf BUFFER_SIZE (str "downltar " ++ t)] else []))
          = some (fs2, reply) ∧
        stat fs2 (S1.tar_path home t) = none) :
    ∃ st1, S1.downltar env t st = some st1 ∧ stat st1.fs (S1.tar_path home t) = none := by
  have htp : snprintf PATH_MAX (home ++ str "/S1/temp/" ++
      (if t = str ".c" then str "cfiles"
       else if t = str ".pdf" then str "pdffiles" else str "textfiles") ++ str ".tar")
      = S1.tar_path home t := rfl
  have hdirs := S1.tar_dirs st.fs home t hhl hdots
  have habs1 : stat (dirsMade st.fs (S1.tar_path home t)) (S1.tar_path home t) = none := by
    rw [S1.tar_absent_dirs st.fs home t hhl hdots]; exact habs
  unfold S1.downltar
  by_cases h0 : t.length = 0
  · rw [if_pos h0]
    exact ⟨_, rfl, habs⟩
  by_cases hv : t ≠ str ".c" ∧ t ≠ str ".pdf" ∧ t ≠ str ".txt"
  · rw [if_neg h0, if_pos hv]
    exact ⟨_, rfl, habs⟩
  simp only [h0, hv, if_false, hhome, htp, hdirs]
  by_cases hc : t = str ".c"
  · have hcmd : snprintf BUFFER_SIZE
        (str "cd " ++ home ++ str "/S1 && find * -type f -name '*.c' | tar -cf "
          ++ S1.tar_path home t ++ str " -T -") = S1.tar_cmd home (S1.tar_path home t) := rfl
    simp only [hc, if_true]
    rw [← hc, hcmd]
    have hs := hsys hc
    rcases hsr : env.system (dirsMade st.fs (S1.tar_path home t))
      (S1.tar_cmd home (S1.tar_path home t)) with ⟨ret, fs2⟩
    rw [hsr] at hs
    simp only [] at hs
    have hsr1 : (env.system (dirsMade st.fs (S1.tar_path home t))
        (S1.tar_cmd home (S1.tar_path home t))).1 = ret := by rw [hsr]
    have hsr2 : (env.system (dirsMade st.fs (S1.tar_path home t))
        (S1.tar_cmd home (S1.tar_path home t))).2 = fs2 := by rw [hsr]
    simp only [hsr1, hsr2]
    by_cases hret : ret ≠ 0
    · rw [if_pos hret]
      exact ⟨_, rfl, stat_remove_ hs⟩
    · rw [if_neg hret]
      refine ⟨_, rfl, ?_⟩
      rw [S1.send_tar_fs]
      exact stat_remove_ hs
  · have hport : (if t = str ".pdf" then env.PORT_S2 else env.PORT_S3) = S1.tar_port env t :=
      rfl
    simp only [hc, if_false, hport]
    by_cases hup : env.listening (S1.tar_port env t) = true
    · obtain ⟨fs2, reply, hpeer, habs2⟩ := hnode hc hup
      simp only [S1.connect_to_server, hup, Bool.not_true, Bool.false_eq_true, if_false, hpeer]
      have hrest := receive_full_loop_no_error 8 (delivered reply) 8 []
        (no_error_delivered reply)
      unfold receive_full
      rcases hrf : receive_full_loop 8 (delivered reply) 8 [] with ⟨o, rest⟩
      rw [hrf] at hrest
      cases o with
      | none => exact ⟨_, rfl, habs2⟩
      | some hdr =>
        simp only []
        by_cases hz : be64toh hdr = 0
        · simp only [hz, if_true]
          split
          · exact ⟨_, rfl, habs2⟩
          · exact ⟨_, rfl, habs2⟩
        · simp only [hz, if_false]
          cases hop : fopen_wb fs2 (S1.tar_path home t) with
          | error e => exact ⟨_, rfl, habs2⟩
          | ok fs3 =>
            simp only []
            obtain ⟨fs4, total, hsl, hg4⟩ := S1.save_loop_keeps env (S1.tar_path home t)
              (weight rest + 1) fs3 rest (be64toh hdr) 0 0 (by omega) hrest
              (fopen_wb_fresh habs2 hop)
            simp only [hsl]
            by_cases htot : total ≠ be64toh hdr
            · rw [if_pos htot]
              exact ⟨_, rfl, stat_remove_ (Or.inr (remove_removable hg4))⟩
            · rw [if_neg htot]
              refine ⟨_, rfl, ?_⟩
              rw [S1.send_tar_fs]
              exact stat_remove_ (Or.inr (remove_removable hg4))
    · have hup' : env.listening (S1.tar_port env t) = false := by
        cases h : env.listening (S1.tar_port env t)
        · rfl
        · exact absurd h hup
      simp only [S1.connect_to_server, hup', Bool.not_false, if_true]
      exact ⟨_, rfl, habs1⟩

theorem C20_archive_absent_witness :
    ∃ st1, S1.downltar posixEnv (str ".c")
        { fs := demoTree [], inp := [], out := [], conns := [] } = some st1 ∧
      stat st1.fs (S1.tar_path (str "/home/u") (str ".c")) = none :=
  C20_archive_absent posixEnv { fs := demoTree [], inp := [], out := [], conns := [] }
    (str "/home/u") (str ".c") (by decide) (by decide) (by decide) rfl
    (fun _ => Or.inr rfl) (fun h => absurd rfl h)

/-! ## Lemmas: a listing that fits -/

/-- What one `recv` does on any script. -/
theorem recv_cases (cap : Nat) (hcap : 0 < cap) (inp : Script) :
    ((recv cap inp).1 = Recv.closed ∧ dataBefore inp = []) ∨
    ((recv cap inp).1 = Recv.error ∧ dataBefore inp = []) ∨
    ∃ b inp1, recv cap inp = (Recv.data b, inp1) ∧ b ≠ [] ∧ b.length ≤ cap ∧
      dataBefore inp = b ++ dataBefore inp1 ∧ dataOf inp = b ++ dataOf inp1 ∧
      weight inp1 < weight inp := by
  induction inp with
  | nil => left; exact ⟨rfl, rfl⟩
  | cons e rest ih =>
    cases e with
    | error => right; left; exact ⟨rfl, rfl⟩
    | data bytes =>
      by_cases hb : bytes = []
      · subst hb
        rcases ih with ⟨h1, h2⟩ | ⟨h1, h2⟩ | ⟨b, inp1, h1, h2, h3, h4, h5, h6⟩
        · left
          exact ⟨by simpa [recv] using h1, by simpa [dataBefore] using h2⟩
        · right; left
          exact ⟨by simpa [recv] using h1, by simpa [dataBefore] using h2⟩
        · right; right
          refine ⟨b, inp1, by simp [recv, h1], h2, h3, by simp [dataBefore, h4],
            by simp [dataOf, h5], ?_⟩
          simp only [weight]; omega
      · right; right
        by_cases hl : bytes.length ≤ cap
        · refine ⟨bytes, rest, by simp [recv, hb, hl], hb, hl, rfl, rfl, ?_⟩
          simp only [weight]; omega
        · refine ⟨bytes.take cap, Event.data (bytes.drop cap) :: rest, by simp [recv, hb, hl],
            ?_, ?_, ?_, ?_, ?_⟩
          · intro h
            have := congrArg List.length h
            simp only [List.length_take, List.length_nil] at this
            omega
          · simp only [List.length_take]; omega
          · simp only [dataBefore]
            rw [← List.append_assoc, List.take_append_drop]
          · simp only [dataOf]
            rw [← List.append_assoc, List.take_append_drop]
          · simp only [weight, List.length_drop]; omega

/-- The loop of `receive_full` with enough rounds: it succeeds exactly when the bytes that
arrive before a failure or the end are enough, takes the first of them, and leaves the
rest to arrive. -/
theorem receive_full_loop_spec :
    ∀ (fuel : Nat) (inp : Script) (remaining : Nat) (buf : Bytes), remaining ≤ fuel →
      (remaining ≤ (dataBefore inp).length →
        (receive_full_loop fuel inp remaining buf).1
            = some (buf ++ (dataBefore inp).take remaining) ∧
          dataBefore (receive_full_loop fuel inp remaining buf).2
            = (dataBefore inp).drop remaining ∧
          dataOf (receive_full_loop fuel inp remaining buf).2 = (dataOf inp).drop remaining) ∧
      ((dataBefore inp).length < remaining →
        (receive_full_loop fuel inp remaining buf).1 = none) := by
  intro fuel
  induction fuel with
  | zero =>
    intro inp remaining buf h
    have h0 : remaining = 0 := by omega
    subst h0
    simp [receive_full_loop]
  | succ fuel ih =>
    intro inp remaining buf h
    by_cases h0 : remaining = 0
    · subst h0
      simp [receive_full_loop]
    · rcases recv_cases remaining (by omega) inp with ⟨h1, h2⟩ | ⟨h1, h2⟩ |
        ⟨b, inp1, h1, h2, h3, h4, h5, h6⟩
      · rcases hr : recv remaining inp with ⟨r, inp1⟩
        rw [hr] at h1
        simp only [] at h1
        subst h1
        refine ⟨fun hle => ?_, fun _ => ?_⟩
        · rw [h2] at hle
          simp at hle
          exact absurd hle h0
        · simp [receive_full_loop, h0, hr]
      · rcases hr : recv remaining inp with ⟨r, inp1⟩
        rw [hr] at h1
        simp only [] at h1
        subst h1
        refine ⟨fun hle => ?_, fun _ => ?_⟩
        · rw [h2] at hle
          simp at hle
          exact absurd hle h0
        · simp [receive_full_loop, h0, hr]
      · have hb1 : 0 < b.length := List.length_pos.2 h2
        obtain ⟨ih1, ih2⟩ := ih inp1 (remaining - b.length) (buf ++ b) (by omega)
        have hstep : receive_full_loop (fuel + 1) inp remaining buf
            = receive_full_loop fuel inp1 (remaining - b.length) (buf ++ b) := by
          simp only [receive_full_loop, h0, if_false, h1]
        rw [hstep, h4, h5]
        refine ⟨fun hle => ?_, fun hlt => ?_⟩
        · simp only [List.length_append] at hle
          obtain ⟨e1, e2, e3⟩ := ih1 (by omega)
          refine ⟨?_, ?_, ?_⟩
          · rw [e1, List.take_append_eq_append_take, List.take_of_length_le h3,
              List.append_assoc]
          · rw [e2, List.drop_append_eq_append_drop, List.drop_of_length_le h3,
              List.nil_append]
          · rw [e3, List.drop_append_eq_append_drop, List.drop_of_length_le h3,
              List.nil_append]
        · simp only [List.length_append] at hlt
          exact ih2 (by omega)

theorem dataBefore_eq_dataOf (inp : Script) (hne : ∀ e ∈ inp, e ≠ Event.error) :
    dataBefore inp = dataOf inp := by
  induction inp with
  | nil => rfl
  | cons e rest ih =>
    have hrest : ∀ e ∈ rest, e ≠ Event.error := fun x hx => hne x (List.mem_cons_of_mem _ hx)
    cases e with
    | error => exact absurd rfl (hne Event.error (List.mem_cons_self _ _))
    | data bytes => simp [dataBefore, dataOf, ih hrest]

theorem receive_full_loop_succ :
    ∀ (fuel : Nat) (inp : Script) (remaining : Nat) (buf : Bytes), remaining ≤ fuel →
      receive_full_loop (fuel + 1) inp remaining buf
        = receive_full_loop fuel inp remaining buf := by
  intro fuel
  induction fuel with
  | zero =>
    intro inp remaining buf h
    have h0 : remaining = 0 := by omega
    subst h0
    simp [receive_full_loop]
  | succ fuel ih =>
    intro inp remaining buf h
    by_cases h0 : remaining = 0
    · subst h0
      simp [receive_full_loop]
    · rcases recv_cases remaining (by omega) inp with ⟨h1, _⟩ | ⟨h1, _⟩ |
        ⟨b, inp1, h1, h2, _, _, _, _⟩
      · rcases hr : recv remaining inp with ⟨r, inp1⟩
        rw [hr] at h1
        simp only [] at h1
        subst h1
        simp [receive_full_loop, h0, hr]
      · rcases hr : recv remaining inp with ⟨r, inp1⟩
        rw [hr] at h1
        simp only [] at h1
        subst h1
        simp [receive_full_loop, h0, hr]
      · have hb1 : 0 < b.length := List.length_pos.2 h2
        have e1 : receive_full_loop (fuel + 1 + 1) inp remaining buf
            = receive_full_loop (fuel + 1) inp1 (remaining - b.length) (buf ++ b) := by
          simp only [receive_full_loop, h0, if_false, h1]
        have e2 : receive_full_loop (fuel + 1) inp remaining buf
            = receive_full_loop fuel inp1 (remaining - b.length) (buf ++ b) := by
          simp only [receive_full_loop, h0, if_false, h1]
        rw [e1, e2]
        exact ih inp1 _ _ (by omega)

theorem receive_full_loop_fuel (inp : Script) (n : Nat) :
    ∀ k, receive_full_loop (n + k) inp n [] = receive_full_loop n inp n [] := by
  intro k
  induction k with
  | zero => rfl
  | succ k ih =>
    rw [← ih, ← Nat.add_assoc]
    exact receive_full_loop_succ (n + k) inp n [] (by omega)

/-- C27: `receive_full` comes to an end on every script: the result with `n` rounds of
the loop is the result with any larger number of rounds, since every `recv` that delivers
bytes delivers at least one.  It succeeds exactly when at least `n` bytes arrive before
the connection fails or ends; then the buffer holds the first `n` of them, in order, and
what is left to arrive is the stream without them.  Otherwise it fails. -/
theorem C27_receive_full (inp : Script) (n : Nat) :
    (∀ fuel, n ≤ fuel → receive_full_loop fuel inp n [] = receive_full inp n) ∧
    ((receive_full inp n).1.isSome = true ↔ n ≤ (dataBefore inp).length) ∧
    (n ≤ (dataBefore inp).length →
      (receive_full inp n).1 = some ((dataBefore inp).take n) ∧
      dataBefore (receive_full inp n).2 = (dataBefore inp).drop n) ∧
    ((dataBefore inp).length < n → (receive_full inp n).1 = none) := by
  obtain ⟨h1, h2⟩ := receive_full_loop_spec n inp n [] (Nat.le_refl _)
  refine ⟨?_, ?_, ?_, ?_⟩
  · intro fuel hf
    obtain ⟨k, rfl⟩ : ∃ k, fuel = n + k := ⟨fuel - n, by omega⟩
    exact receive_full_loop_fuel inp n k
  · constructor
    · intro hs
      by_contra hlt
      have := h2 (by omega)
      unfold receive_full at hs
      rw [this] at hs
      cases hs
    · intro hle
      unfold receive_full
      rw [(h1 hle).1]
      rfl
  · intro hle
    unfold receive_full
    obtain ⟨e1, e2, _⟩ := h1 hle
    exact ⟨by rw [e1, List.nil_append], e2⟩
  · intro hlt
    exact h2 hlt

theorem C27_receive_full_witness :
    (receive_full (Event.data [1, 2] :: Event.data [3, 4] :: Event.error :: []) 3).1
        = some ((dataBefore
            (Event.data [1, 2] :: Event.data [3, 4] :: Event.error :: [])).take 3) ∧
      dataBefore (receive_full (Event.data [1, 2] :: Event.data [3, 4] :: Event.error :: []) 3).2
        = (dataBefore (Event.data [1, 2] :: Event.data [3, 4] :: Event.error :: [])).drop 3 :=
  (C27_receive_full (Event.data [1, 2] :: Event.data [3, 4] :: Event.error :: []) 3).2.2.1
    (by decide)

/-! ## The relay of a fetch -/

/-- The relay of a reply that starts with a nonzero size and has at least as many bytes
after it, whatever the runs in which it arrives. -/
theorem S1.relay_download_spec (inp : Script) (hne : ∀ e ∈ inp, e ≠ Event.error)
    (hdr data : Bytes) (hd : dataOf inp = hdr ++ data) (h8 : hdr.length = 8)
    (hn : 0 < be64toh hdr) (hlen : be64toh hdr ≤ data.length) :
    ∃ l, S1.relay_download inp = some l ∧ l.flatten = hdr ++ data.take (be64toh hdr) := by
  have hb := dataBefore_eq_dataOf inp hne
  obtain ⟨h1, _⟩ := receive_full_loop_spec 8 inp 8 [] (Nat.le_refl _)
  have hle : 8 ≤ (dataBefore inp).length := by
    rw [hb, hd, List.length_append]; omega
  obtain ⟨e1, _, e3⟩ := h1 hle
  have hrest := receive_full_loop_no_error 8 inp 8 [] hne
  have htake : (dataBefore inp).take 8 = hdr := by
    rw [hb, hd, ← h8, List.take_left]
  have hdrop : (dataOf inp).drop 8 = data := by
    rw [hd, ← h8, List.drop_left]
  rw [List.nil_append, htake] at e1
  rw [hdrop] at e3
  unfold S1.relay_download receive_full
  rcases hrf : receive_full_loop 8 inp 8 [] with ⟨o, rest⟩
  rw [hrf] at e1 e3 hrest
  simp only [] at e1 e3
  subst e1
  obtain ⟨l, hl1, hl2⟩ := S1.relay_loop_spec (weight rest + 1) rest (be64toh hdr) 0 (by omega)
    hrest (by omega) (by rw [e3]; omega)
  refine ⟨hdr :: l, ?_, ?_⟩
  · simp only [hn, if_true, hl1, Option.map_some']
  · rw [List.flatten_cons, hl2, e3, Nat.sub_zero]

/-- C21: a fetch that is forwarded to a node whose reply is 8 bytes that encode a number
`n > 0` followed by at least `n` bytes, in whatever pieces the node sends them, gives the
client those 8 bytes as they are and then the first `n` bytes after them, and no more. -/
theorem C21_relay_exact (env : Env) (st : S1.State) (filepath home sdir hdr data : Bytes)
    (port : Nat) (fsN : FS) (reply : List Bytes)
    (hup : env.listening port = true) (hhome : getenv_HOME env = some home)
    (hsd : S1.server_dir env port = some sdir) (hfl : home.length + 3 ≤ filepath.length)
    (hsend : env.sendOk port 0 = true)
    (hpeer : S1.peerAt env port st.fs (delivered [snprintf BUFFER_SIZE (str "downlf " ++
      snprintf PATH_MAX (home ++ str "/" ++ sdir ++ filepath.drop (home.length + 3)))])
        = some (fsN, reply))
    (hreply : reply.flatten = hdr ++ data) (h8 : hdr.length = 8)
    (hn : 0 < be64toh hdr) (hlen : be64toh hdr ≤ data.length) :
    ∃ st1, S1.download_file_from_server env filepath port st = some st1 ∧
      st1.response = st.response ++ hdr ++ data.take (be64toh hdr) := by
  obtain ⟨l, hl1, hl2⟩ := S1.relay_download_spec (delivered reply) (no_error_delivered reply)
    hdr data (by rw [dataOf_delivered, hreply]) h8 hn hlen
  refine ⟨{ (st.sends l) with
    fs := fsN,
    conns := st.conns ++ [(port, [snprintf BUFFER_SIZE (str "downlf " ++
      snprintf PATH_MAX (home ++ str "/" ++ sdir ++ filepath.drop (home.length + 3)))])] },
    ?_, ?_⟩
  · unfold S1.download_file_from_server
    simp only [S1.connect_to_server, hup, Bool.not_true, Bool.false_eq_true, if_false, hhome,
      hsd, if_neg (show ¬ filepath.length < home.length + 3 by omega), hsend, hpeer, hl1]
  · simp only [S1.State.response, S1.State.sends, List.flatten_append, hl2, List.append_assoc]

theorem C21_relay_exact_witness :
    ∃ st1, S1.download_file_from_server demoEnv (str "/home/u/S1/x/a.txt") 5003
        { fs := demoTree [(str "/home/u/S3/x/a.txt", Node.file [104, 105] true true)],
          inp := [], out := [], conns := [] } = some st1 ∧
      st1.response = S1.State.response
          { fs := demoTree [(str "/home/u/S3/x/a.txt", Node.file [104, 105] true true)],
            inp := [], out := [], conns := [] } ++ htobe64 2 ++
        ([104, 105] : Bytes).take (be64toh (htobe64 2)) :=
  C21_relay_exact demoEnv
    { fs := demoTree [(str "/home/u/S3/x/a.txt", Node.file [104, 105] true true)],
      inp := [], out := [], conns := [] }
    (str "/home/u/S1/x/a.txt") (str "/home/u") (str "S3") (htobe64 2) [104, 105] 5003
    (demoTree [(str "/home/u/S3/x/a.txt", Node.file [104, 105] true true)])
    [htobe64 2, [104, 105]] rfl (by decide) (by decide) (by decide) rfl rfl rfl rfl (by decide)
    (by decide)

/-! ## The copy of a forwarded store -/

/-- The chunks that reach the node are the first chunks of the file. -/
theorem S1.send_loop_prefix (env : Env) (port : Nat) :
    ∀ (l : List Bytes) (i : Nat), ∃ n, (S1.send_loop env port l i).1 = l.take n := by
  intro l
  induction l with
  | nil => intro i; exact ⟨0, rfl⟩
  | cons c l ih =>
    intro i
    by_cases h : env.sendOk port i = true
    · obtain ⟨n, hn⟩ := ih (i + 1)
      refine ⟨n + 1, ?_⟩
      simp only [S1.send_loop, h, if_true, List.take_succ_cons, hn]
    · refine ⟨0, ?_⟩
      simp only [S1.send_loop, h, Bool.false_eq_true, if_false, List.take_zero]

/-- The function `transfer_file_to_server` leaves nothing at the path of the gateway's copy,
whatever the outcome, when the copy can be removed and the node, if it is reached, handles
the command followed by the chunks it gets. -/
theorem S1.transfer_removes_copy (env : Env) (st : S1.State) (home f d sdir : Bytes)
    (port : Nat)
    (hhome : getenv_HOME env = some home) (hhl : home.length + 256 < PATH_MAX)
    (hd4 : d.take 4 = str "~S1/") (hlen : f.length + d.length < 255)
    (hbne : (basename f).1 ≠ []) (hb47 : 47 ∉ (basename f).1)
    (hbl : (basename f).1.length ≤ f.length)
    (hsd : S1.server_dir env port = some sdir) (hs2 : sdir.length = 2)
    (hloc : stat st.fs (S1.store_path home d f) = none ∨
      (remove st.fs (S1.store_path home d f)).isSome = true)
    (hnode : ∀ l,
      (∀ data, fopen_rb st.fs (S1.store_path home d f) = some data →
        ∃ n, l = (fread_all data).take n) →
      (fopen_rb st.fs (S1.store_path home d f) = none → l = []) →
      ∃ fsN reply, S1.peerAt env port st.fs (delivered
        ((str "uploadf" ++ 32 :: ((basename f).1 ++ 32 :: S1.forward_dir home sdir d)) :: l))
          = some (fsN, reply) ∧
        (stat fsN (S1.store_path home d f) = none ∨
          (remove fsN (S1.store_path home d f)).isSome = true)) :
    ∃ st1,
      S1.transfer_file_to_server env (S1.store_path home d f) (S1.full_dest_path home d) port st
        = some st1 ∧
      stat st1.fs (S1.store_path home d f) = none := by
  have hPM : PATH_MAX = 4096 := rfl
  have hBS : BUFFER_SIZE = 8192 := rfl
  have hfl := S1.full_dest_path_length home d (by omega) hd4
  have hdrop := S1.full_dest_path_drop home d (by omega) hd4
  have hfd := S1.forward_dir_length home sdir d hs2 hd4
  have hbase := S1.basename_store_path home d f hd4 (by omega) hbne hb47
  have hadj : snprintf PATH_MAX (home ++ str "/" ++ sdir ++ 47 :: d.drop 4)
      = S1.forward_dir home sdir d := by
    apply snprintf_eq_self
    have : (home ++ str "/" ++ sdir ++ 47 :: d.drop 4).length
        = (S1.forward_dir home sdir d).length := rfl
    omega
  have hbuf : snprintf BUFFER_SIZE
      (str "uploadf " ++ (basename f).1 ++ str " " ++ S1.forward_dir home sdir d)
      = str "uploadf" ++ 32 :: ((basename f).1 ++ 32 :: S1.forward_dir home sdir d) := by
    rw [str_uploadf_cmd]
    apply snprintf_eq_self
    have : (str "uploadf").length = 7 := by decide
    simp only [List.length_append, List.length_cons, this]
    omega
  have h4 := length_ge_4 hd4
  unfold S1.transfer_file_to_server
  by_cases hup : env.listening port = true
  · simp only [S1.connect_to_server, hup, Bool.not_true, Bool.false_eq_true, if_false, hhome,
      hsd, hfl, hdrop, List.head?_cons, true_or, if_true, hadj, hbase, hbuf]
    rw [if_neg (by omega)]
    by_cases hs0 : env.sendOk port 0 = true
    · simp only [hs0, Bool.not_true, Bool.false_eq_true, if_false]
      cases hf : fopen_rb st.fs (S1.store_path home d f) with
      | none =>
        obtain ⟨fsN, reply, h1, h2⟩ := hnode [] (fun data hd => by rw [hf] at hd; cases hd)
          (fun _ => rfl)
        simp only [h1]
        exact ⟨_, rfl, stat_remove_ h2⟩
      | some data =>
        obtain ⟨n, hn⟩ := S1.send_loop_prefix env port (fread_all data) 1
        obtain ⟨fsN, reply, h1, h2⟩ := hnode (S1.send_loop env port (fread_all data) 1).1
          (fun data1 hd => by
            rw [hf] at hd
            injection hd with hd
            subst hd
            exact ⟨n, hn⟩)
          (fun h0 => by rw [hf] at h0; cases h0)
        simp only [h1]
        split
        · exact ⟨_, rfl, stat_remove_ h2⟩
        · split
          · exact ⟨_, rfl, stat_remove_ h2⟩
          · exact ⟨_, rfl, stat_remove_ h2⟩
    · have hs0' : env.sendOk port 0 = false := by
        cases h : env.sendOk port 0
        · rfl
        · exact absurd h hs0
      simp only [hs0', Bool.not_false, if_true]
      exact ⟨_, rfl, stat_remove_ hloc⟩
  · have hup' : env.listening port = false := by
      cases h : env.listening port
      · rfl
      · exact absurd h hup
    simp only [S1.connect_to_server, hup', Bool.not_false, if_true]
    exact ⟨_, rfl, stat_remove_ hloc⟩

/-- C22 (amended): a store of a `.pdf`, `.txt` or `.zip` file that the gateway forwards
leaves nothing at the path of the gateway's copy when the request ends, whatever the outcome
of forwarding: the node cannot be reached, the command or a chunk of the content cannot be
sent, the copy cannot be opened again, the node answers or does not.  The request is well
formed, its content arrives and is written, the copy the gateway has opened can be removed,
and the node, if it is reached, handles the command followed by as many chunks of the
content as it gets, and leaves the copy removable or removed. -/
theorem C22_temp_removed (env : Env) (st : S1.State) (home f d r sdir : Bytes) (port : Nat)
    (fs1 fs3 : FS)
    (hpv : env.portsValid)
    (hhome : getenv_HOME env = some home) (hhl : home.length + 256 < PATH_MAX)
    (hf : isToken f = true) (hd : isToken d = true)
    (hext : strrchr f 46 = some r)
    (hroute : (r = str ".pdf" ∧ sdir = str "S2" ∧ port = env.PORT_S2) ∨
      (r = str ".txt" ∧ sdir = str "S3" ∧ port = env.PORT_S3) ∨
      (r = str ".zip" ∧ sdir = str "S4" ∧ port = env.PORT_S4))
    (hd4 : d.take 4 = str "~S1/") (hlen : f.length + d.length < 255)
    (hne : ∀ e ∈ st.inp, e ≠ Event.error)
    (hb : dataOf st.inp ≠ []) (hb64 : (dataOf st.inp).length < 2 ^ 64)
    (hdirs : create_directories st.fs (dirname (S1.store_path home d f)) = some fs1)
    (hopen : fopen_wb (remove_ fs1 (S1.store_path home d f)) (S1.store_path home d f)
      = Except.ok fs3)
    (hwrite : ∀ i, env.fwriteOk 1 i = true)
    (hrem : removableFile fs3 (S1.store_path home d f) = true)
    (hnode : ∀ n, ∃ fsN reply,
      S1.peerAt env port (fwrite fs3 (S1.store_path home d f) (dataOf st.inp))
          (delivered
            ((str "uploadf" ++ 32 :: ((basename f).1 ++ 32 :: S1.forward_dir home sdir d)) ::
              (fread_all (dataOf st.inp)).take n))
        = some (fsN, reply) ∧
        (stat fsN (S1.store_path home d f) = none ∨
          (remove fsN (S1.store_path home d f)).isSome = true)) :
    ∃ st1, S1.uploadf env (str "uploadf" ++ 32 :: (f ++ 32 :: d)) st = some st1 ∧
      stat st1.fs (S1.store_path home d f) = none := by
  obtain ⟨hc, hr, hr47, hrr, hport, _, hp0, hsd, hs2, _, _⟩ :=
    S1.node_facts env hpv r sdir port hroute
  obtain ⟨_, hbtok, hbl, _, hb47⟩ := basename_ext f r hf hext hr hr47 hrr
  obtain ⟨r0, w0, hget⟩ := get_fopen_wb hopen
  have hget4 := get_fwrite fs3 (S1.store_path home d f) (dataOf st.inp) [] r0 w0 hget
  rw [List.nil_append] at hget4
  rw [S1.uploadf_received env st home f d r fs1 fs3 hhome hf hd hext hr hr47 hrr hd4 hlen hne
    hb hb64 hdirs hopen hwrite, if_neg hc, hport, if_pos hp0]
  apply S1.transfer_removes_copy env _ home f d sdir port hhome hhl hd4 hlen
    (isToken_ne_nil hbtok) hb47 hbl hsd hs2
  · exact Or.inr (remove_removable (fwrite_removable _ hrem))
  · intro l h1 h2
    cases hfo : fopen_rb (fwrite fs3 (S1.store_path home d f) (dataOf st.inp))
        (S1.store_path home d f) with
    | none =>
      have hl : l = (fread_all (dataOf st.inp)).take 0 := by
        rw [h2 hfo, List.take_zero]
      rw [hl]
      exact hnode 0
    | some data =>
      have hdata : data = dataOf st.inp := by
        unfold fopen_rb at hfo
        rw [hget4] at hfo
        cases r0
        · cases hfo
        · injection hfo with hfo
          exact hfo.symm
      obtain ⟨n, hn⟩ := h1 data hfo
      rw [hn, hdata]
      exact hnode n

theorem C22_temp_removed_witness :
    ∃ st1, S1.uploadf demoEnv (str "uploadf" ++ 32 :: (str "a.txt" ++ 32 :: str "~S1/x"))
        demoState = some st1 ∧
      stat st1.fs (S1.store_path (str "/home/u") (str "~S1/x") (str "a.txt")) = none :=
  C22_temp_removed demoEnv demoState (str "/home/u") (str "a.txt") (str "~S1/x") (str ".txt")
    (str "S3") 5003 (dirsMade [] demoCopy) demoCopyOpened
    (by simp [Env.portsValid, demoEnv]) rfl (by decide) (by decide) (by decide) (by decide)
    (Or.inr (Or.inl ⟨rfl, rfl, rfl⟩)) (by decide) (by decide) (by decide) (by decide)
    (by decide) rfl rfl (fun _ => rfl) (by decide)
    (fun n => by
      cases n with
      | zero => exact ⟨_, _, rfl, Or.inr (by decide)⟩
      | succ n =>
        have h : (fread_all (dataOf demoState.inp)).take (n + 1) = [[104, 105]] := by
          have h0 : fread_all (dataOf demoState.inp) = [[104, 105]] := by decide
          rw [h0, List.take_succ_cons, List.take_nil]
        rw [h]
        exact ⟨_, _, rfl, Or.inr (by decide)⟩)

/-- C22, as stated, fails where the gateway cannot remove its copy: in `demoLockedText` the
directory `/home/u/S1/x` may not be written and holds a file `a.txt` that may.  A store of
`a.txt` under `~S1/x` writes the content into that file, S3 stores its own file and answers,
the gateway relays the answer, and `remove` at S1.c 692 fails: the copy is at the gateway's
path when the request ends. -/
theorem C22_counterexample :
    (S1.prcclient demoEnv demoLockedText
        (delivered [str "uploadf a.txt ~S1/x", [104, 105]])).map
        (fun st => (st.response, st.conns.map Prod.fst,
          stat st.fs (S1.store_path (str "/home/u") (str "~S1/x") (str "a.txt"))))
      = some (str "Stored successfully", [5003], some (Node.file [104, 105] true true)) := by
  rfl

/-- A store that is forwarded and answered: the gateway sends the client the answer as a C
string. -/
theorem S1.transfer_relays (env : Env) (st : S1.State) (home f d sdir b : Bytes) (port : Nat)
    (fsN : FS) (r : Bytes) (rest : List Bytes)
    (hhome : getenv_HOME env = some home) (hhl : home.length + 256 < PATH_MAX)
    (hd4 : d.take 4 = str "~S1/") (hlen : f.length + d.length < 255)
    (hbne : (basename f).1 ≠ []) (hb47 : 47 ∉ (basename f).1)
    (hbl : (basename f).1.length ≤ f.length)
    (hsd : S1.server_dir env port = some sdir) (hs2 : sdir.length = 2)
    (hup : env.listening port = true) (hsend : ∀ i, env.sendOk port i = true)
    (hfile : fopen_rb st.fs (S1.store_path home d f) = some b)
    (hpeer : S1.peerAt env port st.fs (delivered
      ((str "uploadf" ++ 32 :: ((basename f).1 ++ 32 :: S1.forward_dir home sdir d))
        :: fread_all b)) = some (fsN, r :: rest))
    (hr0 : r ≠ []) (hrl : r.length ≤ BUFFER_SIZE - 1) :
      S1.transfer_file_to_server env (S1.store_path home d f) (S1.full_dest_path home d) port st
        = some (S1.State.send
            { st with
              fs := remove_ fsN (S1.store_path home d f),
              conns := st.conns ++ [(port,
                (str "uploadf" ++ 32 :: ((basename f).1 ++ 32 :: S1.forward_dir home sdir d))
                  :: fread_all b)] }
            (cstr r)) := by
  have hPM : PATH_MAX = 4096 := rfl
  have hBS : BUFFER_SIZE = 8192 := rfl
  have hfl := S1.full_dest_path_length home d (by omega) hd4
  have hdrop := S1.full_dest_path_drop home d (by omega) hd4
  have hfd := S1.forward_dir_length home sdir d hs2 hd4
  have hbase := S1.basename_store_path home d f hd4 (by omega) hbne hb47
  have hadj : snprintf PATH_MAX (home ++ str "/" ++ sdir ++ 47 :: d.drop 4)
      = S1.forward_dir home sdir d := by
    apply snprintf_eq_self
    have : (home ++ str "/" ++ sdir ++ 47 :: d.drop 4).length
        = (S1.forward_dir home sdir d).length := rfl
    omega
  have hbuf : snprintf BUFFER_SIZE
      (str "uploadf " ++ (basename f).1 ++ str " " ++ S1.forward_dir home sdir d)
      = str "uploadf" ++ 32 :: ((basename f).1 ++ 32 :: S1.forward_dir home sdir d) := by
    rw [str_uploadf_cmd]
    apply snprintf_eq_self
    have : (str "uploadf").length = 7 := by decide
    simp only [List.length_append, List.length_cons, this]
    omega
  have h4 := length_ge_4 hd4
  unfold S1.transfer_file_to_server
  simp only [S1.connect_to_server, hup, Bool.not_true, Bool.false_eq_true, if_false, hhome,
    hsd, hfl, hdrop, List.head?_cons, true_or, if_true, hadj, hbase, hbuf, hsend, hfile,
    S1.send_loop_all env port hsend, hpeer]
  rw [if_neg (by omega)]
  simp only [delivered, List.map_cons, recv_head _ r _ hr0 hrl]

/-! ## The answer of a node to a forwarded store -/

/-- When a store is forwarded and the node answers with a first send `r` of 1 to 8191 bytes,
the gateway sends the client one message, the bytes of `r` before its first NUL byte
(`send(client_sock, buffer, strlen(buffer), 0)`, S1.c 687).  An answer without a NUL byte
reaches the client byte for byte. -/
theorem S1.uploadf_relay_text (env : Env) (st : S1.State) (home f d ext sdir b r : Bytes) (port : Nat)
    (fs1 fs3 fsN : FS) (rest : List Bytes)
    (hpv : env.portsValid)
    (hhome : getenv_HOME env = some home) (hhl : home.length + 256 < PATH_MAX)
    (hf : isToken f = true) (hd : isToken d = true)
    (hd4 : d.take 4 = str "~S1/") (hlen : f.length + d.length < 255)
    (hext : strrchr f 46 = some ext)
    (hnode : (ext = str ".pdf" ∧ sdir = str "S2" ∧ port = env.PORT_S2) ∨
      (ext = str ".txt" ∧ sdir = str "S3" ∧ port = env.PORT_S3) ∨
      (ext = str ".zip" ∧ sdir = str "S4" ∧ port = env.PORT_S4))
    (hne : ∀ e ∈ st.inp, e ≠ Event.error)
    (hb : dataOf st.inp ≠ []) (hb64 : (dataOf st.inp).length < 2 ^ 64)
    (hdirs : create_directories st.fs (dirname (S1.store_path home d f)) = some fs1)
    (hopen : fopen_wb (remove_ fs1 (S1.store_path home d f)) (S1.store_path home d f)
      = Except.ok fs3)
    (hwrite : ∀ i, env.fwriteOk 1 i = true)
    (hup : env.listening port = true) (hsend : ∀ i, env.sendOk port i = true)
    (hfile : fopen_rb (fwrite fs3 (S1.store_path home d f) (dataOf st.inp))
      (S1.store_path home d f) = some b)
    (hpeer : S1.peerAt env port (fwrite fs3 (S1.store_path home d f) (dataOf st.inp))
      (delivered ((str "uploadf" ++ 32 :: ((basename f).1 ++ 32 :: S1.forward_dir home sdir d))
        :: fread_all b)) = some (fsN, r :: rest))
    (hr0 : r ≠ []) (hrl : r.length ≤ 8191) :
    ∃ st1, S1.uploadf env (str "uploadf" ++ 32 :: (f ++ 32 :: d)) st = some st1 ∧
      st1.out = st.out ++ [cstr r] ∧
      ((∀ c ∈ r, c ≠ 0) → st1.response = st.response ++ r) := by
  obtain ⟨hc, hr, hr47, hrr, hport, _, hp0, hsd, hs2, _, _⟩ :=
    S1.node_facts env hpv ext sdir port hnode
  obtain ⟨_, hbtok, hbl, _, hb47⟩ := basename_ext f ext hf hext hr hr47 hrr
  rw [S1.uploadf_received env st home f d ext fs1 fs3 hhome hf hd hext hr hr47 hrr hd4 hlen
    hne hb hb64 hdirs hopen hwrite, if_neg hc, hport, if_pos hp0]
  rw [S1.transfer_relays env
    { st with fs := fwrite fs3 (S1.store_path home d f) (dataOf st.inp), inp := [] }
    home f d sdir b port fsN r rest hhome hhl hd4 hlen (isToken_ne_nil hbtok) hb47 hbl hsd hs2
    hup hsend hfile hpeer hr0 hrl]
  refine ⟨_, rfl, rfl, ?_⟩
  intro h0
  simp only [S1.State.response, S1.State.send, List.flatten_append, List.flatten_cons,
    List.flatten_nil, List.append_nil, cstr_eq_self r h0]

/-- C23 fails for the answer of S3 itself: S3 answers a forwarded store of `a.txt` with the
20 bytes of `Stored successfully` and its terminating NUL (S3.c 147); the gateway, which
sends `strlen(buffer)` bytes (S1.c 687), gives its client the 19 bytes before the NUL.  For a
store of `a.c`, which the gateway answers itself, the client gets the 20 bytes. -/
theorem C23_store_reply_loses_nul :
    S1.peerAt demoEnv 5003 (fwrite demoCopyOpened demoCopy [104, 105])
        (delivered ((str "uploadf" ++ 32 :: (str "a.txt" ++ 32 ::
          S1.forward_dir (str "/home/u") (str "S3") (str "~S1/x"))) :: fread_all [104, 105]))
      = some (fwrite demoTargetOpened demoTarget [104, 105],
          [str "Stored successfully" ++ [0]]) ∧
    (S1.uploadf demoEnv (str "uploadf" ++ 32 :: (str "a.txt" ++ 32 :: str "~S1/x"))
        demoState).map S1.State.response = some (str "Stored successfully") ∧
    (S1.uploadf demoEnv (str "uploadf" ++ 32 :: (str "a.txt" ++ 32 :: str "~S1/x"))
        demoState).map S1.State.conns =
      some [(5003, (str "uploadf" ++ 32 :: (str "a.txt" ++ 32 ::
          S1.forward_dir (str "/home/u") (str "S3") (str "~S1/x"))) :: fread_all [104, 105])] ∧
    str "Stored successfully" ≠ str "Stored successfully" ++ [0] ∧
    (S1.uploadf demoEnv (str "uploadf" ++ 32 :: (str "a.c" ++ 32 :: str "~S1/x"))
        demoState).map S1.State.response = some (str "Stored successfully" ++ [0]) :=
  ⟨rfl, rfl, rfl, by decide, rfl⟩

/-! ## Removal of a file of the gateway -/

/-- C24: for a path whose extension is `.c` the answer of the gateway to `removef` follows
from the file system.  Nothing at the path: `Remove failed: File not found`.  A node that is
not a regular file: `Remove failed: Not a regular file`.  A regular file that `remove`
deletes: `File removed successfully`, and afterwards nothing is at the path while every
other path has the node it had.  A regular file that `remove` does not delete:
`Remove failed: Permission denied`.  In the three failing cases the file system is left as
it was.  The four answers differ pairwise, and no connection to a node is opened. -/
theorem C24_local_remove (env : Env) (st : S1.State) (home p : Bytes)
    (hhome : getenv_HOME env = some home)
    (hext : strrchr (S1.local_path home p) 46 = some (str ".c")) :
    (stat st.fs (S1.local_path home p) = none →
      S1.removef env p st = some (st.send (sendLit "Remove failed: File not found" 29))) ∧
    (∀ w, stat st.fs (S1.local_path home p) = some (Node.dir w) →
      S1.removef env p st = some (st.send (sendLit "Remove failed: Not a regular file" 33))) ∧
    (∀ data r w fs1, stat st.fs (S1.local_path home p) = some (Node.file data r w) →
      remove st.fs (S1.local_path home p) = some fs1 →
      S1.removef env p st
          = some ({ st with fs := fs1 }.send (sendLit "File removed successfully" 25)) ∧
        stat fs1 (S1.local_path home p) = none ∧
        ∀ k, k ≠ normPath (S1.local_path home p) → FS.get fs1 k = FS.get st.fs k) ∧
    (∀ data r w, stat st.fs (S1.local_path home p) = some (Node.file data r w) →
      remove st.fs (S1.local_path home p) = none →
      S1.removef env p st = some (st.send (sendLit "Remove failed: Permission denied" 32))) ∧
    List.Pairwise (fun a b => a ≠ b)
      [sendLit "File removed successfully" 25, sendLit "Remove failed: File not found" 29,
       sendLit "Remove failed: Not a regular file" 33,
       sendLit "Remove failed: Permission denied" 32] ∧
    (∃ st1, S1.removef env p st = some st1 ∧ st1.conns = st.conns ∧ st1.inp = st.inp ∧
      ∃ msg, st1.out = st.out ++ [msg]) := by
  have hc : (str ".c").drop 1 = str "c" := by decide
  have hrm : S1.removef env p st =
      match stat st.fs (S1.local_path home p) with
      | some statbuf =>
        if S_ISREG statbuf then
          match remove st.fs (S1.local_path home p) with
          | some fs1 =>
            some ({ st with fs := fs1 }.send (sendLit "File removed successfully" 25))
          | none => some (st.send (sendLit "Remove failed: Permission denied" 32))
        else some (st.send (sendLit "Remove failed: Not a regular file" 33))
      | none => some (st.send (sendLit "Remove failed: File not found" 29)) := by
    unfold S1.removef
    simp only [hhome, hext, hc, if_true]
  refine ⟨?_, ?_, ?_, ?_, by decide, ?_⟩
  · intro h
    rw [hrm, h]
  · intro w h
    rw [hrm, h]
    rfl
  · intro data r w fs1 h hr
    refine ⟨?_, get_remove_self hr, ?_⟩
    · rw [hrm, h]
      simp only [S_ISREG, if_true, hr]
    · intro k hk
      have := get_remove_other st.fs (S1.local_path home p) k hk
      unfold remove_ at this
      rw [hr] at this
      exact this
  · intro data r w h hr
    rw [hrm, h]
    simp only [S_ISREG, if_true, hr]
  · rw [hrm]
    cases hs : stat st.fs (S1.local_path home p) with
    | none => exact ⟨_, rfl, rfl, rfl, _, rfl⟩
    | some n =>
      cases n with
      | dir w => exact ⟨_, rfl, rfl, rfl, _, rfl⟩
      | file data r w =>
        simp only [S_ISREG, if_true]
        cases remove st.fs (S1.local_path home p) with
        | none => exact ⟨_, rfl, rfl, rfl, _, rfl⟩
        | some fs1 => exact ⟨_, rfl, rfl, rfl, _, rfl⟩

theorem C24_local_remove_witness :
    S1.removef demoEnv (str "~S1/a.c")
        { fs := demoTree [(str "/home/u/S1/a.c", Node.file [1] true true)],
          inp := [], out := [], conns := [] }
      = some (S1.State.send
          { fs := remove_ (demoTree [(str "/home/u/S1/a.c", Node.file [1] true true)])
              (str "/home/u/S1/a.c"),
            inp := [], out := [], conns := [] }
          (sendLit "File removed successfully" 25)) ∧
    stat (remove_ (demoTree [(str "/home/u/S1/a.c", Node.file [1] true true)])
      (str "/home/u/S1/a.c")) (S1.local_path (str "/home/u") (str "~S1/a.c")) = none ∧
    ∀ k, k ≠ normPath (S1.local_path (str "/home/u") (str "~S1/a.c")) →
      FS.get (remove_ (demoTree [(str "/home/u/S1/a.c", Node.file [1] true true)])
        (str "/home/u/S1/a.c")) k
        = FS.get (demoTree [(str "/home/u/S1/a.c", Node.file [1] true true)]) k :=
  (C24_local_remove demoEnv
    { fs := demoTree [(str "/home/u/S1/a.c", Node.file [1] true true)],
      inp := [], out := [], conns := [] }
    (str "/home/u") (str "~S1/a.c") rfl (by decide)).2.2.1 [1] true true
    (remove_ (demoTree [(str "/home/u/S1/a.c", Node.file [1] true true)])
      (str "/home/u/S1/a.c")) rfl rfl

/-! ## Lines that name no command -/

/-- A line whose first word is none of the five verbs, with a word of at most 19 bytes and an
operand of at most 255 bytes, is passed over: the worker is as it was. -/
theorem S1.dispatch_unknown (env : Env) (st : S1.State) (buffer command param1 : Bytes)
    (hs : sscanf_command buffer = (some command, param1))
    (hl : command.length < 20) (hp : param1.length < 256)
    (h1 : command ≠ str "uploadf") (h2 : command ≠ str "downlf")
    (h3 : command ≠ str "removef")
    (h4 : command ≠ str "downltar") (h5 : command ≠ str "dispfnames") :
    S1.dispatch env buffer st = some st := by
  unfold S1.dispatch
  rw [hs]
  simp only [if_neg h1, if_neg h2, if_neg h3, if_neg h4, if_neg h5]
  rw [if_neg (by omega)]

/-- C25: a line of white space only has no word, so `sscanf` stores nothing in `command`
(S1.c 134-135) and the comparisons of the dispatch read an array that was never assigned:
the handling of the line is not defined, and the worker does not get to the next `recv`.
The same holds for a first word of 20 bytes, which does not fit `command`.  A line whose
first word is an unknown verb that fits is passed over without any effect. -/
theorem C25_line_without_verb (env : Env) (st : S1.State) (fs : FS) (rest : Script) :
    sscanf_command (str " \n") = (none, []) ∧
    S1.dispatch env (str " \n") st = none ∧
    S1.prcclient env fs (Event.data (str " \n") :: rest) = none ∧
    S1.dispatch env (List.replicate 20 120) st = none ∧
    S1.dispatch env (str "hello world") st = some st := by
  have h0 : sscanf_command (str " \n") = (none, []) := by decide
  have hd : ∀ st1 : S1.State, S1.dispatch env (str " \n") st1 = none := by
    intro st1
    unfold S1.dispatch
    rw [h0]
  refine ⟨h0, hd st, ?_, ?_, ?_⟩
  · unfold S1.prcclient
    have hw : weight (Event.data (str " \n") :: rest) + 1
        = ((str " \n").length + weight rest + 1) + 1 := by
      simp only [weight]; omega
    rw [hw, S1.prcclient_loop, recv_head _ (str " \n") rest (by decide) (by decide)]
    simp only [hd]
  · have h20 : sscanf_command (List.replicate 20 120) = (some (List.replicate 20 120), []) := by
      decide
    unfold S1.dispatch
    rw [h20]
    simp
  · exact S1.dispatch_unknown env st (str "hello world") (str "hello") (str "world")
      (by decide) (by decide) (by decide) (by decide) (by decide) (by decide) (by decide)
      (by decide)

/-! ## A write that fails while a store is received -/

/-- C26: when `fwrite` fails in the receive loop of `uploadf`, the gateway closes the stream,
removes the file, sends `Upload failed: Error writing file` and then executes `continue`
(S1.c 184-189), which goes on with the receive loop, not with the command loop: the closed
stream is passed to `fwrite` on the next chunk or to `fclose` at S1.c 192.  The request does
not end at the error; its handling is not defined from there on.  S3 has the same loop
(S3.c 124-135).  With every `fwrite` working the same request is stored. -/
theorem C26_write_failure_not_final (env : Env) (path : Bytes) (fuel : Nat) (fs : FS)
    (c : Nat) (bytes : Bytes) (rest : Script) (total i : Nat) :
    S1.upload_loop { env with fwriteOk := fun _ _ => false } path (fuel + 1) fs
      (Event.data (c :: bytes) :: rest) total i = none ∧
    S3.upload_loop { env with fwriteOk := fun _ _ => false } path (fuel + 1) fs
      (Event.data (c :: bytes) :: rest) total i = none ∧
    S1.prcclient diskFullEnv [] (delivered [str "uploadf a.c ~S1/x", [104, 105]]) = none ∧
    S3.main_conn diskFullEnv [] (delivered [str "uploadf a.txt /home/u/S3/x", [104, 105]])
      = none ∧
    (S1.prcclient demoEnv [] (delivered [str "uploadf a.c ~S1/x", [104, 105]])).map
      S1.State.out = some [sendLit "Stored successfully" 20] := by
  have hr : ∀ cap, ∃ b inp1,
      recv cap (Event.data (c :: bytes) :: rest) = (Recv.data b, inp1) := by
    intro cap
    simp only [recv, reduceCtorEq, if_false]
    split
    · exact ⟨_, _, rfl⟩
    · exact ⟨_, _, rfl⟩
  refine ⟨?_, ?_, rfl, rfl, rfl⟩
  · obtain ⟨b, inp1, hr⟩ := hr BUFFER_SIZE
    unfold S1.upload_loop
    rw [hr]
    rfl
  · obtain ⟨b, inp1, hr⟩ := hr S3.BUFFER_SIZE
    unfold S3.upload_loop
    rw [hr]
    rfl

/-! ## Lemmas: the extension of a path and of its last segment -/

theorem strrchr_none_of_not_mem (c : Nat) : ∀ s : Bytes, c ∉ s → strrchr s c = none := by
  intro s
  induction s with
  | nil => intro _; rfl
  | cons x s ih =>
    intro h
    have hx : x ≠ c := fun hxc => h (by rw [hxc]; exact List.mem_cons_self _ _)
    have hs : c ∉ s := fun hm => h (List.mem_cons_of_mem _ hm)
    simp only [strrchr, ih hs, if_neg hx]

/-- The result of `strrchr` starts with the byte looked for, which does not occur again. -/
theorem strrchr_head (c : Nat) :
    ∀ (s r : Bytes), strrchr s c = some r → ∃ t, r = c :: t ∧ c ∉ t := by
  intro s
  induction s with
  | nil => intro r h; simp [strrchr] at h
  | cons x s ih =>
    intro r h
    simp only [strrchr] at h
    cases hs : strrchr s c with
    | some r1 =>
      rw [hs] at h
      simp only [Option.some.injEq] at h
      subst h
      exact ih _ hs
    | none =>
      rw [hs] at h
      by_cases hx : x = c
      · simp only [hx, if_true, Option.some.injEq] at h
        subst h
        refine ⟨s, rfl, ?_⟩
        intro hm
        have : ∀ s : Bytes, c ∈ s → strrchr s c ≠ none := by
          intro s
          induction s with
          | nil => intro hm; cases hm
          | cons y s ih2 =>
            intro hm
            simp only [strrchr]
            cases h2 : strrchr s c with
            | some r2 => simp
            | none =>
              rcases List.mem_cons.1 hm with h3 | h3
              · simp [h3]
              · exact absurd h2 (ih2 h3)
        exact this s hm hs
      · simp only [hx, if_false] at h
        cases h

theorem strrchr_idem (c : Nat) (s r : Bytes) (h : strrchr s c = some r) :
    strrchr r c = some r := by
  obtain ⟨t, rfl, ht⟩ := strrchr_head c s r h
  simp only [strrchr, strrchr_none_of_not_mem c t ht, if_true]

theorem lastSegment_suffix (s : Bytes) : ∃ pre, s = pre ++ lastSegment s := by
  refine ⟨(s.reverse.dropWhile (fun c => c != 47)).reverse, ?_⟩
  unfold lastSegment
  rw [← List.reverse_append, List.takeWhile_append_dropWhile, List.reverse_reverse]

/-- The text from the last dot of a path is the text from the last dot of its last segment,
or it holds a slash and the last segment has no dot. -/
theorem strrchr_lastSegment (path : Bytes) :
    strrchr path 46 = strrchr (lastSegment path) 46 ∨
      (strrchr (lastSegment path) 46 = none ∧
        ∃ t, strrchr path 46 = some (46 :: t) ∧ 47 ∈ t) := by
  obtain ⟨pre, hpre⟩ := lastSegment_suffix path
  cases hb : strrchr (lastSegment path) 46 with
  | some e =>
    left
    rw [hpre]
    exact strrchr_append 46 pre _ e hb
  | none =>
    cases ha : strrchr path 46 with
    | none => left; rfl
    | some e =>
      right
      obtain ⟨t, rfl, ht⟩ := strrchr_head 46 path _ ha
      refine ⟨rfl, t, rfl, ?_⟩
      by_contra h47
      have h47e : 47 ∉ (46 :: t : Bytes) := by
        intro hm
        rcases List.mem_cons.1 hm with h | h
        · cases h
        · exact h47 h
      obtain ⟨pre2, hp2⟩ := strrchr_suffix 46 path _ ha
      have hseg : lastSegment path = lastSegment pre2 ++ 46 :: t := by
        conv_lhs => rw [hp2]
        exact lastSegment_append pre2 _ h47e
      have := strrchr_append 46 (lastSegment pre2) _ _ (strrchr_idem 46 path _ ha)
      rw [← hseg, hb] at this
      cases this

/-! ## Routing by the extension -/

/-- The `downlf` branch does what `downlf_route` says for the text from the last dot of the
path. -/
theorem S1.downlf_by_route (env : Env) (param1 home : Bytes) (st : S1.State)
    (hhome : getenv_HOME env = some home) (hp : param1.length ≠ 0) :
    S1.downlf env param1 st =
      match S1.downlf_route env (strrchr (S1.local_path home param1) 46) with
      | S1.Route.unsupported =>
        some (st.sends [zero8, sendLit "Only .c, .pdf, .txt, .zip supported" 35])
      | S1.Route.gateway => some (S1.downlf_local (S1.local_path home param1) st)
      | S1.Route.node port =>
        S1.download_file_from_server env (S1.local_path home param1) port st := by
  unfold S1.downlf S1.downlf_route
  simp only [if_neg hp, hhome]
  cases strrchr (S1.local_path home param1) 46 with
  | none => rfl
  | some ext =>
    simp only []
    split
    · rfl
    · split <;> rfl

/-- The `removef` branch answers `Remove failed: No file extension` or
`Remove failed: Unsupported file type` exactly when `removef_route` says unsupported. -/
theorem S1.removef_by_route (env : Env) (param1 home : Bytes) (st : S1.State)
    (hhome : getenv_HOME env = some home)
    (hr : S1.removef_route env (strrchr (S1.local_path home param1) 46)
      = S1.Route.unsupported) :
    S1.removef env param1 st
        = some (st.send (sendLit "Remove failed: No file extension" 32)) ∨
      S1.removef env param1 st
        = some (st.send (sendLit "Remove failed: Unsupported file type" 36)) := by
  unfold S1.removef
  unfold S1.removef_route at hr
  simp only [hhome]
  cases hs : strrchr (S1.local_path home param1) 46 with
  | none => left; rfl
  | some ext =>
    right
    rw [hs] at hr
    simp only [] at hr ⊢
    split at hr
    · cases hr
    · rename_i hc
      split at hr
      · cases hr
      · rename_i hpt
        rw [if_neg hc, if_neg hpt]

/-- C28: the place where the gateway serves a request, which the three handlers compute from
the text that starts at the last dot of the whole path, is the place computed from the text
that starts at the last dot of the last segment of the path (the text after the last
slash): for `uploadf`, for `downlf`, for `removef`, and for the routing table.  A path whose
last segment has no dot is unsupported in all three handlers, whatever dots its directories
have. -/
theorem C28_route_by_last_segment (env : Env) (path : Bytes) :
    S1.uploadf_route env (strrchr path 46)
      = S1.uploadf_route env (strrchr (lastSegment path) 46) ∧
    S1.downlf_route env (strrchr path 46)
      = S1.downlf_route env (strrchr (lastSegment path) 46) ∧
    S1.removef_route env (strrchr path 46)
      = S1.removef_route env (strrchr (lastSegment path) 46) ∧
    S1.routing_table env (strrchr path 46)
      = S1.routing_table env (strrchr (lastSegment path) 46) ∧
    (46 ∉ lastSegment path →
      S1.uploadf_route env (strrchr path 46) = S1.Route.unsupported ∧
      S1.downlf_route env (strrchr path 46) = S1.Route.unsupported ∧
      S1.removef_route env (strrchr path 46) = S1.Route.unsupported ∧
      S1.routing_table env (strrchr path 46) = S1.Route.unsupported) := by
  have hnone : S1.uploadf_route env none = S1.Route.unsupported ∧
      S1.downlf_route env none = S1.Route.unsupported ∧
      S1.removef_route env none = S1.Route.unsupported ∧
      S1.routing_table env none = S1.Route.unsupported := ⟨rfl, rfl, rfl, rfl⟩
  have hslash : ∀ t : Bytes, 47 ∈ t →
      S1.uploadf_route env (some (46 :: t)) = S1.Route.unsupported ∧
      S1.downlf_route env (some (46 :: t)) = S1.Route.unsupported ∧
      S1.removef_route env (some (46 :: t)) = S1.Route.unsupported ∧
      S1.routing_table env (some (46 :: t)) = S1.Route.unsupported := by
    intro t ht
    have n1 : t ≠ str "c" := by intro h; rw [h] at ht; revert ht; decide
    have n2 : t ≠ str "pdf" := by intro h; rw [h] at ht; revert ht; decide
    have n3 : t ≠ str "txt" := by intro h; rw [h] at ht; revert ht; decide
    have n4 : t ≠ str "zip" := by intro h; rw [h] at ht; revert ht; decide
    have m1 : (46 :: t : Bytes) ≠ str ".c" := by
      intro h; injection h with _ h; exact n1 h
    have m2 : (46 :: t : Bytes) ≠ str ".pdf" := by
      intro h; injection h with _ h; exact n2 h
    have m3 : (46 :: t : Bytes) ≠ str ".txt" := by
      intro h; injection h with _ h; exact n3 h
    have m4 : (46 :: t : Bytes) ≠ str ".zip" := by
      intro h; injection h with _ h; exact n4 h
    have o1 : (some (46 :: t : Bytes)) ≠ some (str ".c") := fun h => m1 (Option.some.inj h)
    have o2 : (some (46 :: t : Bytes)) ≠ some (str ".pdf") := fun h => m2 (Option.some.inj h)
    have o3 : (some (46 :: t : Bytes)) ≠ some (str ".txt") := fun h => m3 (Option.some.inj h)
    have o4 : (some (46 :: t : Bytes)) ≠ some (str ".zip") := fun h => m4 (Option.some.inj h)
    refine ⟨?_, ?_, ?_, ?_⟩
    · simp only [S1.uploadf_route, S1.upload_port, if_neg o1, if_neg o2, if_neg o3, if_neg o4,
        ne_eq, not_true_eq_false, if_false]
    · simp only [S1.downlf_route]
      rw [if_pos ⟨m1, m2, m3, m4⟩]
    · simp only [S1.removef_route, List.drop_succ_cons, List.drop_zero, if_neg n1]
      rw [if_neg (by rintro (h | h); exact n2 h; exact n3 h)]
    · simp only [S1.routing_table, if_neg o1, if_neg o2, if_neg o3, if_neg o4]
  rcases strrchr_lastSegment path with h | ⟨hb, t, ha, ht⟩
  · rw [h]
    refine ⟨rfl, rfl, rfl, rfl, ?_⟩
    intro h46
    rw [strrchr_none_of_not_mem 46 _ h46]
    exact hnone
  · rw [ha, hb]
    obtain ⟨s1, s2, s3, s4⟩ := hslash t ht
    obtain ⟨z1, z2, z3, z4⟩ := hnone
    refine ⟨by rw [s1, z1], by rw [s2, z2], by rw [s3, z3], by rw [s4, z4], ?_⟩
    intro _
    exact ⟨s1, s2, s3, s4⟩

theorem C28_route_by_last_segment_witness :
    S1.uploadf_route demoEnv (strrchr (str "/home/u/S1/d.txt/readme") 46)
        = S1.Route.unsupported ∧
      S1.downlf_route demoEnv (strrchr (str "/home/u/S1/d.txt/readme") 46)
        = S1.Route.unsupported ∧
      S1.removef_route demoEnv (strrchr (str "/home/u/S1/d.txt/readme") 46)
        = S1.Route.unsupported ∧
      S1.routing_table demoEnv (strrchr (str "/home/u/S1/d.txt/readme") 46)
        = S1.Route.unsupported :=
  (C28_route_by_last_segment demoEnv (str "/home/u/S1/d.txt/readme")).2.2.2.2 (by decide)

/-! ## A store without content over a file that exists -/

theorem dirname_ne_nil (path : Bytes) : dirname path ≠ [] := by
  unfold dirname
  simp only []
  generalize (if stripSlashes path = [] then path else stripSlashes path) = t
  by_cases h47 : 47 ∉ t
  · rw [if_pos h47]
    decide
  · rw [if_neg h47]
    by_cases hr : stripSlashes (t.take (t.length - (lastSegment t).length)) = []
    · rw [if_pos hr]
      split <;> decide
    · rw [if_neg hr]
      exact hr

/-- The call `mkdir` leaves every node that exists as it is. -/
theorem get_mkdir_some (fs : FS) (path : Bytes) (k : Key) (n : Node)
    (h : FS.get fs k = some n) : FS.get (mkdir fs path) k = some n := by
  by_cases hk : k = normPath path
  · unfold mkdir
    simp only []
    rw [← hk, h]
    exact h
  · rw [get_mkdir_other fs path k hk]
    exact h

theorem get_foldl_mkdir_some (k : Key) (n : Node) :
    ∀ (l : List Bytes) (fs : FS), FS.get fs k = some n →
      FS.get (l.foldl mkdir fs) k = some n := by
  intro l
  induction l with
  | nil => intro fs h; exact h
  | cons P l ih =>
    intro fs h
    rw [List.foldl_cons]
    exact ih _ (get_mkdir_some fs P k n h)

/-- The function `create_directories` on the directory of a path returns and leaves every
node that exists as it is. -/
theorem create_directories_keeps (fs : FS) (path : Bytes) :
    ∃ fs1, create_directories fs (dirname path) = some fs1 ∧
      ∀ k n, FS.get fs k = some n → FS.get fs1 k = some n := by
  unfold create_directories
  have hne : snprintf PATH_MAX (dirname path) ≠ [] := by
    unfold snprintf
    have h := dirname_ne_nil path
    cases hd : dirname path with
    | nil => exact absurd hd h
    | cons c t => simp [PATH_MAX]
  cases hs : snprintf PATH_MAX (dirname path) with
  | nil => exact absurd hs hne
  | cons c rest =>
    refine ⟨_, rfl, ?_⟩
    intro k n h
    exact get_mkdir_some _ _ k n (get_foldl_mkdir_some k n _ fs h)

/-- C29 (amended): a store at the gateway whose content is empty destroys the file that was
at the target path, when the directory of that file can be written.  The request is well
formed and its destination begins with `~S1/`, no byte of content arrives, a regular file is
at the target path before the request and its directory can be written: the gateway answers
`Upload failed: No data received` and nothing is at the target path afterwards. -/
theorem C29_empty_store_destroys (env : Env) (st : S1.State) (home f d old : Bytes)
    (r w : Bool)
    (hhome : getenv_HOME env = some home)
    (hf : isToken f = true) (hd : isToken d = true) (hlen : f.length + d.length < 255)
    (hd4 : d.take 4 = str "~S1/")
    (hne : ∀ e ∈ st.inp, e ≠ Event.error) (hempty : dataOf st.inp = [])
    (hfile : stat st.fs (S1.store_path home d f) = some (Node.file old r w))
    (hdir : FS.parentWritable st.fs (normPath (S1.store_path home d f)) = true) :
    ∃ st1, S1.uploadf env (str "uploadf" ++ 32 :: (f ++ 32 :: d)) st = some st1 ∧
      st1.out = st.out ++ [sendLit "Upload failed: No data received" 32] ∧
      stat st1.fs (S1.store_path home d f) = none ∧ st1.conns = st.conns := by
  have hk : normPath (S1.store_path home d f) ≠ [] := FS.key_ne_nil_of_file hfile
  obtain ⟨fs1, hdirs, hkeep⟩ := create_directories_keeps st.fs (S1.store_path home d f)
  have hpar : FS.get st.fs (normPath (S1.store_path home d f)).dropLast
      = some (Node.dir true) := by
    unfold FS.parentWritable at hdir
    split at hdir
    · rename_i w1 hg
      rw [hg, hdir]
    · cases hdir
  have hfile1 := hkeep _ _ hfile
  have hpar1 := hkeep _ _ hpar
  have hrm : remove_ fs1 (S1.store_path home d f)
      = FS.erase fs1 (normPath (S1.store_path home d f)) := by
    unfold remove_ remove
    simp only [if_neg hk, hfile1, FS.parentWritable, hpar1, if_true, Option.getD_some]
  have hopen : fopen_wb (remove_ fs1 (S1.store_path home d f)) (S1.store_path home d f)
      = Except.ok (FS.set (FS.erase fs1 (normPath (S1.store_path home d f)))
          (normPath (S1.store_path home d f)) (Node.file [] true true)) := by
    rw [hrm]
    unfold fopen_wb
    simp only [FS.get_erase_self _ _ hk,
      FS.get_erase_other _ _ _ (dropLast_ne_self hk), hpar1, if_true]
  have habs : stat (remove_ fs1 (S1.store_path home d f)) (S1.store_path home d f) = none := by
    rw [hrm]
    exact FS.get_erase_self _ _ hk
  have hremovable := fopen_wb_fresh habs hopen
  have hflen : ¬ (256 ≤ f.length ∨ PATH_MAX ≤ d.length) := by
    have : PATH_MAX = 4096 := rfl
    omega
  have hloop := S1.upload_loop_empty env (S1.store_path home d f) (weight st.inp + 1)
    st.inp (FS.set (FS.erase fs1 (normPath (S1.store_path home d f)))
      (normPath (S1.store_path home d f)) (Node.file [] true true)) 0 0 (by omega) hne hempty
  unfold S1.uploadf
  rw [sscanf_two_tokens _ f d str_uploadf_token hf hd]
  simp only [hflen, if_false, hd4, ne_eq, not_true_eq_false, hhome]
  have hsp : S1.temp_path (S1.full_dest_path home d) (basename f).1
      = S1.store_path home d f := rfl
  rw [hsp, hdirs]
  simp only [hopen, hloop, if_true]
  exact ⟨_, rfl, rfl, stat_remove_ (Or.inr (remove_removable hremovable)), rfl⟩

theorem C29_empty_store_destroys_witness :
    stat (demoTree [(str "/home/u/S1/x", Node.dir true),
        (str "/home/u/S1/x/a.c", Node.file [7, 7] true true)])
      (S1.store_path (str "/home/u") (str "~S1/x") (str "a.c"))
        = some (Node.file [7, 7] true true) ∧
    ∃ st1, S1.uploadf demoEnv (str "uploadf" ++ 32 :: (str "a.c" ++ 32 :: str "~S1/x"))
        { fs := demoTree [(str "/home/u/S1/x", Node.dir true),
            (str "/home/u/S1/x/a.c", Node.file [7, 7] true true)],
          inp := [], out := [], conns := [] } = some st1 ∧
      st1.out = [] ++ [sendLit "Upload failed: No data received" 32] ∧
      stat st1.fs (S1.store_path (str "/home/u") (str "~S1/x") (str "a.c")) = none ∧
      st1.conns = [] :=
  ⟨rfl, C29_empty_store_destroys demoEnv
    { fs := demoTree [(str "/home/u/S1/x", Node.dir true),
        (str "/home/u/S1/x/a.c", Node.file [7, 7] true true)],
      inp := [], out := [], conns := [] }
    (str "/home/u") (str "a.c") (str "~S1/x") [7, 7] true true rfl (by decide) (by decide)
    (by decide) (by decide) (by decide) rfl rfl rfl⟩

/-- C29, as stated, fails where the directory of the file may not be written: the file is
still at the target path after the request.  In `demoLockedDir` the file `a.c` may be
written: the store without content is answered `Upload failed: No data received` and leaves
the file in place, cut to length 0 by `fopen` at S1.c 174.  In `demoLockedFile` the file may
not be written either: `fopen` fails, the answer is
`Upload failed: Cannot write file (Permission denied)`, and the file is as it was. -/
theorem C29_counterexample :
    stat demoLockedDir (S1.store_path (str "/home/u") (str "~S1/x") (str "a.c"))
      = some (Node.file [7, 7] true true) ∧
    (S1.uploadf demoEnv (str "uploadf" ++ 32 :: (str "a.c" ++ 32 :: str "~S1/x"))
        { fs := demoLockedDir, inp := [], out := [], conns := [] }).map
        (fun st => (st.out,
          stat st.fs (S1.store_path (str "/home/u") (str "~S1/x") (str "a.c"))))
      = some ([sendLit "Upload failed: No data received" 32],
          some (Node.file [] true true)) ∧
    stat demoLockedFile (S1.store_path (str "/home/u") (str "~S1/x") (str "a.c"))
      = some (Node.file [7, 7] true false) ∧
    (S1.uploadf demoEnv (str "uploadf" ++ 32 :: (str "a.c" ++ 32 :: str "~S1/x"))
        { fs := demoLockedFile, inp := [], out := [], conns := [] }).map
        (fun st => (st.out,
          stat st.fs (S1.store_path (str "/home/u") (str "~S1/x") (str "a.c"))))
      = some ([str "Upload failed: Cannot write file (Permission denied)"],
          some (Node.file [7, 7] true false)) := by
  refine ⟨rfl, rfl, rfl, rfl⟩

/-! ## The content of a store that was refused -/

/-- C30: when the gateway refuses a store because its destination does not begin with
`~S1/`, it goes back to the `recv` of the command loop with the content of the store still
to arrive: the next run of bytes on the connection, the content, is handled as a command
line, the worker having sent only the refusal and changed nothing else.  The request is well
formed and the content arrives as a run of 1 to 8191 bytes. -/
theorem C30_payload_as_command (env : Env) (fs : FS) (f d payload : Bytes) (rest : Script)
    (hf : isToken f = true) (hd : isToken d = true) (hlen : f.length + d.length < 255)
    (hd4 : d.take 4 ≠ str "~S1/")
    (hp0 : payload ≠ []) (hpl : payload.length ≤ BUFFER_SIZE - 1) :
    S1.prcclient env fs
        (Event.data (str "uploadf" ++ 32 :: (f ++ 32 :: d)) :: Event.data payload :: rest) =
      (S1.dispatch env payload
        { fs := fs, inp := rest, conns := [],
          out := [sendLit "Upload failed: Destination path must start with ~S1/" 51] }).bind
        (S1.prcclient_loop env
          ((str "uploadf" ++ 32 :: (f ++ 32 :: d)).length + payload.length + weight rest
            + 1)) := by
  have hcmd0 : str "uploadf" ++ 32 :: (f ++ 32 :: d) ≠ [] := by simp [str]
  have hcmdl : (str "uploadf" ++ 32 :: (f ++ 32 :: d)).length ≤ BUFFER_SIZE - 1 := by
    have : (str "uploadf").length = 7 := by decide
    have hB : BUFFER_SIZE = 8192 := rfl
    simp only [List.length_append, List.length_cons, this, hB]
    omega
  unfold S1.prcclient
  have hw : weight (Event.data (str "uploadf" ++ 32 :: (f ++ 32 :: d)) ::
        Event.data payload :: rest) + 1
      = ((str "uploadf" ++ 32 :: (f ++ 32 :: d)).length + payload.length + weight rest + 1)
        + 1 + 1 := by
    simp only [weight]; omega
  rw [hw, S1.prcclient_loop, recv_head _ _ _ hcmd0 hcmdl]
  simp only []
  rw [S1.dispatch_uploadf env _ f d hf hd hlen,
    S1.uploadf_bad_destination env _ f d hf hd hlen hd4]
  simp only [List.nil_append]
  rw [S1.prcclient_loop, recv_head _ _ _ hp0 hpl]
  simp only []
  cases S1.dispatch env payload
      { fs := fs, inp := rest, conns := [],
        out := [sendLit "Upload failed: Destination path must start with ~S1/" 51] } with
  | none => rfl
  | some st1 => rfl

theorem C30_payload_as_command_witness :
    S1.prcclient demoEnv (demoTree [(str "/home/u/S1/a.c", Node.file [1] true true)])
        (Event.data (str "uploadf" ++ 32 :: (str "b.c" ++ 32 :: str "/tmp")) ::
          Event.data (str "removef ~S1/a.c") :: []) =
      some { fs := remove_ (demoTree [(str "/home/u/S1/a.c", Node.file [1] true true)])
                (str "/home/u/S1/a.c"),
             inp := [], conns := [],
             out := [sendLit "Upload failed: Destination path must start with ~S1/" 51,
               sendLit "File removed successfully" 25] } :=
  (C30_payload_as_command demoEnv (demoTree [(str "/home/u/S1/a.c", Node.file [1] true true)])
    (str "b.c") (str "/tmp") (str "removef ~S1/a.c") [] (by decide) (by decide) (by decide)
    (by decide) (by decide) (by decide)).trans rfl

end DFS
